import Mathlib

/-!
# Finance tracker: budget-spend reconciliation

A shallow embedding of the backend controllers
(`backend/controllers/transactionController.js`, `backend/models/Budget.js`,
`backend/routes/transactions.js`) and theorems about how the transaction
handlers keep `Budget.spent` in step with the stored transactions.

Conventions of the embedding.

* The two Mongo collections are lists of documents; `_id` is the primary key.
* The code computes with JavaScript numbers, that is in binary64. The
  transaction and budget handlers are embedded over whole-number amounts: an
  `Int` amount `n` is the JavaScript number `n`, so the validator bound `0.01`
  is `1 ≤ n`. One `+`, `-`, `max`, `abs` or comparison in a statement is the
  code's own operation. The theorems on the steady-state invariant, on the
  order of two adjustments and on the create/delete round trip rest on
  `(s + a) - a = s` and on the order of two sums; they are stated for whole
  numbers below `2 ^ 53` (`inExactRange`), where the binary64 handlers are the
  whole-number ones (`adjustSpent64_ofInt`, `updateBudgetSpent64_to64`,
  `createTransaction64_to64`, `deleteTransaction64_to64`).
* Section "Binary64 arithmetic" models the rounding itself (`Double`). The
  alert handler, whose test multiplies by `0.8`, and the statements in which a
  rounding decides the outcome are embedded over it.
* `new Date()` is an explicit argument `now` of every handler that reads the
  clock; a handler that reads it twice takes two readings.
* A store call that throws is an explicit `Faults` flag, so that the
  `try`/`catch` structure of the handlers is preserved.
-/

namespace FinanceTracker

/-! ## Data model -/

/-- Identifier of an authenticated user (`req.user.id`). -/
abbrev UserId := Nat

/-- Identifier of a stored document (`_id`). -/
abbrev ObjectId := Nat

/-- A JavaScript `Date`, held as its local-time calendar fields.
`monthIndex` is the zero-based month that `getMonth()` returns. -/
structure JsDate where
  fullYear : Nat
  monthIndex : Nat
  date : Nat
  hours : Nat
  minutes : Nat
  seconds : Nat
  milliseconds : Nat
deriving DecidableEq, Repr

/-- `Date.prototype.getMonth`: zero-based month. -/
def JsDate.getMonth (d : JsDate) : Nat := d.monthIndex

/-- `Date.prototype.getFullYear`. -/
def JsDate.getFullYear (d : JsDate) : Nat := d.fullYear

/-- Modelled from the spec: the `Transaction` document type. The schema file
`backend/models/Transaction.js` is not among the sources; the fields are the
ones the spec's data model lists (`user`, `type`, `category`, `amount`,
`description`, `date`, `createdAt`) plus the primary key. -/
structure Transaction where
  _id : ObjectId
  user : UserId
  type : String
  category : String
  amount : Int
  description : String
  date : JsDate
  createdAt : JsDate
deriving DecidableEq, Repr

/-- The `Budget` document type of `backend/models/Budget.js`. -/
structure Budget where
  _id : ObjectId
  user : UserId
  category : String
  amount : Int
  period : String
  spent : Int
  month : Nat
  year : Nat
  createdAt : JsDate
deriving DecidableEq, Repr

/-- The persistent state: both collections and the next fresh `_id`. -/
structure Store where
  transactions : List Transaction
  budgets : List Budget
  nextId : ObjectId
deriving DecidableEq, Repr

/-- Which store calls throw during one request. -/
structure Faults where
  txFind : Bool
  txSave : Bool
  txDelete : Bool
  budgetFind : Bool
  budgetSave : Bool
deriving DecidableEq, Repr

/-- No store call throws. -/
def Faults.none : Faults :=
  { txFind := false, txSave := false, txDelete := false,
    budgetFind := false, budgetSave := false }

/-- What a handler sends back. -/
inductive Response where
  | created (transaction : Transaction)
  | ok (transaction : Transaction)
  | okMessage (message : String)
  | badRequest
  | notFound (message : String)
  | serverError (message : String)
deriving DecidableEq, Repr

/-- HTTP status code of a response. -/
def Response.status : Response → Nat
  | .created _ => 201
  | .ok _ => 200
  | .okMessage _ => 200
  | .badRequest => 400
  | .notFound _ => 404
  | .serverError _ => 500

/-! ## Store primitives -/

/-- The query filter `{ user, category, month, year }` applied to one budget. -/
def Budget.hasKey (b : Budget) (user : UserId) (category : String)
    (month year : Nat) : Bool :=
  decide (b.user = user ∧ b.category = category ∧ b.month = month ∧ b.year = year)

/-- `Budget.findOne({ user, category, month, year })`: the first budget that
passes the filter. -/
def Budget.findOne (budgets : List Budget) (user : UserId) (category : String)
    (month year : Nat) : Option Budget :=
  budgets.find? (fun b => b.hasKey user category month year)

/-- `budget.save()`: the stored document with the same `_id` is overwritten. -/
def Budget.save (budgets : List Budget) (doc : Budget) : List Budget :=
  budgets.map (fun b => if b._id = doc._id then doc else b)

/-- `Transaction.findOne({ _id, user })`. -/
def Transaction.findOne (transactions : List Transaction) (id : ObjectId)
    (user : UserId) : Option Transaction :=
  transactions.find? (fun t => decide (t._id = id ∧ t.user = user))

/-- `transaction.save()` on a loaded document: the stored document with the
same `_id` is overwritten. -/
def Transaction.save (transactions : List Transaction) (doc : Transaction) :
    List Transaction :=
  transactions.map (fun t => if t._id = doc._id then doc else t)

/-- `Transaction.findByIdAndDelete(id)`. -/
def Transaction.findByIdAndDelete (transactions : List Transaction) (id : ObjectId) :
    List Transaction :=
  transactions.filter (fun t => decide (t._id ≠ id))

/-! ## Request bodies and validators (`backend/routes/transactions.js`) -/

/-- Body of `POST /transactions` after the sanitizers ran. -/
structure CreateBody where
  type : String
  amount : Int
  category : String
  description : String
  date : JsDate
deriving DecidableEq, Repr

/-- Body of `PUT /transactions/:id`. Every validated field is optional; `user`
is a field the validators do not look at but `Object.assign` copies. -/
structure UpdateBody where
  type : Option String
  amount : Option Int
  category : Option String
  description : Option String
  date : Option JsDate
  user : Option UserId
deriving DecidableEq, Repr

/-- `isIn(['income', 'expense'])`. -/
def isTransactionType (s : String) : Bool :=
  s = "income" || s = "expense"

/-- `validationResult(req).isEmpty()` for the create route. -/
def createValid (body : CreateBody) : Bool :=
  isTransactionType body.type && decide (1 ≤ body.amount) &&
    decide (body.category ≠ "") && decide (body.description ≠ "")

/-- `validationResult(req).isEmpty()` for the update route. -/
def updateValid (body : UpdateBody) : Bool :=
  (body.type.all isTransactionType) &&
    (body.amount.all (fun a => decide (1 ≤ a))) &&
    (body.category.all (fun c => decide (c ≠ ""))) &&
    (body.description.all (fun d => decide (d ≠ "")))

/-- `Object.assign(transaction, req.body)`: every field present in the body
replaces the document's field. -/
def Transaction.assign (t : Transaction) (body : UpdateBody) : Transaction :=
  { t with
    type := body.type.getD t.type
    amount := body.amount.getD t.amount
    category := body.category.getD t.category
    description := body.description.getD t.description
    date := body.date.getD t.date
    user := body.user.getD t.user }

/-! ## The reconciler and the handlers (`transactionController.js`) -/

/-- `updateBudgetSpent(userId, category, amount, operation)`, lines 202-226.
The budget is looked up by the month and year of `now`; a failing lookup or
save is caught and leaves the budgets as they were. -/
def updateBudgetSpent (f : Faults) (now : JsDate) (budgets : List Budget)
    (userId : UserId) (category : String) (amount : Int) (operation : String) :
    List Budget :=
  if f.budgetFind then budgets
  else
    let month := now.getMonth + 1
    let year := now.getFullYear
    match Budget.findOne budgets userId category month year with
    | none => budgets
    | some budget =>
      let budget :=
        if operation = "add" then { budget with spent := budget.spent + amount }
        else if operation = "subtract" then
          { budget with spent := max 0 (budget.spent - amount) }
        else budget
      if f.budgetSave then budgets else Budget.save budgets budget

/-- `createTransaction`, lines 41-68. -/
def createTransaction (f : Faults) (now : JsDate) (s : Store) (userId : UserId)
    (body : CreateBody) : Store × Response :=
  if !createValid body then (s, .badRequest)
  else if f.txSave then (s, .serverError "Server error")
  else
    let transaction : Transaction :=
      { _id := s.nextId, user := userId, type := body.type, category := body.category,
        amount := body.amount, description := body.description, date := body.date,
        createdAt := now }
    let transactions := s.transactions ++ [transaction]
    let budgets :=
      if transaction.type = "expense" then
        updateBudgetSpent f now s.budgets userId transaction.category transaction.amount "add"
      else s.budgets
    ({ transactions := transactions, budgets := budgets, nextId := s.nextId + 1 },
      .created transaction)

/-- `updateTransaction`, lines 71-112. `now` and `now2` are the clock readings
of the first and of the second reconciler call. -/
def updateTransaction (f : Faults) (now now2 : JsDate) (s : Store) (userId : UserId)
    (id : ObjectId) (body : UpdateBody) : Store × Response :=
  if !updateValid body then (s, .badRequest)
  else if f.txFind then (s, .serverError "Server error")
  else
    match Transaction.findOne s.transactions id userId with
    | none => (s, .notFound "Transaction not found")
    | some found =>
      let oldAmount := found.amount
      let oldCategory := found.category
      let transaction := found.assign body
      if f.txSave then (s, .serverError "Server error")
      else
        let transactions := Transaction.save s.transactions transaction
        let budgets :=
          if transaction.type = "expense" then
            if oldCategory = transaction.category then
              let diff := transaction.amount - oldAmount
              updateBudgetSpent f now s.budgets userId transaction.category |diff|
                (if diff > 0 then "add" else "subtract")
            else
              updateBudgetSpent f now2
                (updateBudgetSpent f now s.budgets userId oldCategory oldAmount "subtract")
                userId transaction.category transaction.amount "add"
          else s.budgets
        ({ s with transactions := transactions, budgets := budgets }, .ok transaction)

/-- `deleteTransaction`, lines 115-141. The budget is adjusted before the
transaction is removed. -/
def deleteTransaction (f : Faults) (now : JsDate) (s : Store) (userId : UserId)
    (id : ObjectId) : Store × Response :=
  if f.txFind then (s, .serverError "Server error")
  else
    match Transaction.findOne s.transactions id userId with
    | none => (s, .notFound "Transaction not found")
    | some transaction =>
      let budgets :=
        if transaction.type = "expense" then
          updateBudgetSpent f now s.budgets userId transaction.category transaction.amount
            "subtract"
        else s.budgets
      if f.txDelete then ({ s with budgets := budgets }, .serverError "Server error")
      else
        ({ s with
            transactions := Transaction.findByIdAndDelete s.transactions id
            budgets := budgets },
          .okMessage "Transaction deleted successfully")

/-! ## Sample data -/

/-- A clock reading in November 2026. -/
def nov2026 : JsDate :=
  { fullYear := 2026, monthIndex := 10, date := 4, hours := 12, minutes := 0,
    seconds := 0, milliseconds := 0 }

/-- A date in October 2026. -/
def oct2026 : JsDate :=
  { fullYear := 2026, monthIndex := 9, date := 15, hours := 9, minutes := 30,
    seconds := 0, milliseconds := 0 }

/-- User 7's "Food" budget for November 2026 with a given `spent`. -/
def foodBudget (spent : Int) : Budget :=
  { _id := 1, user := 7, category := "Food", amount := 100, period := "monthly",
    spent := spent, month := 11, year := 2026, createdAt := nov2026 }

/-- User 7's "Transport" budget for November 2026 with a given `spent`. -/
def transportBudget (spent : Int) : Budget :=
  { _id := 2, user := 7, category := "Transport", amount := 50, period := "monthly",
    spent := spent, month := 11, year := 2026, createdAt := nov2026 }

/-- A transaction of user 7, recorded in November 2026. -/
def sampleTx (id : ObjectId) (type category : String) (amount : Int) (date : JsDate) :
    Transaction :=
  { _id := id, user := 7, type := type, category := category, amount := amount,
    description := "sample", date := date, createdAt := nov2026 }

/-- An update body that changes nothing. -/
def UpdateBody.empty : UpdateBody :=
  { type := none, amount := none, category := none, description := none,
    date := none, user := none }

/-- A body that only sets a new amount. -/
def amountBody (a : Int) : UpdateBody :=
  { UpdateBody.empty with amount := some a }

/-- A store in which the November "Food" budget has `spent = 5` while user 7
also holds an October "Food" expense of 30. -/
def backdatedStore : Store :=
  { transactions :=
      [sampleTx 3 "expense" "Food" 30 oct2026, sampleTx 4 "expense" "Food" 5 nov2026]
    budgets := [foodBudget 5]
    nextId := 5 }

/-! ## The steady-state invariant of the spec -/

/-- The transaction `t` counts towards budget `b`: it is an expense of the
budget's user and category whose date lies in the budget's month and year. -/
def Budget.covers (b : Budget) (t : Transaction) : Bool :=
  decide (t.user = b.user ∧ t.type = "expense" ∧ t.category = b.category ∧
    t.date.getMonth + 1 = b.month ∧ t.date.getFullYear = b.year)

/-- What one transaction adds to the recomputed total of a budget. -/
def contribution (b : Budget) (t : Transaction) : Int :=
  if b.covers t then t.amount else 0

/-- The recomputed total of a budget: the sum of `amount` over the stored
transactions that count towards it. -/
def expenseTotal (transactions : List Transaction) (b : Budget) : Int :=
  ((transactions.filter b.covers).map (fun t => t.amount)).sum

/-- The steady-state invariant: every stored `spent` equals the recomputed total. -/
def SpentInSync (s : Store) : Prop :=
  ∀ b ∈ s.budgets, b.spent = expenseTotal s.transactions b

instance (s : Store) : Decidable (SpentInSync s) := by
  unfold SpentInSync
  infer_instance

/-- The key of the unique index of `Budget.js`. -/
def Budget.key (b : Budget) : UserId × String × Nat × Nat :=
  (b.user, b.category, b.month, b.year)

/-- What the store guarantees at rest: `_id` is a primary key of both
collections, the unique index on `(user, category, month, year)` holds, and no
stored amount is negative. -/
def Store.WellFormed (s : Store) : Prop :=
  (s.budgets.map (fun b => b._id)).Nodup ∧
  (s.budgets.map Budget.key).Nodup ∧
  (s.transactions.map (fun t => t._id)).Nodup ∧
  ∀ t ∈ s.transactions, 0 ≤ t.amount

instance (s : Store) : Decidable s.WellFormed := by
  unfold Store.WellFormed
  infer_instance

/-- The date `d` lies in the calendar month of the clock reading `now`. -/
def samePeriod (d now : JsDate) : Prop :=
  d.getMonth = now.getMonth ∧ d.getFullYear = now.getFullYear

instance (d now : JsDate) : Decidable (samePeriod d now) := by
  unfold samePeriod
  infer_instance

/-- A store at rest: one November "Food" expense of 30 and the "Food" and
"Transport" budgets with the matching `spent`. -/
def syncedStore : Store :=
  { transactions := [sampleTx 3 "expense" "Food" 30 nov2026]
    budgets := [foodBudget 30, transportBudget 0]
    nextId := 4 }

/-! ## Dates: construction and comparison -/

/-- Gregorian leap years. -/
def isLeapYear (year : Nat) : Bool :=
  (year % 4 = 0 && year % 100 ≠ 0) || year % 400 = 0

/-- Number of days of the month with zero-based index `monthIndex`. -/
def daysInMonth (year monthIndex : Nat) : Nat :=
  if monthIndex = 1 then (if isLeapYear year then 29 else 28)
  else if monthIndex = 3 ∨ monthIndex = 5 ∨ monthIndex = 8 ∨ monthIndex = 10 then 30
  else 31

/-- `new Date(year, monthIndex, day, hours, minutes, seconds, ms)` in local
time, for the arguments the controllers pass: a month index that may run over
into the next year, and a day that is either a day of the month or `0`, which
the constructor normalises to the last day of the previous month. -/
def JsDate.make (year monthIndex day hours minutes seconds ms : Nat) : JsDate :=
  let y := year + monthIndex / 12
  let m := monthIndex % 12
  if day = 0 then
    let py := if m = 0 then y - 1 else y
    let pm := if m = 0 then 11 else m - 1
    { fullYear := py, monthIndex := pm, date := daysInMonth py pm, hours := hours,
      minutes := minutes, seconds := seconds, milliseconds := ms }
  else
    { fullYear := y, monthIndex := m, date := day, hours := hours,
      minutes := minutes, seconds := seconds, milliseconds := ms }

/-- The calendar fields from the most to the least significant. -/
def JsDate.fields (d : JsDate) : List Nat :=
  [d.fullYear, d.monthIndex, d.date, d.hours, d.minutes, d.seconds, d.milliseconds]

/-- Comparison of two instants (`$lte` / `$gte` on dates): lexicographic on the
calendar fields, the local clock having a fixed offset. -/
def JsDate.le (a b : JsDate) : Bool :=
  decide (a.fields ≤ b.fields)

/-! ## Binary64 arithmetic

The numbers of the handlers are JavaScript numbers, that is IEEE 754 binary64
values, and `+`, `-`, `*`, `/` round their exact result to the nearest such
value, ties to the even mantissa. This section models that arithmetic on
finite values with an unbounded exponent: overflow to `Infinity`, gradual
underflow, `NaN` and the sign of zero are outside the model. -/

/-- A finite binary64 number, held as `mant * 2 ^ exp`. The same number has
several such pairs; the comparisons below compare the numbers. -/
structure Double where
  mant : Int
  exp : Int
deriving DecidableEq, Repr

/-- The pair holds its number with a mantissa of at most 53 bits. -/
def Double.isBinary64 (d : Double) : Prop := d.mant.natAbs ≤ 2 ^ 53

instance (d : Double) : Decidable d.isBinary64 := by
  unfold Double.isBinary64
  infer_instance

/-- Number of binary digits of `n`; `fuel` bounds the recursion and `n` itself
is always enough. -/
def bitLength : Nat → Nat → Nat
  | 0, _ => 0
  | fuel + 1, n => if n = 0 then 0 else bitLength fuel (n / 2) + 1

/-- The integer `d / 2 ^ e`, for `e` at most the exponent of `d`. -/
def Double.scaled (d : Double) (e : Int) : Int :=
  d.mant * ((2 ^ (d.exp - e).toNat : Nat) : Int)

/-- The comparison `a < b` of two numbers. -/
def Double.lt (a b : Double) : Bool :=
  decide (a.scaled (min a.exp b.exp) < b.scaled (min a.exp b.exp))

/-- The two pairs hold the same number. -/
def Double.eqv (a b : Double) : Bool :=
  decide (a.scaled (min a.exp b.exp) = b.scaled (min a.exp b.exp))

/-- The number held by the pair. -/
def Double.toRat (d : Double) : ℚ := (d.mant : ℚ) * (2 : ℚ) ^ d.exp

/-- Rounding of the exact value `m * 2 ^ e` to a mantissa of 53 bits: the low
`shift` bits are dropped, and the mantissa is incremented when they are more
than half of the last kept place, or exactly half with an odd kept mantissa. -/
def Double.round (m : Int) (e : Int) : Double :=
  let n := m.natAbs
  let shift := bitLength n n - 53
  let q := n / 2 ^ shift
  let r := n % 2 ^ shift
  let up := decide (2 ^ shift < 2 * r) || (decide (2 * r = 2 ^ shift) && decide (q % 2 = 1))
  ⟨m.sign * ((if up then q + 1 else q : Nat) : Int), e + (shift : Int)⟩

/-- The sum `a + b` of JavaScript: the exact sum, rounded. -/
def Double.add (a b : Double) : Double :=
  Double.round (a.scaled (min a.exp b.exp) + b.scaled (min a.exp b.exp)) (min a.exp b.exp)

/-- The difference `a - b` of JavaScript: the exact difference, rounded. -/
def Double.sub (a b : Double) : Double :=
  Double.round (a.scaled (min a.exp b.exp) - b.scaled (min a.exp b.exp)) (min a.exp b.exp)

/-- The product `a * b` of JavaScript: the exact product, rounded. -/
def Double.mul (a b : Double) : Double :=
  Double.round (a.mant * b.mant) (a.exp + b.exp)

/-- The quotient `a / b` of JavaScript for a divisor other than zero: the
integer quotient is taken with at least 55 bits, a last bit records whether the
division left a remainder, and the result is rounded. -/
def Double.div (a b : Double) : Double :=
  let k := bitLength b.mant.natAbs b.mant.natAbs + 55
  let n := a.mant.natAbs * 2 ^ k
  let q := n / b.mant.natAbs
  let sticky := if n % b.mant.natAbs = 0 then 0 else 1
  Double.round (a.mant.sign * b.mant.sign * ((2 * q + sticky : Nat) : Int))
    (a.exp - b.exp - (k : Int) - 1)

/-- `Math.max(a, b)`. -/
def Double.max (a b : Double) : Double :=
  if Double.lt a b then b else a

/-- A whole number as a binary64 value; exact below `2 ^ 53`. -/
def Double.ofInt (n : Int) : Double := ⟨n, 0⟩

/-- The value of the decimal literal `n / 10 ^ digits`, which is the binary64
number nearest to it. -/
def Double.ofDecimal (n : Int) (digits : Nat) : Double :=
  Double.div (Double.ofInt n) (Double.ofInt ((10 ^ digits : Nat) : Int))

/-- The literal `0.8`. -/
def Double.point8 : Double := ⟨7205759403792794, -53⟩

/-- The `Budget` document with `amount` and `spent` as the binary64 numbers
that the store holds. -/
structure Budget64 where
  _id : ObjectId
  user : UserId
  category : String
  amount : Double
  period : String
  spent : Double
  month : Nat
  year : Nat
  createdAt : JsDate
deriving DecidableEq, Repr

/-- `Budget.findOne({ user, category, month, year })` on these documents. -/
def Budget64.findOne (budgets : List Budget64) (user : UserId) (category : String)
    (month year : Nat) : Option Budget64 :=
  budgets.find? (fun b =>
    decide (b.user = user ∧ b.category = category ∧ b.month = month ∧ b.year = year))

/-- `budget.save()` on these documents. -/
def Budget64.save (budgets : List Budget64) (doc : Budget64) : List Budget64 :=
  budgets.map (fun b => if b._id = doc._id then doc else b)

/-- `Budget.find({ user, month, year })` on these documents. -/
def Budget64.find (budgets : List Budget64) (user : UserId) (month year : Nat) :
    List Budget64 :=
  budgets.filter (fun b => decide (b.user = user ∧ b.month = month ∧ b.year = year))

/-- The new `spent` of lines 216-220, computed in binary64. -/
def adjustSpent64 (spent amount : Double) (operation : String) : Double :=
  if operation = "add" then Double.add spent amount
  else if operation = "subtract" then Double.max (Double.ofInt 0) (Double.sub spent amount)
  else spent

/-- `updateBudgetSpent(userId, category, amount, operation)`, lines 202-226, on
the numbers the code computes with. -/
def updateBudgetSpent64 (f : Faults) (now : JsDate) (budgets : List Budget64)
    (userId : UserId) (category : String) (amount : Double) (operation : String) :
    List Budget64 :=
  if f.budgetFind then budgets
  else
    let month := now.getMonth + 1
    let year := now.getFullYear
    match Budget64.findOne budgets userId category month year with
    | none => budgets
    | some budget =>
      let budget := { budget with spent := adjustSpent64 budget.spent amount operation }
      if f.budgetSave then budgets else Budget64.save budgets budget

/-- The largest magnitude up to which binary64 holds every whole number. -/
def maxExact : Int := 9007199254740992

/-! ## Budget controller (`backend/controllers/budgetController.js`) -/

/-- Body of `POST /budgets` after the sanitizers ran. -/
structure BudgetBody where
  category : String
  amount : Int
  period : Option String
  month : Option Nat
  year : Option Nat
deriving DecidableEq, Repr

/-- `isIn(['weekly', 'monthly', 'yearly'])`. -/
def isPeriod (s : String) : Bool :=
  s = "weekly" || s = "monthly" || s = "yearly"

/-- `validationResult(req).isEmpty()` for the create-budget route
(`backend/routes/budgets.js`). -/
def budgetValid (body : BudgetBody) : Bool :=
  decide (body.category ≠ "") && decide (1 ≤ body.amount) &&
    body.period.all isPeriod &&
    body.month.all (fun m => decide (1 ≤ m ∧ m ≤ 12)) &&
    body.year.all (fun y => decide (2020 ≤ y ∧ y ≤ 2030))

/-- `value || fallback` for an optional number of a JSON body: a missing value
and `0` are both falsy. -/
def orElse (value : Option Nat) (fallback : Nat) : Nat :=
  match value with
  | some n => if n = 0 then fallback else n
  | none => fallback

/-- What a budget handler that writes sends back. The validation failure
carries an `errors` array, the other failures a `message`. -/
inductive BudgetResponse where
  | created (budget : Budget)
  | ok (budget : Budget)
  | okMessage (message : String)
  | validationErrors
  | badRequest (message : String)
  | notFound (message : String)
  | serverError (message : String)
deriving DecidableEq, Repr

/-- HTTP status code of a budget response. -/
def BudgetResponse.status : BudgetResponse → Nat
  | .created _ => 201
  | .ok _ => 200
  | .okMessage _ => 200
  | .validationErrors => 400
  | .badRequest _ => 400
  | .notFound _ => 404
  | .serverError _ => 500

/-- Why saving a new document failed: the unique index rejected it
(`error.code === 11000`) or the store call threw for another reason. -/
inductive SaveError where
  | duplicateKey
  | other
deriving DecidableEq, Repr

/-- `budget.save()` on a new document under the unique index
`{ user, category, month, year }` of `Budget.js`. -/
def Budget.insert (budgets : List Budget) (doc : Budget) : Except SaveError (List Budget) :=
  if budgets.any (fun b => decide (b.key = doc.key)) then .error .duplicateKey
  else .ok (budgets ++ [doc])

/-- The `$match` stage of the seeding aggregate of `createBudget`. -/
def seedMatch (userId : UserId) (category : String) (startDate endDate : JsDate)
    (t : Transaction) : Bool :=
  decide (t.user = userId) && decide (t.type = "expense") &&
    decide (t.category = category) && startDate.le t.date && t.date.le endDate

/-- The stage `$group: { _id: null, total: { $sum: '$amount' } }`: one group
holding the total when some document reaches the stage, no group otherwise. -/
def groupTotal (matched : List Transaction) : List Int :=
  if matched.isEmpty then [] else [(matched.map (fun t => t.amount)).sum]

/-- `createBudget`, lines 30-90. -/
def createBudget (f : Faults) (now : JsDate) (s : Store) (userId : UserId)
    (body : BudgetBody) : Store × BudgetResponse :=
  if !budgetValid body then (s, .validationErrors)
  else
    let category := body.category
    let amount := body.amount
    let period := body.period.getD "monthly"
    let month := orElse body.month (now.getMonth + 1)
    let year := orElse body.year now.getFullYear
    let startDate := JsDate.make year (month - 1) 1 0 0 0 0
    let endDate := JsDate.make year month 0 23 59 59 0
    if f.txFind then (s, .serverError "Server error")
    else
      let spentResult :=
        groupTotal (s.transactions.filter (seedMatch userId category startDate endDate))
      let spent := match spentResult with
        | total :: _ => total
        | [] => 0
      let budget : Budget :=
        { _id := s.nextId, user := userId, category := category, amount := amount,
          period := period, spent := spent, month := month, year := year,
          createdAt := now }
      if f.budgetSave then (s, .serverError "Server error")
      else
        match Budget.insert s.budgets budget with
        | .error .duplicateKey =>
          (s, .badRequest "Budget for this category and period already exists")
        | .error .other => (s, .serverError "Server error")
        | .ok budgets =>
          ({ s with budgets := budgets, nextId := s.nextId + 1 }, .created budget)

/-- What a read-only handler sends back: the payload of the success response
or the message of the 500 response. -/
inductive Reply (α : Type) where
  | success (payload : α)
  | serverError (message : String)
deriving DecidableEq, Repr

/-- `Budget.find({ user, month, year })` without a sort: the budgets that pass
the filter. The query names no order, so the store decides it; the order of the
list `budgets` stands for the order in which the store hands the documents
over, which is the insertion order when it scans the collection. -/
def Budget.find (budgets : List Budget) (user : UserId) (month year : Nat) :
    List Budget :=
  budgets.filter (fun b => decide (b.user = user ∧ b.month = month ∧ b.year = year))

/-- One element of `overview.categories`. -/
structure CategoryOverview where
  category : String
  budgeted : Int
  spent : Int
  remaining : Int
  percentage : ℚ
deriving DecidableEq, Repr

/-- The `overview` object of `getBudgetOverview`. -/
structure Overview where
  totalBudgeted : Int
  totalSpent : Int
  budgetCount : Nat
  overBudgetCount : Nat
  categories : List CategoryOverview
deriving DecidableEq, Repr

/-- The object pushed onto `overview.categories` for one budget, lines 175-181. -/
def categoryEntry (budget : Budget) : CategoryOverview :=
  { category := budget.category
    budgeted := budget.amount
    spent := budget.spent
    remaining := budget.amount - budget.spent
    percentage :=
      if budget.amount > 0 then ((budget.spent : ℚ) / (budget.amount : ℚ)) * 100 else 0 }

/-- The body of `budgets.forEach`, lines 167-182. -/
def overviewStep (overview : Overview) (budget : Budget) : Overview :=
  { overview with
    totalBudgeted := overview.totalBudgeted + budget.amount
    totalSpent := overview.totalSpent + budget.spent
    overBudgetCount :=
      if budget.spent > budget.amount then overview.overBudgetCount + 1
      else overview.overBudgetCount
    categories := overview.categories ++ [categoryEntry budget] }

/-- `getBudgetOverview`, lines 147-192. `qmonth` and `qyear` are the query
parameters; a parameter that is present is a non-empty string and so truthy. -/
def getBudgetOverview (f : Faults) (now : JsDate) (s : Store) (userId : UserId)
    (qmonth qyear : Option Nat) : Reply Overview :=
  let month := qmonth.getD (now.getMonth + 1)
  let year := qyear.getD now.getFullYear
  if f.budgetFind then .serverError "Server error"
  else
    let budgets := Budget.find s.budgets userId month year
    .success (budgets.foldl overviewStep
      { totalBudgeted := 0, totalSpent := 0, budgetCount := budgets.length,
        overBudgetCount := 0, categories := [] })

/-- One element of the `alerts` array. `percentage` is `none` when the
division by `amount = 0` yields no finite number. -/
structure Alert where
  category : String
  spent : Double
  amount : Double
  percentage : Option Double
deriving DecidableEq, Repr

/-- The filter of `getBudgetAlerts`, line 203: `spent > amount * 0.8`, with the
product rounded as the code rounds it. -/
def overThreshold (budget : Budget64) : Bool :=
  Double.lt (Double.mul budget.amount Double.point8) budget.spent

/-- The object an alerting budget is mapped to, lines 208-213. -/
def alertOf (budget : Budget64) : Alert :=
  { category := budget.category
    spent := budget.spent
    amount := budget.amount
    percentage :=
      if budget.amount.mant = 0 then none
      else some (Double.mul (Double.div budget.spent budget.amount) (Double.ofInt 100)) }

/-- `getBudgetAlerts`, lines 193-218, on the budgets as the store holds them. -/
def getBudgetAlerts (f : Faults) (now : JsDate) (budgets : List Budget64)
    (userId : UserId) : Reply (List Alert) :=
  if f.budgetFind then .serverError "Server error"
  else
    let budgets := Budget64.find budgets userId (now.getMonth + 1) now.getFullYear
    let alerts := budgets.filter overThreshold
    .success (alerts.map alertOf)

/-- The counter `overBudgetCount` of `getBudgetOverview`, lines 171-173, on the
budgets as the store holds them: one more for every budget with
`spent > amount`. -/
def overBudgetCount (budgets : List Budget64) : Nat :=
  budgets.foldl (fun count budget =>
    if Double.lt budget.amount budget.spent then count + 1 else count) 0

/-! ## Statistics (`getStats`, `transactionController.js` lines 144-199) -/

/-- One output document of a `$group` stage with `total` and `count`. -/
structure GroupStat where
  _id : String
  total : Int
  count : Nat
deriving DecidableEq, Repr

/-- The stage `$group: { _id: key, total: { $sum: '$amount' }, count: { $sum: 1 } }`:
one document per distinct key. -/
def groupBy (key : Transaction → String) (transactions : List Transaction) :
    List GroupStat :=
  (transactions.map key).dedup.map (fun k =>
    { _id := k
      total := ((transactions.filter (fun t => decide (key t = k))).map
        (fun t => t.amount)).sum
      count := (transactions.filter (fun t => decide (key t = k))).length })

/-- The stage `$sort: { total: -1 }`. -/
def sortByTotalDesc (stats : List GroupStat) : List GroupStat :=
  stats.insertionSort (fun a b => a.total ≥ b.total)

/-- The `date` part of the match stage: `$gte` and `$lte` bounds, each present
only when the query carries it. -/
def inRange (startDate endDate : Option JsDate) (d : JsDate) : Bool :=
  startDate.all (fun lo => lo.le d) && endDate.all (fun hi => d.le hi)

/-- The value held by `result.categoryBreakdown`: the sorted groups, or a
number when a group named `categoryBreakdown` overwrote the property. -/
inductive Breakdown where
  | groups (stats : List GroupStat)
  | number (total : Int)
deriving DecidableEq, Repr

/-- The `result` object of `getStats`; `extra` holds properties added under
other names. -/
structure Stats where
  income : Int
  expense : Int
  balance : Int
  categoryBreakdown : Breakdown
  extra : List (String × Int)
deriving DecidableEq, Repr

/-- `result[stat._id] = stat.total`, line 186. -/
def setStat (result : Stats) (stat : GroupStat) : Stats :=
  if stat._id = "income" then { result with income := stat.total }
  else if stat._id = "expense" then { result with expense := stat.total }
  else if stat._id = "balance" then { result with balance := stat.total }
  else if stat._id = "categoryBreakdown" then
    { result with categoryBreakdown := .number stat.total }
  else { result with extra := result.extra ++ [(stat._id, stat.total)] }

/-- `getStats`, lines 144-199. -/
def getStats (f : Faults) (s : Store) (userId : UserId)
    (startDate endDate : Option JsDate) : Reply Stats :=
  if f.txFind then .serverError "Server error"
  else
    let matched := s.transactions.filter (fun t =>
      decide (t.user = userId) && inRange startDate endDate t.date)
    let stats := groupBy (fun t => t.type) matched
    let categoryStats := sortByTotalDesc
      (groupBy (fun t => t.category) (matched.filter (fun t => decide (t.type = "expense"))))
    let result := stats.foldl setStat
      { income := 0, expense := 0, balance := 0,
        categoryBreakdown := .groups categoryStats, extra := [] }
    .success { result with balance := result.income - result.expense }

/-- The last half second of November 2026. -/
def lateNov2026 : JsDate :=
  { fullYear := 2026, monthIndex := 10, date := 30, hours := 23, minutes := 59,
    seconds := 59, milliseconds := 500 }

/-- A body asking for a budget of 100 in a category, for the current period. -/
def budgetBody (category : String) : BudgetBody :=
  { category := category, amount := 100, period := none, month := none, year := none }

/-- A ledger without budgets: of user 7's transactions only the November "Food"
expense of 30 counts towards a November "Food" budget; user 8 holds another. -/
def mixedLedger : Store :=
  { transactions :=
      [sampleTx 3 "expense" "Food" 30 nov2026, sampleTx 4 "expense" "Food" 5 oct2026,
       sampleTx 5 "income" "Food" 10 nov2026, sampleTx 6 "expense" "Transport" 7 nov2026,
       { sampleTx 7 "expense" "Food" 9 nov2026 with user := 8 }]
    budgets := []
    nextId := 8 }

/-- The three budgets of the spec's overview example, stored with "Transport"
first: `{100, 50}`, `{50, 60}` and `{0, 0}` as `{amount, spent}`. -/
def threeBudgets : Store :=
  { transactions := []
    budgets :=
      [{ transportBudget 60 with amount := 50 }, { foodBudget 50 with amount := 100 },
       { _id := 3, user := 7, category := "Unused", amount := 0, period := "monthly",
         spent := 0, month := 11, year := 2026, createdAt := nov2026 }]
    nextId := 4 }

/-- A budget of user 7 for a month of 2026, with its numbers in binary64. -/
def budget64 (id : ObjectId) (category : String) (amount spent : Double) (month : Nat) :
    Budget64 :=
  { _id := id, user := 7, category := category, amount := amount, period := "monthly",
    spent := spent, month := month, year := 2026, createdAt := nov2026 }

/-- User 7's budgets of amount 100: November "Food" with `spent = 81`, November
"Transport" with `spent = 80`, an October "Food" budget with `spent = 99`, and
a November budget with `amount = 0` and `spent = 0`. -/
def alertBudgets : List Budget64 :=
  [budget64 1 "Food" (Double.ofInt 100) (Double.ofInt 81) 11,
   budget64 2 "Transport" (Double.ofInt 100) (Double.ofInt 80) 11,
   budget64 3 "Food" (Double.ofInt 100) (Double.ofInt 99) 10,
   budget64 4 "Unused" (Double.ofInt 0) (Double.ofInt 0) 11]

/-- A ledger of user 7: "Food" expenses of 10 and 5, a "Bus" expense of 30 and a
"Pay" income of 100, all in November 2026. -/
def statsLedger : Store :=
  { transactions :=
      [sampleTx 1 "expense" "Food" 10 nov2026, sampleTx 2 "income" "Pay" 100 nov2026,
       sampleTx 3 "expense" "Bus" 30 nov2026, sampleTx 4 "expense" "Food" 5 nov2026]
    budgets := []
    nextId := 5 }

/-- Every budget call throws, no transaction call does. -/
def Faults.budgetStoreDown : Faults :=
  { txFind := false, txSave := false, txDelete := false,
    budgetFind := true, budgetSave := true }

/-! ## Updating a budget (`updateBudget`, `budgetController.js` lines 93-120) -/

/-- Body of `PUT /budgets/:id`. The validators look at `category`, `amount` and
`period` only; the other fields are copied by `Object.assign` all the same. -/
structure BudgetUpdateBody where
  category : Option String
  amount : Option Int
  period : Option String
  spent : Option Int
  month : Option Nat
  year : Option Nat
  user : Option UserId
deriving DecidableEq, Repr

/-- `validationResult(req).isEmpty()` for the update-budget route. -/
def budgetUpdateValid (body : BudgetUpdateBody) : Bool :=
  body.category.all (fun c => decide (c ≠ "")) &&
    body.amount.all (fun a => decide (1 ≤ a)) &&
    body.period.all isPeriod

/-- `Object.assign(budget, req.body)`. -/
def Budget.assign (b : Budget) (body : BudgetUpdateBody) : Budget :=
  { b with
    category := body.category.getD b.category
    amount := body.amount.getD b.amount
    period := body.period.getD b.period
    spent := body.spent.getD b.spent
    month := body.month.getD b.month
    year := body.year.getD b.year
    user := body.user.getD b.user }

/-- `Budget.findOne({ _id, user })`. -/
def Budget.findOneById (budgets : List Budget) (id : ObjectId) (user : UserId) :
    Option Budget :=
  budgets.find? (fun b => decide (b._id = id ∧ b.user = user))

/-- The validators of `BudgetSchema`, run by `save()`: `category` required,
`amount` at least 0, `period` in its enum, `month` between 1 and 12. -/
def Budget.schemaValid (b : Budget) : Bool :=
  decide (b.category ≠ "") && decide (0 ≤ b.amount) && isPeriod b.period &&
    decide (1 ≤ b.month ∧ b.month ≤ 12)

/-- `budget.save()` on a loaded document: rejected by the schema validators or
by the unique index when another document carries the new key, else the stored
document with the same `_id` is overwritten. -/
def Budget.update (budgets : List Budget) (doc : Budget) : Except SaveError (List Budget) :=
  if !doc.schemaValid then .error .other
  else if budgets.any (fun b => decide (b._id ≠ doc._id ∧ b.key = doc.key)) then
    .error .duplicateKey
  else .ok (Budget.save budgets doc)

/-- `updateBudget`, lines 93-120. Every failure of `save()` ends in the generic
500 response. -/
def updateBudget (f : Faults) (s : Store) (userId : UserId) (id : ObjectId)
    (body : BudgetUpdateBody) : Store × BudgetResponse :=
  if !budgetUpdateValid body then (s, .validationErrors)
  else if f.budgetFind then (s, .serverError "Server error")
  else
    match Budget.findOneById s.budgets id userId with
    | none => (s, .notFound "Budget not found")
    | some found =>
      let budget := found.assign body
      if f.budgetSave then (s, .serverError "Server error")
      else
        match Budget.update s.budgets budget with
        | .error _ => (s, .serverError "Server error")
        | .ok budgets => ({ s with budgets := budgets }, .ok budget)

/-- An update body for a budget that changes nothing. -/
def BudgetUpdateBody.empty : BudgetUpdateBody :=
  { category := none, amount := none, period := none, spent := none, month := none,
    year := none, user := none }

/-! ## The reconciler step by step -/

/-- The new `spent` computed at lines 216-220 of `transactionController.js`. -/
def adjustSpent (spent amount : Int) (operation : String) : Int :=
  if operation = "add" then spent + amount
  else if operation = "subtract" then max 0 (spent - amount)
  else spent

/-- First half of `updateBudgetSpent`, lines 204-213: the clock is read and
the budget lookup is awaited. -/
def reconcileRead (now : JsDate) (budgets : List Budget) (userId : UserId)
    (category : String) : Option Budget :=
  Budget.findOne budgets userId category (now.getMonth + 1) now.getFullYear

/-- Second half of `updateBudgetSpent`, lines 215-222: the loaded document gets
its new `spent` and is saved. -/
def reconcileWrite (budgets : List Budget) (loaded : Option Budget) (amount : Int)
    (operation : String) : List Budget :=
  match loaded with
  | none => budgets
  | some budget =>
    Budget.save budgets { budget with spent := adjustSpent budget.spent amount operation }

/-- The arguments of one call of `updateBudgetSpent`. -/
structure Reconciliation where
  userId : UserId
  category : String
  amount : Int
  operation : String
deriving DecidableEq, Repr

/-- One step of two reconciliations in flight: which of the two moves (`first`
says whether it is the first one) and whether it reads or writes. Control can
pass from one request to another only at an `await`, so a reconciliation is two
steps. -/
inductive RaceStep where
  | read (first : Bool)
  | write (first : Bool)
deriving DecidableEq, Repr

/-- The budget collection together with what each reconciliation has loaded so
far (`none` before its read). -/
structure RaceState where
  budgets : List Budget
  loadedFirst : Option (Option Budget)
  loadedSecond : Option (Option Budget)
deriving DecidableEq, Repr

/-- One step of the race. A write before the reconciliation's own read does
nothing. -/
def raceStep (now : JsDate) (r1 r2 : Reconciliation) (st : RaceState) :
    RaceStep → RaceState
  | .read true =>
    { st with loadedFirst := some (reconcileRead now st.budgets r1.userId r1.category) }
  | .read false =>
    { st with loadedSecond := some (reconcileRead now st.budgets r2.userId r2.category) }
  | .write true =>
    match st.loadedFirst with
    | none => st
    | some loaded =>
      { st with budgets := reconcileWrite st.budgets loaded r1.amount r1.operation }
  | .write false =>
    match st.loadedSecond with
    | none => st
    | some loaded =>
      { st with budgets := reconcileWrite st.budgets loaded r2.amount r2.operation }

/-- The budgets left by running a schedule of steps. -/
def runSchedule (now : JsDate) (r1 r2 : Reconciliation) (budgets : List Budget)
    (steps : List RaceStep) : List Budget :=
  (steps.foldl (raceStep now r1 r2)
    { budgets := budgets, loadedFirst := none, loadedSecond := none }).budgets

/-- The six interleavings of two reconciliations: each reads once and writes
once, reading before it writes. -/
def interleavings : List (List RaceStep) :=
  [[.read true, .write true, .read false, .write false],
   [.read false, .write false, .read true, .write true],
   [.read true, .read false, .write true, .write false],
   [.read true, .read false, .write false, .write true],
   [.read false, .read true, .write true, .write false],
   [.read false, .read true, .write false, .write true]]

/-- Two November budgets of user 7: "Food" with `amount = 1.15` and
`spent = 0.92`, and "Transport" with `amount = 50` and `spent = 60`. -/
def tightBudgets : List Budget64 :=
  [budget64 1 "Food" (Double.ofDecimal 115 2) (Double.ofDecimal 92 2) 11,
   budget64 2 "Transport" (Double.ofInt 50) (Double.ofInt 60) 11]

/-! ## Creating and deleting on binary64 amounts -/

/-- The `Transaction` document with `amount` as the binary64 number that the
store holds. -/
structure Transaction64 where
  _id : ObjectId
  user : UserId
  type : String
  category : String
  amount : Double
  description : String
  date : JsDate
  createdAt : JsDate
deriving DecidableEq, Repr

/-- Both collections with their numbers in binary64, and the next fresh `_id`. -/
structure Store64 where
  transactions : List Transaction64
  budgets : List Budget64
  nextId : ObjectId
deriving DecidableEq, Repr

/-- Body of `POST /transactions` with the amount as the number it parses to. -/
structure CreateBody64 where
  type : String
  amount : Double
  category : String
  description : String
  date : JsDate
deriving DecidableEq, Repr

/-- `validationResult(req).isEmpty()` for the create route; `isFloat({ min: 0.01 })`
rejects an amount below `0.01`. -/
def createValid64 (body : CreateBody64) : Bool :=
  isTransactionType body.type && !(Double.lt body.amount (Double.ofDecimal 1 2)) &&
    decide (body.category ≠ "") && decide (body.description ≠ "")

/-- `createTransaction`, lines 41-68, on binary64 amounts; the second
component is the status of the response. -/
def createTransaction64 (f : Faults) (now : JsDate) (s : Store64) (userId : UserId)
    (body : CreateBody64) : Store64 × Nat :=
  if !createValid64 body then (s, 400)
  else if f.txSave then (s, 500)
  else
    let transaction : Transaction64 :=
      { _id := s.nextId, user := userId, type := body.type, category := body.category,
        amount := body.amount, description := body.description, date := body.date,
        createdAt := now }
    let transactions := s.transactions ++ [transaction]
    let budgets :=
      if transaction.type = "expense" then
        updateBudgetSpent64 f now s.budgets userId transaction.category transaction.amount
          "add"
      else s.budgets
    ({ transactions := transactions, budgets := budgets, nextId := s.nextId + 1 }, 201)

/-- `deleteTransaction`, lines 115-141, on binary64 amounts; the second
component is the status of the response. -/
def deleteTransaction64 (f : Faults) (now : JsDate) (s : Store64) (userId : UserId)
    (id : ObjectId) : Store64 × Nat :=
  if f.txFind then (s, 500)
  else
    match s.transactions.find? (fun t => decide (t._id = id ∧ t.user = userId)) with
    | none => (s, 404)
    | some transaction =>
      let budgets :=
        if transaction.type = "expense" then
          updateBudgetSpent64 f now s.budgets userId transaction.category
            transaction.amount "subtract"
        else s.budgets
      if f.txDelete then ({ s with budgets := budgets }, 500)
      else
        ({ s with
            transactions := s.transactions.filter (fun t => decide (t._id ≠ id))
            budgets := budgets },
          200)

/-- A store that holds only user 7's November "Food" budget of amount 100, with
a given `spent`. -/
def foodStore64 (spent : Double) : Store64 :=
  { transactions := []
    budgets := [budget64 1 "Food" (Double.ofInt 100) spent 11]
    nextId := 2 }

/-- A "Food" expense of a given amount, dated in November 2026. -/
def foodExpense64 (amount : Double) : CreateBody64 :=
  { type := "expense", amount := amount, category := "Food", description := "lunch",
    date := nov2026 }

/-- The whole numbers on which the arithmetic of a reconciliation is exact in
binary64: the amount, and its sum with the `spent` of every budget, lie below
`2 ^ 53`. -/
def inExactRange (budgets : List Budget) (amount : Int) : Prop :=
  amount < maxExact ∧ ∀ b ∈ budgets, b.spent + amount < maxExact

instance (budgets : List Budget) (amount : Int) : Decidable (inExactRange budgets amount) := by
  unfold inExactRange
  infer_instance

/-! ## Whole-number documents as binary64 documents -/

/-- The budget with the same whole numbers, held in binary64. -/
def Budget.to64 (b : Budget) : Budget64 :=
  { _id := b._id, user := b.user, category := b.category,
    amount := Double.ofInt b.amount, period := b.period, spent := Double.ofInt b.spent,
    month := b.month, year := b.year, createdAt := b.createdAt }

/-- The transaction with the same whole amount, held in binary64. -/
def Transaction.to64 (t : Transaction) : Transaction64 :=
  { _id := t._id, user := t.user, type := t.type, category := t.category,
    amount := Double.ofInt t.amount, description := t.description, date := t.date,
    createdAt := t.createdAt }

/-- The store with the same whole numbers, held in binary64. -/
def Store.to64 (s : Store) : Store64 :=
  { transactions := s.transactions.map Transaction.to64
    budgets := s.budgets.map Budget.to64
    nextId := s.nextId }

/-- The request body with the same whole amount, held in binary64. -/
def CreateBody.to64 (body : CreateBody) : CreateBody64 :=
  { type := body.type, amount := Double.ofInt body.amount, category := body.category,
    description := body.description, date := body.date }

/-! ## Lemmas on the store primitives -/

theorem Budget.hasKey_iff (b : Budget) (u : UserId) (c : String) (m y : Nat) :
    b.hasKey u c m y = true ↔ b.user = u ∧ b.category = c ∧ b.month = m ∧ b.year = y := by
  simp [Budget.hasKey]

theorem Budget.findOne_some {bs : List Budget} {u : UserId} {c : String} {m y : Nat}
    {b : Budget} (h : Budget.findOne bs u c m y = some b) :
    b ∈ bs ∧ b.hasKey u c m y = true := by
  unfold Budget.findOne at h
  exact ⟨List.mem_of_find?_eq_some h, @List.find?_some Budget (fun x => x.hasKey u c m y) _ _ h⟩

theorem Budget.findOne_none {bs : List Budget} {u : UserId} {c : String} {m y : Nat}
    (h : Budget.findOne bs u c m y = none) :
    ∀ b ∈ bs, b.hasKey u c m y = false := by
  unfold Budget.findOne at h
  intro b hb
  have := List.find?_eq_none.mp h b hb
  simpa using this

/-- Saving a changed copy of the budget a query finds makes the same query
find the changed copy. -/
theorem Budget.findOne_save_same {bs : List Budget} {u : UserId} {c : String} {m y : Nat}
    {b doc : Budget} (h : Budget.findOne bs u c m y = some b)
    (hid : doc._id = b._id) (hkey : doc.hasKey u c m y = true) :
    Budget.findOne (Budget.save bs doc) u c m y = some doc := by
  induction bs with
  | nil => simp [Budget.findOne] at h
  | cons x xs ih =>
    by_cases hx : x.hasKey u c m y = true
    · have hxb : x = b := by simpa [Budget.findOne, hx] using h
      subst hxb
      simp [Budget.findOne, Budget.save, hid, hkey]
    · have hxs : Budget.findOne xs u c m y = some b := by
        simpa [Budget.findOne, hx] using h
      have ih2 := ih hxs
      by_cases hxid : x._id = doc._id
      · simp [Budget.findOne, Budget.save, hxid, hkey]
      · simp only [Budget.findOne, Budget.save, List.map_cons, hxid, if_false] at ih2 ⊢
        simp only [List.find?_cons, hx]
        exact ih2

/-- Saving a document leaves a query untouched when neither the document nor
any stored budget with its `_id` passes the query's filter. -/
theorem Budget.findOne_save_other {bs : List Budget} {u : UserId} {c : String} {m y : Nat}
    {doc : Budget} (hdoc : doc.hasKey u c m y = false)
    (hold : ∀ x ∈ bs, x._id = doc._id → x.hasKey u c m y = false) :
    Budget.findOne (Budget.save bs doc) u c m y = Budget.findOne bs u c m y := by
  induction bs with
  | nil => rfl
  | cons x xs ih =>
    have ih2 := ih (fun z hz => hold z (List.mem_cons_of_mem _ hz))
    simp only [Budget.findOne, Budget.save] at ih2
    by_cases hxid : x._id = doc._id
    · have hx := hold x (List.mem_cons_self _ _) hxid
      simp [Budget.findOne, Budget.save, hxid, hdoc, hx]
      simpa [hxid] using ih2
    · by_cases hx : x.hasKey u c m y = true
      · simp [Budget.findOne, Budget.save, hxid, hx]
      · simp [Budget.findOne, Budget.save, hxid, hx]
        simpa using ih2

/-! ## Lemmas on the reconciler -/

theorem updateBudgetSpent_not_found (f : Faults) (now : JsDate) (bs : List Budget)
    (u : UserId) (c : String) (a : Int) (op : String)
    (h : Budget.findOne bs u c (now.getMonth + 1) now.getFullYear = none) :
    updateBudgetSpent f now bs u c a op = bs := by
  unfold updateBudgetSpent
  split
  · rfl
  · simp [h]

theorem updateBudgetSpent_found_add (now : JsDate) (bs : List Budget)
    (u : UserId) (c : String) (a : Int) (b : Budget)
    (h : Budget.findOne bs u c (now.getMonth + 1) now.getFullYear = some b) :
    updateBudgetSpent Faults.none now bs u c a "add"
      = Budget.save bs { b with spent := b.spent + a } := by
  simp [updateBudgetSpent, Faults.none, h]

theorem updateBudgetSpent_found_subtract (now : JsDate) (bs : List Budget)
    (u : UserId) (c : String) (a : Int) (b : Budget)
    (h : Budget.findOne bs u c (now.getMonth + 1) now.getFullYear = some b) :
    updateBudgetSpent Faults.none now bs u c a "subtract"
      = Budget.save bs { b with spent := max 0 (b.spent - a) } := by
  simp [updateBudgetSpent, Faults.none, h]

/-- After an adjustment of a budget the query that found it finds the adjusted
document. -/
theorem Budget.findOne_save_spent {bs : List Budget} {u : UserId} {c : String} {m y : Nat}
    {b : Budget} (h : Budget.findOne bs u c m y = some b) (v : Int) :
    Budget.findOne (Budget.save bs { b with spent := v }) u c m y
      = some { b with spent := v } := by
  have hk := (Budget.findOne_some h).2
  refine @Budget.findOne_save_same bs u c m y b _ h rfl ?_
  simpa [Budget.hasKey] using hk

/-! ## Creating and deleting an expense -/

/-- C2: creating an expense whose (user, category, clock month, clock year)
budget exists succeeds and leaves that budget with its previous `spent` plus the
transaction's amount. -/
theorem createTransaction_expense_adds (now : JsDate) (s : Store) (userId : UserId)
    (body : CreateBody) (b : Budget)
    (hvalid : createValid body = true) (htype : body.type = "expense")
    (hb : Budget.findOne s.budgets userId body.category (now.getMonth + 1)
      now.getFullYear = some b) :
    (createTransaction Faults.none now s userId body).2.status = 201 ∧
    Budget.findOne (createTransaction Faults.none now s userId body).1.budgets
        userId body.category (now.getMonth + 1) now.getFullYear
      = some { b with spent := b.spent + body.amount } := by
  have hrun : (createTransaction Faults.none now s userId body).1.budgets
      = Budget.save s.budgets { b with spent := b.spent + body.amount } := by
    simp [createTransaction, hvalid, htype, Faults.none, updateBudgetSpent, hb]
  refine ⟨?_, ?_⟩
  · simp [createTransaction, hvalid, Faults.none, Response.status]
  · rw [hrun]
    exact Budget.findOne_save_spent hb _

theorem createTransaction_expense_adds_witness :
    createValid ⟨"expense", 20, "Food", "lunch", nov2026⟩ = true ∧
    Budget.findOne
        (createTransaction Faults.none nov2026
          { transactions := [], budgets := [foodBudget 5, transportBudget 20], nextId := 3 }
          7 ⟨"expense", 20, "Food", "lunch", nov2026⟩).1.budgets
        7 "Food" 11 2026
      = some (foodBudget 25) :=
  ⟨by decide,
   (createTransaction_expense_adds nov2026
      { transactions := [], budgets := [foodBudget 5, transportBudget 20], nextId := 3 }
      7 ⟨"expense", 20, "Food", "lunch", nov2026⟩ (foodBudget 5)
      (by decide) (by decide) (by decide)).2⟩

/-- C3: creating an expense when no budget matches its user, category and
clock period succeeds with 201, stores the transaction, and leaves the budget
collection exactly as it was. -/
theorem createTransaction_without_budget (now : JsDate) (s : Store) (userId : UserId)
    (body : CreateBody)
    (hvalid : createValid body = true) (htype : body.type = "expense")
    (hb : Budget.findOne s.budgets userId body.category (now.getMonth + 1)
      now.getFullYear = none) :
    (createTransaction Faults.none now s userId body).2.status = 201 ∧
    (∃ t ∈ (createTransaction Faults.none now s userId body).1.transactions,
      (createTransaction Faults.none now s userId body).2 = Response.created t ∧
      t.user = userId ∧ t.type = "expense" ∧ t.category = body.category ∧
      t.amount = body.amount ∧ t.description = body.description ∧ t.date = body.date) ∧
    (createTransaction Faults.none now s userId body).1.budgets = s.budgets := by
  refine ⟨?_, ?_, ?_⟩
  · simp [createTransaction, hvalid, Faults.none, Response.status]
  · refine ⟨Transaction.mk s.nextId userId body.type body.category body.amount
      body.description body.date now, ?_, ?_⟩
    · simp [createTransaction, hvalid, Faults.none]
    · simp [createTransaction, hvalid, Faults.none, htype]
  · simp [createTransaction, hvalid, htype, Faults.none,
      updateBudgetSpent_not_found _ now s.budgets userId body.category body.amount "add" hb]

theorem createTransaction_without_budget_witness :
    Budget.findOne [transportBudget 20] 7 "Food" (nov2026.getMonth + 1) nov2026.getFullYear
      = none ∧
    (createTransaction Faults.none nov2026
        { transactions := [], budgets := [transportBudget 20], nextId := 3 }
        7 ⟨"expense", 20, "Food", "lunch", nov2026⟩).1.budgets = [transportBudget 20] :=
  ⟨by decide,
   (createTransaction_without_budget nov2026
      { transactions := [], budgets := [transportBudget 20], nextId := 3 }
      7 ⟨"expense", 20, "Food", "lunch", nov2026⟩
      (by decide) (by decide) (by decide)).2.2⟩

/-- C4: deleting an expense whose budget exists succeeds and leaves that budget
with `spent = max 0 (previous spent - amount)`; the new value is never negative
and is 0 whenever the amount exceeds the previous `spent`. -/
theorem deleteTransaction_expense_floors (now : JsDate) (s : Store) (userId : UserId)
    (id : ObjectId) (t : Transaction) (b : Budget)
    (ht : Transaction.findOne s.transactions id userId = some t)
    (htype : t.type = "expense")
    (hb : Budget.findOne s.budgets userId t.category (now.getMonth + 1)
      now.getFullYear = some b) :
    (deleteTransaction Faults.none now s userId id).2.status = 200 ∧
    ∃ b2 : Budget,
      Budget.findOne (deleteTransaction Faults.none now s userId id).1.budgets
        userId t.category (now.getMonth + 1) now.getFullYear = some b2 ∧
      b2 = { b with spent := max 0 (b.spent - t.amount) } ∧
      0 ≤ b2.spent ∧ (b.spent < t.amount → b2.spent = 0) := by
  have hrun : (deleteTransaction Faults.none now s userId id).1.budgets
      = Budget.save s.budgets { b with spent := max 0 (b.spent - t.amount) } := by
    simp [deleteTransaction, ht, htype, Faults.none, updateBudgetSpent, hb]
  refine ⟨?_, { b with spent := max 0 (b.spent - t.amount) }, ?_, rfl, ?_, ?_⟩
  · simp [deleteTransaction, ht, Faults.none, Response.status]
  · rw [hrun]
    exact Budget.findOne_save_spent hb _
  · exact le_max_left _ _
  · intro hlt
    exact max_eq_left (by omega)

theorem deleteTransaction_expense_floors_witness :
    Transaction.findOne [sampleTx 3 "expense" "Food" 20 oct2026] 3 7
      = some (sampleTx 3 "expense" "Food" 20 oct2026) ∧
    ∃ b2 : Budget,
      Budget.findOne
        (deleteTransaction Faults.none nov2026
          { transactions := [sampleTx 3 "expense" "Food" 20 oct2026],
            budgets := [foodBudget 5], nextId := 4 } 7 3).1.budgets
        7 "Food" 11 2026 = some b2 ∧
      b2 = foodBudget 0 ∧ 0 ≤ b2.spent ∧ ((5 : Int) < 20 → b2.spent = 0) :=
  ⟨by decide,
   (deleteTransaction_expense_floors nov2026
      { transactions := [sampleTx 3 "expense" "Food" 20 oct2026],
        budgets := [foodBudget 5], nextId := 4 } 7 3
      (sampleTx 3 "expense" "Food" 20 oct2026) (foodBudget 5)
      (by decide) (by decide) (by decide)).2⟩

/-! ## Updating a transaction -/

/-- The budget collection an accepted update of a found transaction leaves
behind when no store call throws. -/
theorem updateTransaction_budgets (now now2 : JsDate) (s : Store) (userId : UserId)
    (id : ObjectId) (body : UpdateBody) (t : Transaction)
    (hvalid : updateValid body = true)
    (ht : Transaction.findOne s.transactions id userId = some t) :
    (updateTransaction Faults.none now now2 s userId id body).1.budgets =
      if (t.assign body).type = "expense" then
        if t.category = (t.assign body).category then
          updateBudgetSpent Faults.none now s.budgets userId (t.assign body).category
            |(t.assign body).amount - t.amount|
            (if (t.assign body).amount - t.amount > 0 then "add" else "subtract")
        else
          updateBudgetSpent Faults.none now2
            (updateBudgetSpent Faults.none now s.budgets userId t.category t.amount "subtract")
            userId (t.assign body).category (t.assign body).amount "add"
      else s.budgets := by
  simp [updateTransaction, hvalid, ht, Faults.none]

/-- C5 (amended): when an expense stays an expense and keeps its category, the
matching budget's `spent` becomes `spent + diff` if `diff = new - old` is
positive, and `max 0 (spent + diff)` otherwise; so it equals `spent + diff`
exactly when `diff > 0` or `spent + diff ≥ 0`. -/
theorem updateTransaction_same_category (now now2 : JsDate) (s : Store) (userId : UserId)
    (id : ObjectId) (body : UpdateBody) (t : Transaction) (b : Budget)
    (hvalid : updateValid body = true)
    (ht : Transaction.findOne s.transactions id userId = some t)
    (_hold : t.type = "expense") (hnew : (t.assign body).type = "expense")
    (hcat : (t.assign body).category = t.category)
    (hb : Budget.findOne s.budgets userId t.category (now.getMonth + 1)
      now.getFullYear = some b) :
    Budget.findOne (updateTransaction Faults.none now now2 s userId id body).1.budgets
        userId t.category (now.getMonth + 1) now.getFullYear
      = some { b with
          spent :=
            if 0 < (t.assign body).amount - t.amount
            then b.spent + ((t.assign body).amount - t.amount)
            else max 0 (b.spent + ((t.assign body).amount - t.amount)) } := by
  rw [updateTransaction_budgets now now2 s userId id body t hvalid ht]
  simp only [hnew, hcat, if_true]
  by_cases hd : 0 < (t.assign body).amount - t.amount
  · have habs : |(t.assign body).amount - t.amount| = (t.assign body).amount - t.amount :=
      abs_of_pos hd
    simp only [gt_iff_lt, hd, if_true, habs]
    rw [updateBudgetSpent_found_add now s.budgets userId t.category _ b hb]
    exact Budget.findOne_save_spent hb _
  · have habs : |(t.assign body).amount - t.amount|
        = -((t.assign body).amount - t.amount) := abs_of_nonpos (by omega)
    simp only [gt_iff_lt, hd, if_false, habs]
    rw [updateBudgetSpent_found_subtract now s.budgets userId t.category _ b hb]
    have hv : b.spent - -((t.assign body).amount - t.amount)
        = b.spent + ((t.assign body).amount - t.amount) := by ring
    rw [hv]
    exact Budget.findOne_save_spent hb _

theorem updateTransaction_same_category_witness :
    updateValid (amountBody 50) = true ∧
    Budget.findOne
        (updateTransaction Faults.none nov2026 nov2026
          { transactions := [sampleTx 3 "expense" "Food" 30 nov2026],
            budgets := [foodBudget 100], nextId := 4 } 7 3 (amountBody 50)).1.budgets
        7 "Food" 11 2026
      = some (foodBudget 120) :=
  ⟨by decide,
   updateTransaction_same_category nov2026 nov2026
      { transactions := [sampleTx 3 "expense" "Food" 30 nov2026],
        budgets := [foodBudget 100], nextId := 4 } 7 3 (amountBody 50)
      (sampleTx 3 "expense" "Food" 30 nov2026) (foodBudget 100)
      (by decide) (by decide) (by decide) (by decide) (by decide) (by decide)⟩

/-- C5 as stated fails: lowering an expense from 30 to 10 against a budget with
`spent = 5` leaves `spent = 0`, not `5 + (10 - 30)`. -/
theorem same_category_update_not_plain_sum :
    ¬ ∀ (now now2 : JsDate) (s : Store) (userId : UserId) (id : ObjectId)
        (body : UpdateBody) (t : Transaction) (b : Budget),
        updateValid body = true →
        Transaction.findOne s.transactions id userId = some t →
        t.type = "expense" → (t.assign body).type = "expense" →
        (t.assign body).category = t.category →
        Budget.findOne s.budgets userId t.category (now.getMonth + 1)
          now.getFullYear = some b →
        Budget.findOne (updateTransaction Faults.none now now2 s userId id body).1.budgets
            userId t.category (now.getMonth + 1) now.getFullYear
          = some { b with spent := b.spent + ((t.assign body).amount - t.amount) } := by
  intro h
  have h1 := h nov2026 nov2026 backdatedStore 7 3 (amountBody 10)
    (sampleTx 3 "expense" "Food" 30 oct2026) (foodBudget 5)
    (by decide) (by decide) (by decide) (by decide) (by decide) (by decide)
  revert h1
  decide

/-- C6: when an expense stays an expense and moves from category `c1` to a
different category `c2`, the `c1` budget's `spent` becomes
`max 0 (spent - old amount)` and the `c2` budget's `spent` becomes
`spent + new amount`. `_id` is the primary key of the budget collection. -/
theorem updateTransaction_category_change (now now2 : JsDate) (s : Store)
    (userId : UserId) (id : ObjectId) (body : UpdateBody) (t : Transaction)
    (b1 b2 : Budget)
    (hids : (s.budgets.map (fun b => b._id)).Nodup)
    (hvalid : updateValid body = true)
    (ht : Transaction.findOne s.transactions id userId = some t)
    (_hold : t.type = "expense") (hnew : (t.assign body).type = "expense")
    (hcat : t.category ≠ (t.assign body).category)
    (hb1 : Budget.findOne s.budgets userId t.category (now.getMonth + 1)
      now.getFullYear = some b1)
    (hb2 : Budget.findOne s.budgets userId (t.assign body).category (now2.getMonth + 1)
      now2.getFullYear = some b2) :
    Budget.findOne (updateTransaction Faults.none now now2 s userId id body).1.budgets
        userId t.category (now.getMonth + 1) now.getFullYear
      = some { b1 with spent := max 0 (b1.spent - t.amount) } ∧
    Budget.findOne (updateTransaction Faults.none now now2 s userId id body).1.budgets
        userId (t.assign body).category (now2.getMonth + 1) now2.getFullYear
      = some { b2 with spent := b2.spent + (t.assign body).amount } := by
  rw [updateTransaction_budgets now now2 s userId id body t hvalid ht]
  simp only [hnew, hcat, if_true, if_false]
  obtain ⟨hb1mem, hb1key⟩ := Budget.findOne_some hb1
  obtain ⟨hb2mem, hb2key⟩ := Budget.findOne_some hb2
  rw [Budget.hasKey_iff] at hb1key hb2key
  have hinj := List.inj_on_of_nodup_map hids
  have hne : b1._id ≠ b2._id := by
    intro hid
    have hEq : b1 = b2 := hinj hb1mem hb2mem hid
    apply hcat
    rw [← hb1key.2.1, ← hb2key.2.1, hEq]
  rw [updateBudgetSpent_found_subtract now s.budgets userId t.category t.amount b1 hb1]
  -- the first save does not disturb the query for the new category
  have hstep : Budget.findOne
      (Budget.save s.budgets { b1 with spent := max 0 (b1.spent - t.amount) })
      userId (t.assign body).category (now2.getMonth + 1) now2.getFullYear = some b2 := by
    rw [Budget.findOne_save_other]
    · exact hb2
    · simp only [Budget.hasKey, decide_eq_false_iff_not]
      intro hk
      exact hcat (hb1key.2.1.symm.trans hk.2.1)
    · intro x hx hxid
      have hxb : x = b1 := hinj hx hb1mem hxid
      subst hxb
      simp only [Budget.hasKey, decide_eq_false_iff_not]
      intro hk
      exact hcat (hb1key.2.1.symm.trans hk.2.1)
  rw [updateBudgetSpent_found_add now2 _ userId (t.assign body).category
    (t.assign body).amount b2 hstep]
  refine ⟨?_, Budget.findOne_save_spent hstep _⟩
  rw [Budget.findOne_save_other]
  · exact Budget.findOne_save_spent hb1 _
  · simp only [Budget.hasKey, decide_eq_false_iff_not]
    intro hk
    exact hcat (hk.2.1.symm.trans hb2key.2.1)
  · intro x hx hxid
    simp only [Budget.save, List.mem_map] at hx
    obtain ⟨z, hz, hzx⟩ := hx
    by_cases hzid : z._id = b1._id
    · rw [if_pos hzid] at hzx
      subst hzx
      exact absurd hxid hne
    · rw [if_neg hzid] at hzx
      subst hzx
      have hzb : z = b2 := hinj hz hb2mem hxid
      subst hzb
      simp only [Budget.hasKey, decide_eq_false_iff_not]
      intro hk
      exact hcat (hk.2.1.symm.trans hb2key.2.1)

theorem updateTransaction_category_change_witness :
    ([foodBudget 50, transportBudget 20].map (fun b => b._id)).Nodup ∧
    Budget.findOne
        (updateTransaction Faults.none nov2026 nov2026
          { transactions := [sampleTx 3 "expense" "Food" 10 nov2026],
            budgets := [foodBudget 50, transportBudget 20], nextId := 4 }
          7 3 { UpdateBody.empty with category := some "Transport" }).1.budgets
        7 "Food" 11 2026 = some (foodBudget 40) ∧
    Budget.findOne
        (updateTransaction Faults.none nov2026 nov2026
          { transactions := [sampleTx 3 "expense" "Food" 10 nov2026],
            budgets := [foodBudget 50, transportBudget 20], nextId := 4 }
          7 3 { UpdateBody.empty with category := some "Transport" }).1.budgets
        7 "Transport" 11 2026 = some (transportBudget 30) :=
  ⟨by decide,
   updateTransaction_category_change nov2026 nov2026
      { transactions := [sampleTx 3 "expense" "Food" 10 nov2026],
        budgets := [foodBudget 50, transportBudget 20], nextId := 4 }
      7 3 { UpdateBody.empty with category := some "Transport" }
      (sampleTx 3 "expense" "Food" 10 nov2026) (foodBudget 50) (transportBudget 20)
      (by decide) (by decide) (by decide) (by decide) (by decide) (by decide)
      (by decide) (by decide)⟩

/-- C7: creating an income transaction, deleting an income transaction, and
updating a transaction that is an income before and after each leave the whole
budget collection, hence every `spent`, unchanged (whatever store calls fail). -/
theorem income_leaves_budgets_unchanged (f : Faults) (now now2 : JsDate) (s : Store)
    (userId : UserId) (cbody : CreateBody) (id : ObjectId) (t : Transaction)
    (ubody : UpdateBody)
    (hcreate : cbody.type = "income")
    (ht : Transaction.findOne s.transactions id userId = some t)
    (hold : t.type = "income") (hnew : (t.assign ubody).type = "income") :
    (createTransaction f now s userId cbody).1.budgets = s.budgets ∧
    (deleteTransaction f now s userId id).1.budgets = s.budgets ∧
    (updateTransaction f now now2 s userId id ubody).1.budgets = s.budgets := by
  refine ⟨?_, ?_, ?_⟩
  · unfold createTransaction
    split
    · rfl
    · split
      · rfl
      · simp [hcreate]
  · unfold deleteTransaction
    split
    · rfl
    · simp only [ht, hold]
      split <;> simp
  · unfold updateTransaction
    split
    · rfl
    · split
      · rfl
      · simp only [ht, hnew]
        split <;> simp

theorem income_leaves_budgets_unchanged_witness :
    (createTransaction Faults.none nov2026
        { transactions := [sampleTx 3 "income" "Food" 10 nov2026],
          budgets := [foodBudget 50], nextId := 4 }
        7 ⟨"income", 900, "Food", "refund", nov2026⟩).1.budgets = [foodBudget 50] ∧
    (deleteTransaction Faults.none nov2026
        { transactions := [sampleTx 3 "income" "Food" 10 nov2026],
          budgets := [foodBudget 50], nextId := 4 } 7 3).1.budgets = [foodBudget 50] ∧
    (updateTransaction Faults.none nov2026 nov2026
        { transactions := [sampleTx 3 "income" "Food" 10 nov2026],
          budgets := [foodBudget 50], nextId := 4 } 7 3 (amountBody 70)).1.budgets
      = [foodBudget 50] :=
  income_leaves_budgets_unchanged Faults.none nov2026 nov2026
    { transactions := [sampleTx 3 "income" "Food" 10 nov2026],
      budgets := [foodBudget 50], nextId := 4 }
    7 ⟨"income", 900, "Food", "refund", nov2026⟩ 3
    (sampleTx 3 "income" "Food" 10 nov2026) (amountBody 70)
    (by decide) (by decide) (by decide) (by decide)

/-! ## Updates that change the type -/

/-- C8: the handler evaluated on an update that turns a "Food" expense of 10
into an income, against a "Food" budget with `spent = 50`: the update succeeds
and the budget keeps `spent = 50`; nothing is subtracted. -/
theorem updateTransaction_expense_to_income_eval :
    updateTransaction Faults.none nov2026 nov2026
        { transactions := [sampleTx 3 "expense" "Food" 10 nov2026],
          budgets := [foodBudget 50], nextId := 4 }
        7 3 { UpdateBody.empty with type := some "income" }
      = ({ transactions := [sampleTx 3 "income" "Food" 10 nov2026],
           budgets := [foodBudget 50], nextId := 4 },
         Response.ok (sampleTx 3 "income" "Food" 10 nov2026)) := by
  decide

/-- C9: the handler evaluated on updates that turn a "Food" income into an
expense, against a "Food" budget with `spent = 50`: with the amount kept at 10
the budget stays at 50 (the difference 0 is subtracted), and with the amount
lowered from 30 to 10 the budget drops to 30 (the difference 20 is subtracted);
in neither case is the new amount added. -/
theorem updateTransaction_income_to_expense_eval :
    (updateTransaction Faults.none nov2026 nov2026
        { transactions := [sampleTx 3 "income" "Food" 10 nov2026],
          budgets := [foodBudget 50], nextId := 4 }
        7 3 { UpdateBody.empty with type := some "expense" }
      = ({ transactions := [sampleTx 3 "expense" "Food" 10 nov2026],
           budgets := [foodBudget 50], nextId := 4 },
         Response.ok (sampleTx 3 "expense" "Food" 10 nov2026))) ∧
    (updateTransaction Faults.none nov2026 nov2026
        { transactions := [sampleTx 3 "income" "Food" 30 nov2026],
          budgets := [foodBudget 50], nextId := 4 }
        7 3 { UpdateBody.empty with type := some "expense", amount := some 10 }
      = ({ transactions := [sampleTx 3 "expense" "Food" 10 nov2026],
           budgets := [foodBudget 30], nextId := 4 },
         Response.ok (sampleTx 3 "expense" "Food" 10 nov2026))) := by
  decide

/-! ## The reconciliation period -/

/-- C10: a reconciliation step either leaves the budgets as they are or
rewrites the `spent` of one stored budget whose month and year are those of the
clock reading; and the budgets left by create, delete and update do not depend
on the date of the transaction created, deleted or updated, nor on the date an
update body carries. -/
theorem reconciliation_ignores_transaction_date (f : Faults) (now now2 : JsDate)
    (s s2 : Store) (userId : UserId) (cbody : CreateBody) (d : JsDate) (id : ObjectId)
    (t t2 : Transaction) (ubody : UpdateBody) (od : Option JsDate)
    (hbud : s2.budgets = s.budgets)
    (ht : Transaction.findOne s.transactions id userId = some t)
    (ht2 : Transaction.findOne s2.transactions id userId = some t2)
    (hdiff : t2 = { t with date := t2.date }) :
    (∀ (bs : List Budget) (u : UserId) (c : String) (a : Int) (op : String),
      updateBudgetSpent f now bs u c a op = bs ∨
      ∃ b ∈ bs, b.user = u ∧ b.category = c ∧
        b.month = now.getMonth + 1 ∧ b.year = now.getFullYear ∧
        ∃ v : Int, updateBudgetSpent f now bs u c a op
          = Budget.save bs { b with spent := v }) ∧
    (createTransaction f now s userId { cbody with date := d }).1.budgets
      = (createTransaction f now s userId cbody).1.budgets ∧
    (deleteTransaction f now s2 userId id).1.budgets
      = (deleteTransaction f now s userId id).1.budgets ∧
    (updateTransaction f now now2 s2 userId id { ubody with date := od }).1.budgets
      = (updateTransaction f now now2 s userId id ubody).1.budgets := by
  have htype : t2.type = t.type := by rw [hdiff]
  have hcat : t2.category = t.category := by rw [hdiff]
  have hamt : t2.amount = t.amount := by rw [hdiff]
  refine ⟨?_, ?_, ?_, ?_⟩
  · intro bs u c a op
    by_cases hf : f.budgetFind = true
    · left
      simp [updateBudgetSpent, hf]
    · cases hfind : Budget.findOne bs u c (now.getMonth + 1) now.getFullYear with
      | none =>
        left
        exact updateBudgetSpent_not_found f now bs u c a op hfind
      | some b =>
        by_cases hsave : f.budgetSave = true
        · left
          simp [updateBudgetSpent, hf, hfind, hsave]
        · right
          obtain ⟨hmem, hkey⟩ := Budget.findOne_some hfind
          rw [Budget.hasKey_iff] at hkey
          refine ⟨b, hmem, hkey.1, hkey.2.1, hkey.2.2.1, hkey.2.2.2, ?_⟩
          by_cases hadd : op = "add"
          · exact ⟨b.spent + a, by simp [updateBudgetSpent, hf, hfind, hsave, hadd]⟩
          · by_cases hsub : op = "subtract"
            · exact ⟨max 0 (b.spent - a), by simp [updateBudgetSpent, hf, hfind, hsave, hsub]⟩
            · exact ⟨b.spent, by simp [updateBudgetSpent, hf, hfind, hsave, hadd, hsub]⟩
  · have hv : createValid { cbody with date := d } = createValid cbody := rfl
    by_cases h1 : createValid cbody = true
    · by_cases h2 : f.txSave = true
      · simp [createTransaction, hv, h1, h2]
      · simp [createTransaction, hv, h1, h2]
    · simp [createTransaction, hv, h1]
  · by_cases h1 : f.txFind = true
    · simp [deleteTransaction, h1, hbud]
    · by_cases h2 : f.txDelete = true
      · simp [deleteTransaction, h1, h2, ht, ht2, htype, hcat, hamt, hbud]
      · simp [deleteTransaction, h1, h2, ht, ht2, htype, hcat, hamt, hbud]
  · have hv : updateValid { ubody with date := od } = updateValid ubody := rfl
    by_cases h0 : updateValid ubody = true
    · by_cases h1 : f.txFind = true
      · simp [updateTransaction, hv, h0, h1, hbud]
      · by_cases h2 : f.txSave = true
        · simp [updateTransaction, hv, h0, h1, h2, ht, ht2, hbud]
        · simp [updateTransaction, hv, h0, h1, h2, ht, ht2, Transaction.assign, htype,
            hcat, hamt, hbud]
    · simp [updateTransaction, hv, h0, hbud]

theorem reconciliation_ignores_transaction_date_witness :
    sampleTx 3 "expense" "Food" 10 oct2026
      = { sampleTx 3 "expense" "Food" 10 nov2026 with date := oct2026 } ∧
    (deleteTransaction Faults.none nov2026
        { transactions := [sampleTx 3 "expense" "Food" 10 oct2026],
          budgets := [foodBudget 50], nextId := 4 } 7 3).1.budgets
      = (deleteTransaction Faults.none nov2026
        { transactions := [sampleTx 3 "expense" "Food" 10 nov2026],
          budgets := [foodBudget 50], nextId := 4 } 7 3).1.budgets :=
  ⟨by decide,
   (reconciliation_ignores_transaction_date Faults.none nov2026 nov2026
      { transactions := [sampleTx 3 "expense" "Food" 10 nov2026],
        budgets := [foodBudget 50], nextId := 4 }
      { transactions := [sampleTx 3 "expense" "Food" 10 oct2026],
        budgets := [foodBudget 50], nextId := 4 }
      7 ⟨"expense", 20, "Food", "lunch", nov2026⟩ oct2026 3
      (sampleTx 3 "expense" "Food" 10 nov2026) (sampleTx 3 "expense" "Food" 10 oct2026)
      UpdateBody.empty (some oct2026)
      (by decide) (by decide) (by decide) (by decide)).2.2.1⟩

/-! ## Lemmas on recomputed totals -/

theorem expenseTotal_nil (b : Budget) : expenseTotal [] b = 0 := rfl

theorem expenseTotal_cons (x : Transaction) (xs : List Transaction) (b : Budget) :
    expenseTotal (x :: xs) b = contribution b x + expenseTotal xs b := by
  unfold expenseTotal contribution
  by_cases h : b.covers x = true
  · simp [List.filter_cons, h]
  · simp [List.filter_cons, h]

theorem expenseTotal_append_one (xs : List Transaction) (t : Transaction) (b : Budget) :
    expenseTotal (xs ++ [t]) b = expenseTotal xs b + contribution b t := by
  induction xs with
  | nil => simp [expenseTotal_cons, expenseTotal_nil]
  | cons x xs ih => simp only [List.cons_append, expenseTotal_cons, ih]; ring

theorem findByIdAndDelete_absent (xs : List Transaction) (i : ObjectId)
    (h : ∀ x ∈ xs, x._id ≠ i) : Transaction.findByIdAndDelete xs i = xs := by
  unfold Transaction.findByIdAndDelete
  rw [List.filter_eq_self]
  intro x hx
  simpa using h x hx

theorem save_absent (xs : List Transaction) (doc : Transaction)
    (h : ∀ x ∈ xs, x._id ≠ doc._id) : Transaction.save xs doc = xs := by
  unfold Transaction.save
  conv_rhs => rw [← List.map_id xs]
  apply List.map_congr_left
  intro x hx
  simp [h x hx]

theorem expenseTotal_delete (xs : List Transaction) (t : Transaction) (b : Budget)
    (hids : (xs.map (fun x => x._id)).Nodup) (ht : t ∈ xs) :
    expenseTotal (Transaction.findByIdAndDelete xs t._id) b
      = expenseTotal xs b - contribution b t := by
  induction xs with
  | nil => simp at ht
  | cons x xs ih =>
    rw [List.map_cons, List.nodup_cons] at hids
    obtain ⟨hx, hnd⟩ := hids
    rcases List.mem_cons.mp ht with hEq | hmem
    · subst hEq
      have habs : ∀ z ∈ xs, z._id ≠ t._id := by
        intro z hz hzid
        exact hx (List.mem_map.mpr ⟨z, hz, hzid⟩)
      have htail := findByIdAndDelete_absent xs t._id habs
      unfold Transaction.findByIdAndDelete at htail ⊢
      simp only [List.filter_cons, ne_eq, not_true_eq_false, decide_False, htail,
        expenseTotal_cons]
      simp
    · have hne : x._id ≠ t._id := by
        intro hid
        exact hx (List.mem_map.mpr ⟨t, hmem, hid.symm⟩)
      have ih2 := ih hnd hmem
      unfold Transaction.findByIdAndDelete at ih2 ⊢
      simp only [List.filter_cons, ne_eq, hne, not_false_eq_true, decide_True, if_true,
        expenseTotal_cons, ih2]
      ring

theorem expenseTotal_save (xs : List Transaction) (t doc : Transaction) (b : Budget)
    (hids : (xs.map (fun x => x._id)).Nodup) (ht : t ∈ xs) (hid : doc._id = t._id) :
    expenseTotal (Transaction.save xs doc) b
      = expenseTotal xs b - contribution b t + contribution b doc := by
  induction xs with
  | nil => simp at ht
  | cons x xs ih =>
    rw [List.map_cons, List.nodup_cons] at hids
    obtain ⟨hx, hnd⟩ := hids
    rcases List.mem_cons.mp ht with hEq | hmem
    · subst hEq
      have habs : ∀ z ∈ xs, z._id ≠ doc._id := by
        intro z hz hzid
        exact hx (List.mem_map.mpr ⟨z, hz, hzid.trans hid⟩)
      have htail := save_absent xs doc habs
      unfold Transaction.save at htail ⊢
      rw [hid] at htail
      simp only [List.map_cons, hid, if_true, htail, expenseTotal_cons]
      ring
    · have hne : x._id ≠ doc._id := by
        intro hxid
        exact hx (List.mem_map.mpr ⟨t, hmem, (hxid.trans hid).symm⟩)
      have ih2 := ih hnd hmem
      unfold Transaction.save at ih2 ⊢
      simp only [List.map_cons, hne, if_false, expenseTotal_cons, ih2]
      ring

theorem contribution_nonneg (b : Budget) (t : Transaction) (h : 0 ≤ t.amount) :
    0 ≤ contribution b t := by
  unfold contribution
  split
  · exact h
  · exact le_refl 0

theorem expenseTotal_nonneg (xs : List Transaction) (b : Budget)
    (hpos : ∀ x ∈ xs, 0 ≤ x.amount) : 0 ≤ expenseTotal xs b := by
  induction xs with
  | nil => simp [expenseTotal_nil]
  | cons x xs ih =>
    rw [expenseTotal_cons]
    have h1 := contribution_nonneg b x (hpos x (List.mem_cons_self _ _))
    have h2 := ih (fun z hz => hpos z (List.mem_cons_of_mem _ hz))
    omega

theorem contribution_le_expenseTotal (xs : List Transaction) (t : Transaction) (b : Budget)
    (hpos : ∀ x ∈ xs, 0 ≤ x.amount) (ht : t ∈ xs) :
    contribution b t ≤ expenseTotal xs b := by
  induction xs with
  | nil => simp at ht
  | cons x xs ih =>
    rw [expenseTotal_cons]
    have hx := contribution_nonneg b x (hpos x (List.mem_cons_self _ _))
    have htl := expenseTotal_nonneg xs b (fun z hz => hpos z (List.mem_cons_of_mem _ hz))
    rcases List.mem_cons.mp ht with hEq | hmem
    · subst hEq
      omega
    · have := ih (fun z hz => hpos z (List.mem_cons_of_mem _ hz)) hmem
      omega

/-! ## The reconciler as a map over the budgets -/

theorem Budget.save_eq_map (bs : List Budget) (u : UserId) (c : String) (m y : Nat)
    (b0 : Budget) (g : Int → Int)
    (hids : (bs.map (fun b => b._id)).Nodup) (hkeys : (bs.map Budget.key).Nodup)
    (hfind : Budget.findOne bs u c m y = some b0) :
    Budget.save bs { b0 with spent := g b0.spent }
      = bs.map (fun b => if b.hasKey u c m y then { b with spent := g b.spent } else b) := by
  obtain ⟨hmem, hkey⟩ := Budget.findOne_some hfind
  unfold Budget.save
  apply List.map_congr_left
  intro b hb
  by_cases hid : b._id = b0._id
  · have hEq : b = b0 := List.inj_on_of_nodup_map hids hb hmem hid
    subst hEq
    simp [hkey]
  · have hnk : b.hasKey u c m y = false := by
      by_contra hk
      have hk2 : b.hasKey u c m y = true := by simpa using hk
      rw [Budget.hasKey_iff] at hk2 hkey
      have hkeyEq : Budget.key b = Budget.key b0 := by
        simp [Budget.key, hk2.1, hk2.2.1, hk2.2.2.1, hk2.2.2.2, hkey.1, hkey.2.1,
          hkey.2.2.1, hkey.2.2.2]
      exact hid (congrArg (fun z => z._id) (List.inj_on_of_nodup_map hkeys hb hmem hkeyEq))
    simp [hid, hnk]

theorem map_adjust_of_no_key (bs : List Budget) (u : UserId) (c : String) (m y : Nat)
    (g : Int → Int) (hfind : Budget.findOne bs u c m y = none) :
    bs.map (fun b => if b.hasKey u c m y then { b with spent := g b.spent } else b) = bs := by
  conv_rhs => rw [← List.map_id bs]
  apply List.map_congr_left
  intro b hb
  simp [Budget.findOne_none hfind b hb]

theorem updateBudgetSpent_add_eq_map (now : JsDate) (bs : List Budget) (u : UserId)
    (c : String) (a : Int)
    (hids : (bs.map (fun b => b._id)).Nodup) (hkeys : (bs.map Budget.key).Nodup) :
    updateBudgetSpent Faults.none now bs u c a "add"
      = bs.map (fun b =>
          if b.hasKey u c (now.getMonth + 1) now.getFullYear
          then { b with spent := b.spent + a } else b) := by
  cases hfind : Budget.findOne bs u c (now.getMonth + 1) now.getFullYear with
  | none =>
    rw [updateBudgetSpent_not_found _ now bs u c a "add" hfind]
    exact (map_adjust_of_no_key bs u c _ _ (fun v => v + a) hfind).symm
  | some b0 =>
    rw [updateBudgetSpent_found_add now bs u c a b0 hfind]
    exact Budget.save_eq_map bs u c _ _ b0 (fun v => v + a) hids hkeys hfind

theorem updateBudgetSpent_subtract_eq_map (now : JsDate) (bs : List Budget) (u : UserId)
    (c : String) (a : Int)
    (hids : (bs.map (fun b => b._id)).Nodup) (hkeys : (bs.map Budget.key).Nodup) :
    updateBudgetSpent Faults.none now bs u c a "subtract"
      = bs.map (fun b =>
          if b.hasKey u c (now.getMonth + 1) now.getFullYear
          then { b with spent := max 0 (b.spent - a) } else b) := by
  cases hfind : Budget.findOne bs u c (now.getMonth + 1) now.getFullYear with
  | none =>
    rw [updateBudgetSpent_not_found _ now bs u c a "subtract" hfind]
    exact (map_adjust_of_no_key bs u c _ _ (fun v => max 0 (v - a)) hfind).symm
  | some b0 =>
    rw [updateBudgetSpent_found_subtract now bs u c a b0 hfind]
    exact Budget.save_eq_map bs u c _ _ b0 (fun v => max 0 (v - a)) hids hkeys hfind

theorem map_adjust_ids (bs : List Budget) (p : Budget → Bool) (g : Int → Int) :
    (bs.map (fun b => if p b then { b with spent := g b.spent } else b)).map
        (fun b => b._id)
      = bs.map (fun b => b._id) := by
  rw [List.map_map]
  apply List.map_congr_left
  intro b _
  by_cases h : p b = true <;> simp [h]

theorem map_adjust_keys (bs : List Budget) (p : Budget → Bool) (g : Int → Int) :
    (bs.map (fun b => if p b then { b with spent := g b.spent } else b)).map Budget.key
      = bs.map Budget.key := by
  rw [List.map_map]
  apply List.map_congr_left
  intro b _
  by_cases h : p b = true <;> simp [h, Budget.key]

/-- One adjustment re-establishes `spent = T` for a target `T` that does not
look at `spent`, provided the adjusted value is the target on every budget. -/
theorem sync_step (bs : List Budget) (p : Budget → Bool) (g : Int → Int)
    (T : Budget → Int) (hT : ∀ (b : Budget) (v : Int), T { b with spent := v } = T b)
    (hstep : ∀ b ∈ bs, (if p b then g b.spent else b.spent) = T b) :
    ∀ b2 ∈ bs.map (fun b => if p b then { b with spent := g b.spent } else b),
      b2.spent = T b2 := by
  intro b2 hb2
  obtain ⟨b, hb, hEq⟩ := List.mem_map.mp hb2
  have h := hstep b hb
  by_cases hp : p b = true
  · rw [if_pos hp] at hEq h
    subst hEq
    rw [hT]
    exact h
  · rw [if_neg hp] at hEq h
    subst hEq
    exact h

theorem covers_eq_hasKey (b : Budget) (t : Transaction) (u : UserId) (now : JsDate)
    (hu : t.user = u) (hty : t.type = "expense") (hper : samePeriod t.date now) :
    b.covers t = b.hasKey u t.category (now.getMonth + 1) now.getFullYear := by
  unfold samePeriod at hper
  rw [Bool.eq_iff_iff]
  simp only [Budget.covers, Budget.hasKey, decide_eq_true_eq, hu, hty, hper.1, hper.2,
    true_and]
  constructor
  · rintro ⟨h1, h2, h3, h4⟩
    exact ⟨h1.symm, h2.symm, h3.symm, h4.symm⟩
  · rintro ⟨h1, h2, h3, h4⟩
    exact ⟨h1.symm, h2.symm, h3.symm, h4.symm⟩

theorem covers_of_not_expense (b : Budget) (t : Transaction) (h : t.type ≠ "expense") :
    b.covers t = false := by
  simp [Budget.covers, h]

theorem contribution_of_not_expense (b : Budget) (t : Transaction)
    (h : t.type ≠ "expense") : contribution b t = 0 := by
  simp [contribution, covers_of_not_expense b t h]

/-! ## Preservation of the steady-state invariant -/

theorem add_step (now : JsDate) (bs : List Budget) (T : Budget → Int)
    (hT : ∀ (b : Budget) (v : Int), T { b with spent := v } = T b)
    (hids : (bs.map (fun b => b._id)).Nodup) (hkeys : (bs.map Budget.key).Nodup)
    (tx : Transaction) (u : UserId) (hu : tx.user = u) (hty : tx.type = "expense")
    (hper : samePeriod tx.date now) (hsync : ∀ b ∈ bs, b.spent = T b) :
    ∀ b ∈ updateBudgetSpent Faults.none now bs u tx.category tx.amount "add",
      b.spent = T b + contribution b tx := by
  rw [updateBudgetSpent_add_eq_map now bs u tx.category tx.amount hids hkeys]
  apply sync_step bs _ (fun v => v + tx.amount) (fun b => T b + contribution b tx)
  · intro b v
    simp only [hT]
    rfl
  · intro b hb
    simp only [contribution, covers_eq_hasKey b tx u now hu hty hper, hsync b hb]
    split <;> simp

theorem subtract_step (now : JsDate) (bs : List Budget) (txs : List Transaction)
    (hids : (bs.map (fun b => b._id)).Nodup) (hkeys : (bs.map Budget.key).Nodup)
    (hpos : ∀ x ∈ txs, 0 ≤ x.amount)
    (t : Transaction) (ht : t ∈ txs) (u : UserId) (hu : t.user = u)
    (hty : t.type = "expense") (hper : samePeriod t.date now)
    (hsync : ∀ b ∈ bs, b.spent = expenseTotal txs b) :
    ∀ b ∈ updateBudgetSpent Faults.none now bs u t.category t.amount "subtract",
      b.spent = expenseTotal txs b - contribution b t := by
  rw [updateBudgetSpent_subtract_eq_map now bs u t.category t.amount hids hkeys]
  apply sync_step bs _ (fun v => max 0 (v - t.amount))
    (fun b => expenseTotal txs b - contribution b t)
  · intro b v
    rfl
  · intro b hb
    have hle := contribution_le_expenseTotal txs t b hpos ht
    simp only [contribution, covers_eq_hasKey b t u now hu hty hper, hsync b hb] at hle ⊢
    split
    · rename_i hk
      rw [if_pos hk] at hle
      exact max_eq_right (by omega)
    · simp

theorem Transaction.findOne_found {txs : List Transaction} {id : ObjectId} {u : UserId}
    {t : Transaction} (h : Transaction.findOne txs id u = some t) :
    t ∈ txs ∧ t._id = id ∧ t.user = u := by
  unfold Transaction.findOne at h
  have h2 := @List.find?_some Transaction (fun x => decide (x._id = id ∧ x.user = u)) _ _ h
  exact ⟨List.mem_of_find?_eq_some h, by simpa using h2⟩

theorem assign_amount_nonneg (t : Transaction) (body : UpdateBody)
    (hvalid : updateValid body = true) (ht : 0 ≤ t.amount) :
    0 ≤ (t.assign body).amount := by
  unfold Transaction.assign
  simp only
  cases ha : body.amount with
  | none => simpa using ht
  | some a =>
    simp only [updateValid, ha, Option.all_some, Bool.and_eq_true, decide_eq_true_eq] at hvalid
    simp only [Option.getD_some]
    omega

theorem createTransaction_keeps_sync (now : JsDate) (s : Store) (userId : UserId)
    (body : CreateBody) (hsync : SpentInSync s) (hwf : s.WellFormed)
    (hper : samePeriod body.date now) :
    SpentInSync (createTransaction Faults.none now s userId body).1 := by
  obtain ⟨hids, hkeys, _, _⟩ := hwf
  by_cases hvalid : createValid body = true
  · by_cases hty : body.type = "expense"
    · have hrun : createTransaction Faults.none now s userId body
          = ({ transactions := s.transactions ++
                  [Transaction.mk s.nextId userId body.type body.category body.amount
                    body.description body.date now],
               budgets := updateBudgetSpent Faults.none now s.budgets userId
                  body.category body.amount "add",
               nextId := s.nextId + 1 },
             Response.created (Transaction.mk s.nextId userId body.type body.category
               body.amount body.description body.date now)) := by
        simp [createTransaction, hvalid, hty, Faults.none]
      rw [hrun]
      intro b hb
      simp only at hb ⊢
      rw [expenseTotal_append_one]
      exact add_step now s.budgets (expenseTotal s.transactions) (fun _ _ => rfl) hids hkeys
        (Transaction.mk s.nextId userId body.type body.category body.amount
          body.description body.date now) userId rfl hty hper hsync b hb
    · have hrun : createTransaction Faults.none now s userId body
          = ({ transactions := s.transactions ++
                  [Transaction.mk s.nextId userId body.type body.category body.amount
                    body.description body.date now],
               budgets := s.budgets,
               nextId := s.nextId + 1 },
             Response.created (Transaction.mk s.nextId userId body.type body.category
               body.amount body.description body.date now)) := by
        simp [createTransaction, hvalid, hty, Faults.none]
      rw [hrun]
      intro b hb
      simp only at hb ⊢
      rw [expenseTotal_append_one, contribution_of_not_expense b _ hty, add_zero]
      exact hsync b hb
  · have hrun : createTransaction Faults.none now s userId body = (s, Response.badRequest) := by
      simp [createTransaction, hvalid]
    rw [hrun]
    exact hsync

theorem deleteTransaction_keeps_sync (now : JsDate) (s : Store) (userId : UserId)
    (id : ObjectId) (t : Transaction) (hsync : SpentInSync s) (hwf : s.WellFormed)
    (ht : Transaction.findOne s.transactions id userId = some t)
    (hper : samePeriod t.date now) :
    SpentInSync (deleteTransaction Faults.none now s userId id).1 := by
  obtain ⟨hids, hkeys, htids, hpos⟩ := hwf
  obtain ⟨hmem, hid, hu⟩ := Transaction.findOne_found ht
  by_cases hty : t.type = "expense"
  · have hrun : (deleteTransaction Faults.none now s userId id).1
        = { s with
            transactions := Transaction.findByIdAndDelete s.transactions id
            budgets := updateBudgetSpent Faults.none now s.budgets userId t.category
              t.amount "subtract" } := by
      simp [deleteTransaction, ht, hty, Faults.none]
    rw [hrun]
    intro b hb
    simp only at hb ⊢
    rw [← hid, expenseTotal_delete s.transactions t b htids hmem]
    exact subtract_step now s.budgets s.transactions hids hkeys hpos t hmem userId hu hty
      hper hsync b hb
  · have hrun : (deleteTransaction Faults.none now s userId id).1
        = { s with transactions := Transaction.findByIdAndDelete s.transactions id } := by
      simp [deleteTransaction, ht, hty, Faults.none]
    rw [hrun]
    intro b hb
    simp only at hb ⊢
    rw [← hid, expenseTotal_delete s.transactions t b htids hmem,
      contribution_of_not_expense b t hty, sub_zero]
    exact hsync b hb

theorem updateTransaction_transactions (now now2 : JsDate) (s : Store) (userId : UserId)
    (id : ObjectId) (body : UpdateBody) (t : Transaction)
    (hvalid : updateValid body = true)
    (ht : Transaction.findOne s.transactions id userId = some t) :
    (updateTransaction Faults.none now now2 s userId id body).1.transactions
      = Transaction.save s.transactions (t.assign body) := by
  simp [updateTransaction, hvalid, ht, Faults.none]

theorem samePeriod_trans_symm {d now now2 : JsDate} (h1 : samePeriod d now)
    (h2 : samePeriod now2 now) : samePeriod d now2 :=
  ⟨h1.1.trans h2.1.symm, h1.2.trans h2.2.symm⟩

theorem updateTransaction_keeps_sync (now now2 : JsDate) (s : Store) (userId : UserId)
    (id : ObjectId) (body : UpdateBody) (t : Transaction)
    (hsync : SpentInSync s) (hwf : s.WellFormed)
    (ht : Transaction.findOne s.transactions id userId = some t)
    (htype : (t.assign body).type = t.type) (huser : (t.assign body).user = t.user)
    (hper : samePeriod t.date now) (hper2 : samePeriod (t.assign body).date now)
    (hnow : samePeriod now2 now) :
    SpentInSync (updateTransaction Faults.none now now2 s userId id body).1 := by
  obtain ⟨hids, hkeys, htids, hpos⟩ := hwf
  obtain ⟨hmem, _, hu⟩ := Transaction.findOne_found ht
  by_cases hvalid : updateValid body = true
  · intro b hb
    rw [updateTransaction_transactions now now2 s userId id body t hvalid ht,
      expenseTotal_save s.transactions t (t.assign body) b htids hmem rfl]
    rw [updateTransaction_budgets now now2 s userId id body t hvalid ht] at hb
    have hu2 : (t.assign body).user = userId := huser.trans hu
    by_cases hexp : (t.assign body).type = "expense"
    · have hold : t.type = "expense" := htype.symm.trans hexp
      rw [if_pos hexp] at hb
      by_cases hc : t.category = (t.assign body).category
      · rw [if_pos hc] at hb
        have hnew0 := assign_amount_nonneg t body hvalid (hpos t hmem)
        have hle := contribution_le_expenseTotal s.transactions t
        by_cases hd : (t.assign body).amount - t.amount > 0
        · rw [if_pos hd, abs_of_pos hd,
            updateBudgetSpent_add_eq_map now s.budgets userId _ _ hids hkeys] at hb
          revert b
          apply sync_step s.budgets _ (fun v => v + ((t.assign body).amount - t.amount))
            (fun b => expenseTotal s.transactions b - contribution b t
              + contribution b (t.assign body))
          · intro b v
            rfl
          · intro b hb
            simp only [contribution, covers_eq_hasKey b t userId now hu hold hper,
              covers_eq_hasKey b (t.assign body) userId now hu2 hexp hper2, hsync b hb, hc]
            split
            · ring
            · simp
        · rw [if_neg hd, abs_of_nonpos (by omega),
            updateBudgetSpent_subtract_eq_map now s.budgets userId _ _ hids hkeys] at hb
          revert b
          apply sync_step s.budgets _
            (fun v => max 0 (v - -((t.assign body).amount - t.amount)))
            (fun b => expenseTotal s.transactions b - contribution b t
              + contribution b (t.assign body))
          · intro b v
            rfl
          · intro b hb
            have hleb := hle b hpos hmem
            simp only [contribution, covers_eq_hasKey b t userId now hu hold hper,
              covers_eq_hasKey b (t.assign body) userId now hu2 hexp hper2, hsync b hb, hc]
              at hleb ⊢
            split
            · rename_i hk
              rw [if_pos hk] at hleb
              rw [max_eq_right (by omega)]
              ring
            · simp
      · rw [if_neg hc] at hb
        have h1 := subtract_step now s.budgets s.transactions hids hkeys hpos t hmem userId
          hu hold hper hsync
        have hids1 : ((updateBudgetSpent Faults.none now s.budgets userId t.category
            t.amount "subtract").map (fun b => b._id)).Nodup := by
          rw [updateBudgetSpent_subtract_eq_map now s.budgets userId _ _ hids hkeys,
            map_adjust_ids s.budgets
              (fun b => b.hasKey userId t.category (now.getMonth + 1) now.getFullYear)
              (fun v => max 0 (v - t.amount))]
          exact hids
        have hkeys1 : ((updateBudgetSpent Faults.none now s.budgets userId t.category
            t.amount "subtract").map Budget.key).Nodup := by
          rw [updateBudgetSpent_subtract_eq_map now s.budgets userId _ _ hids hkeys,
            map_adjust_keys s.budgets
              (fun b => b.hasKey userId t.category (now.getMonth + 1) now.getFullYear)
              (fun v => max 0 (v - t.amount))]
          exact hkeys
        exact add_step now2 _
          (fun b => expenseTotal s.transactions b - contribution b t) (fun _ _ => rfl)
          hids1 hkeys1 (t.assign body) userId hu2 hexp (samePeriod_trans_symm hper2 hnow)
          h1 b hb
    · rw [if_neg hexp] at hb
      have hold : t.type ≠ "expense" := fun h => hexp (htype.trans h)
      rw [contribution_of_not_expense b t hold,
        contribution_of_not_expense b (t.assign body) hexp, sub_zero, add_zero]
      exact hsync b hb
  · have hrun : updateTransaction Faults.none now now2 s userId id body
        = (s, Response.badRequest) := by
      simp [updateTransaction, hvalid]
    rw [hrun]
    exact hsync

/-- C1 (amended): on a well-formed store of whole-number amounts in which every
budget's `spent` equals the recomputed total, with no store failure and with
the sums of the reconciliation below `2 ^ 53`, the equality holds again after
`createTransaction` of a transaction dated in the clock's calendar month, after
`deleteTransaction` of a transaction dated in the clock's month, and after an
`updateTransaction` that keeps the transaction's type and owner and whose date
before and after lies in the clock's month (both clock readings in that month). -/
theorem spentInSync_preserved (now now2 : JsDate) (s : Store) (userId : UserId)
    (hsync : SpentInSync s) (hwf : s.WellFormed) :
    (∀ body : CreateBody, samePeriod body.date now → inExactRange s.budgets body.amount →
      SpentInSync (createTransaction Faults.none now s userId body).1) ∧
    (∀ id : ObjectId,
      (∀ t, Transaction.findOne s.transactions id userId = some t →
        samePeriod t.date now ∧ inExactRange s.budgets t.amount) →
      SpentInSync (deleteTransaction Faults.none now s userId id).1) ∧
    (∀ (id : ObjectId) (body : UpdateBody),
      (∀ t, Transaction.findOne s.transactions id userId = some t →
        (t.assign body).type = t.type ∧ (t.assign body).user = t.user ∧
        samePeriod t.date now ∧ samePeriod (t.assign body).date now ∧
        inExactRange s.budgets t.amount ∧ inExactRange s.budgets (t.assign body).amount) →
      samePeriod now2 now →
      SpentInSync (updateTransaction Faults.none now now2 s userId id body).1) := by
  refine ⟨?_, ?_, ?_⟩
  · intro body hper _
    exact createTransaction_keeps_sync now s userId body hsync hwf hper
  · intro id h
    cases ht : Transaction.findOne s.transactions id userId with
    | none =>
      have hrun : (deleteTransaction Faults.none now s userId id).1 = s := by
        simp [deleteTransaction, ht, Faults.none]
      rw [hrun]
      exact hsync
    | some t => exact deleteTransaction_keeps_sync now s userId id t hsync hwf ht (h t ht).1
  · intro id body h hnow
    cases ht : Transaction.findOne s.transactions id userId with
    | none =>
      have hrun : (updateTransaction Faults.none now now2 s userId id body).1 = s := by
        by_cases hv : updateValid body = true
        · simp [updateTransaction, hv, ht, Faults.none]
        · simp [updateTransaction, hv]
      rw [hrun]
      exact hsync
    | some t =>
      obtain ⟨h1, h2, h3, h4, _, _⟩ := h t ht
      exact updateTransaction_keeps_sync now now2 s userId id body t hsync hwf ht h1 h2 h3
        h4 hnow

theorem spentInSync_preserved_witness :
    SpentInSync syncedStore ∧ syncedStore.WellFormed ∧
    SpentInSync (createTransaction Faults.none nov2026 syncedStore 7
      ⟨"expense", 20, "Transport", "bus", nov2026⟩).1 ∧
    SpentInSync (deleteTransaction Faults.none nov2026 syncedStore 7 3).1 ∧
    SpentInSync (updateTransaction Faults.none nov2026 nov2026 syncedStore 7 3
      { UpdateBody.empty with category := some "Transport", amount := some 45 }).1 :=
  ⟨by decide, by decide,
   (spentInSync_preserved nov2026 nov2026 syncedStore 7 (by decide) (by decide)).1
      ⟨"expense", 20, "Transport", "bus", nov2026⟩ (by decide) (by decide),
   (spentInSync_preserved nov2026 nov2026 syncedStore 7 (by decide) (by decide)).2.1 3
      (by decide),
   (spentInSync_preserved nov2026 nov2026 syncedStore 7 (by decide) (by decide)).2.2 3
      { UpdateBody.empty with category := some "Transport", amount := some 45 }
      (by decide) (by decide)⟩

/-- C1 as stated fails: on a well-formed store at rest, a successful
`createTransaction` of an expense dated in October, run under a November clock,
adds its amount to the November budget, whose recomputed total is unchanged. -/
theorem spentInSync_not_preserved :
    ¬ ∀ (now : JsDate) (s : Store) (userId : UserId) (body : CreateBody),
        s.WellFormed → SpentInSync s →
        (createTransaction Faults.none now s userId body).2.status = 201 →
        SpentInSync (createTransaction Faults.none now s userId body).1 := by
  intro h
  have h1 := h nov2026 syncedStore 7 ⟨"expense", 20, "Food", "lunch", oct2026⟩
    (by decide) (by decide) (by decide)
  revert h1
  decide

/-! ## Creating a budget -/

theorem Budget.insert_fresh (bs : List Budget) (doc : Budget)
    (h : ∀ b ∈ bs, b.key ≠ doc.key) : Budget.insert bs doc = .ok (bs ++ [doc]) := by
  have hany : (bs.any (fun b => decide (b.key = doc.key))) = false := by
    rw [List.any_eq_false]
    intro b hb
    simpa using h b hb
  simp only [Budget.insert, hany, Bool.false_eq_true, if_false]

theorem Budget.insert_duplicate (bs : List Budget) (doc b0 : Budget)
    (hb0 : b0 ∈ bs) (hkey : b0.key = doc.key) :
    Budget.insert bs doc = .error SaveError.duplicateKey := by
  have hany : (bs.any (fun b => decide (b.key = doc.key))) = true := by
    rw [List.any_eq_true]
    exact ⟨b0, hb0, by simpa using hkey⟩
  simp only [Budget.insert, hany, if_true]

/-- What `createBudget` does on an accepted body when no store call throws and
no stored budget carries the new key. -/
theorem createBudget_fresh (now : JsDate) (s : Store) (userId : UserId) (body : BudgetBody)
    (hvalid : budgetValid body = true)
    (hfresh : ∀ b ∈ s.budgets, b.key ≠
      (userId, body.category, orElse body.month (now.getMonth + 1),
        orElse body.year now.getFullYear)) :
    createBudget Faults.none now s userId body =
      ({ s with
          budgets := s.budgets ++
            [Budget.mk s.nextId userId body.category body.amount
              (body.period.getD "monthly")
              (match groupTotal (s.transactions.filter
                  (seedMatch userId body.category
                    (JsDate.make (orElse body.year now.getFullYear)
                      (orElse body.month (now.getMonth + 1) - 1) 1 0 0 0 0)
                    (JsDate.make (orElse body.year now.getFullYear)
                      (orElse body.month (now.getMonth + 1)) 0 23 59 59 0))) with
                | total :: _ => total
                | [] => 0)
              (orElse body.month (now.getMonth + 1))
              (orElse body.year now.getFullYear) now]
          nextId := s.nextId + 1 },
       BudgetResponse.created
        (Budget.mk s.nextId userId body.category body.amount
          (body.period.getD "monthly")
          (match groupTotal (s.transactions.filter
              (seedMatch userId body.category
                (JsDate.make (orElse body.year now.getFullYear)
                  (orElse body.month (now.getMonth + 1) - 1) 1 0 0 0 0)
                (JsDate.make (orElse body.year now.getFullYear)
                  (orElse body.month (now.getMonth + 1)) 0 23 59 59 0))) with
            | total :: _ => total
            | [] => 0)
          (orElse body.month (now.getMonth + 1))
          (orElse body.year now.getFullYear) now)) := by
  simp only [createBudget, hvalid, Faults.none, Bool.not_true, Bool.false_eq_true, if_false]
  rw [Budget.insert_fresh _ _ hfresh]

theorem groupTotal_head (matched : List Transaction) :
    (match groupTotal matched with
      | total :: _ => total
      | [] => 0) = (matched.map (fun t => t.amount)).sum := by
  cases matched with
  | nil => rfl
  | cons x xs => rfl

/-- C11: on an accepted body for a key no stored budget carries, `createBudget`
answers 201 and stores a budget whose `spent` is the sum of `amount` over exactly
the stored transactions of the requesting user that are expenses of the budget's
category with `startDate ≤ date ≤ endDate`; it is 0 when none matches. -/
theorem createBudget_seeds_spent (now : JsDate) (s : Store) (userId : UserId)
    (body : BudgetBody)
    (hvalid : budgetValid body = true)
    (hfresh : ∀ b ∈ s.budgets, b.key ≠
      (userId, body.category, orElse body.month (now.getMonth + 1),
        orElse body.year now.getFullYear)) :
    ∃ b : Budget,
      (createBudget Faults.none now s userId body).2 = BudgetResponse.created b ∧
      b ∈ (createBudget Faults.none now s userId body).1.budgets ∧
      b.user = userId ∧ b.category = body.category ∧
      b.month = orElse body.month (now.getMonth + 1) ∧
      b.year = orElse body.year now.getFullYear ∧
      b.spent = ((s.transactions.filter (fun t =>
          decide (t.user = userId ∧ t.type = "expense" ∧ t.category = b.category ∧
            (JsDate.make b.year (b.month - 1) 1 0 0 0 0).le t.date = true ∧
            t.date.le (JsDate.make b.year b.month 0 23 59 59 0) = true))).map
          (fun t => t.amount)).sum ∧
      ((∀ t ∈ s.transactions,
          ¬ (t.user = userId ∧ t.type = "expense" ∧ t.category = b.category ∧
            (JsDate.make b.year (b.month - 1) 1 0 0 0 0).le t.date = true ∧
            t.date.le (JsDate.make b.year b.month 0 23 59 59 0) = true)) →
        b.spent = 0) := by
  rw [createBudget_fresh now s userId body hvalid hfresh]
  refine ⟨_, rfl, by simp, rfl, rfl, rfl, rfl, ?_, ?_⟩
  · simp only [groupTotal_head]
    congr 2
    apply List.filter_congr
    intro t _
    simp [seedMatch, Bool.and_assoc]
  · intro hnone
    simp only [groupTotal_head]
    have hempty : s.transactions.filter (seedMatch userId body.category
        (JsDate.make (orElse body.year now.getFullYear)
          (orElse body.month (now.getMonth + 1) - 1) 1 0 0 0 0)
        (JsDate.make (orElse body.year now.getFullYear)
          (orElse body.month (now.getMonth + 1)) 0 23 59 59 0)) = [] := by
      rw [List.filter_eq_nil_iff]
      intro t ht hm
      apply hnone t ht
      simpa [seedMatch, Bool.and_assoc, and_assoc] using hm
    rw [hempty]
    rfl

theorem createBudget_seeds_spent_witness :
    budgetValid (budgetBody "Food") = true ∧
    ∃ b : Budget,
      (createBudget Faults.none nov2026 mixedLedger 7 (budgetBody "Food")).2
        = BudgetResponse.created b ∧ b.spent = 30 := by
  obtain ⟨b, hr, _, _, hc, hm, hy, hs, _⟩ :=
    createBudget_seeds_spent nov2026 mixedLedger 7 (budgetBody "Food") (by decide) (by decide)
  rw [hc, hm, hy] at hs
  exact ⟨by decide, b, hr, hs.trans (by decide)⟩

theorem Budget.insert_ok {bs bs2 : List Budget} {doc : Budget}
    (h : Budget.insert bs doc = .ok bs2) :
    bs2 = bs ++ [doc] ∧ ∀ b ∈ bs, b.key ≠ doc.key := by
  unfold Budget.insert at h
  split at h
  · cases h
  · rename_i hany
    injection h with h
    refine ⟨h.symm, ?_⟩
    intro b hb hk
    apply hany
    rw [List.any_eq_true]
    exact ⟨b, hb, by simpa using hk⟩

/-- The unique index survives `createBudget`. -/
theorem createBudget_keys_nodup (f : Faults) (now : JsDate) (s : Store) (userId : UserId)
    (body : BudgetBody) (hnd : (s.budgets.map Budget.key).Nodup) :
    ((createBudget f now s userId body).1.budgets.map Budget.key).Nodup := by
  unfold createBudget
  split
  · exact hnd
  · simp only
    split
    · exact hnd
    · split
      · exact hnd
      · split
        · exact hnd
        · exact hnd
        · rename_i budgets hins
          obtain ⟨hEq, hfresh⟩ := Budget.insert_ok hins
          simp only [hEq, List.map_append, List.map_cons, List.map_nil]
          rw [List.nodup_append]
          refine ⟨hnd, List.nodup_singleton _, ?_⟩
          intro k hk hk2
          rw [List.mem_singleton] at hk2
          obtain ⟨b, hb, hbk⟩ := List.mem_map.mp hk
          exact hfresh b hb (hbk.trans hk2)

/-- C12: `createBudget` evaluated for November 2026 on a ledger whose only
transaction is a "Food" expense of 30 dated 30 November 2026, 23:59:59.500: the
upper bound of the range is 23:59:59.000 of that day, the expense lies after
it, and the new budget is seeded with `spent = 0`. -/
theorem createBudget_last_second_eval :
    lateNov2026.getMonth + 1 = 11 ∧ lateNov2026.getFullYear = 2026 ∧
    JsDate.make 2026 11 0 23 59 59 0
      = { fullYear := 2026, monthIndex := 10, date := 30, hours := 23, minutes := 59,
          seconds := 59, milliseconds := 0 } ∧
    lateNov2026.le (JsDate.make 2026 11 0 23 59 59 0) = false ∧
    (createBudget Faults.none nov2026
        { transactions := [sampleTx 3 "expense" "Food" 30 lateNov2026], budgets := [],
          nextId := 4 }
        7 (budgetBody "Food")).2
      = BudgetResponse.created { foodBudget 0 with _id := 4 } := by
  decide

/-- C19: on an accepted body whose key `(user, category, month, year)` a stored
budget already carries, `createBudget` answers 400 with the message 'Budget for
this category and period already exists', a response that is neither the
validation response nor the generic 500 response, and leaves the store as it
was; and whatever the request, `createBudget` keeps the keys of the stored
budgets pairwise distinct. -/
theorem createBudget_duplicate_conflict (f : Faults) (now : JsDate) (s : Store)
    (userId : UserId) (body : BudgetBody) (b0 : Budget)
    (hvalid : budgetValid body = true)
    (hb0 : b0 ∈ s.budgets)
    (hkey : b0.key = (userId, body.category, orElse body.month (now.getMonth + 1),
      orElse body.year now.getFullYear)) :
    createBudget Faults.none now s userId body
      = (s, BudgetResponse.badRequest "Budget for this category and period already exists") ∧
    (createBudget Faults.none now s userId body).2.status = 400 ∧
    (createBudget Faults.none now s userId body).2 ≠ BudgetResponse.validationErrors ∧
    (createBudget Faults.none now s userId body).2 ≠ BudgetResponse.serverError "Server error" ∧
    (∀ (s2 : Store) (user2 : UserId) (body2 : BudgetBody),
      (s2.budgets.map Budget.key).Nodup →
      ((createBudget f now s2 user2 body2).1.budgets.map Budget.key).Nodup) := by
  have hdup : Budget.insert s.budgets
      (Budget.mk s.nextId userId body.category body.amount (body.period.getD "monthly")
        (match groupTotal (s.transactions.filter
            (seedMatch userId body.category
              (JsDate.make (orElse body.year now.getFullYear)
                (orElse body.month (now.getMonth + 1) - 1) 1 0 0 0 0)
              (JsDate.make (orElse body.year now.getFullYear)
                (orElse body.month (now.getMonth + 1)) 0 23 59 59 0))) with
          | total :: _ => total
          | [] => 0)
        (orElse body.month (now.getMonth + 1)) (orElse body.year now.getFullYear) now)
      = .error SaveError.duplicateKey := Budget.insert_duplicate _ _ b0 hb0 hkey
  have hrun : createBudget Faults.none now s userId body
      = (s, BudgetResponse.badRequest "Budget for this category and period already exists") := by
    simp only [createBudget, hvalid, Faults.none, Bool.not_true, Bool.false_eq_true, if_false]
    rw [hdup]
  refine ⟨hrun, ?_, ?_, ?_, ?_⟩
  · rw [hrun]
    rfl
  · rw [hrun]
    simp
  · rw [hrun]
    simp
  · intro s2 user2 body2 hnd
    exact createBudget_keys_nodup f now s2 user2 body2 hnd

theorem createBudget_duplicate_conflict_witness :
    foodBudget 30 ∈ syncedStore.budgets ∧
    createBudget Faults.none nov2026 syncedStore 7 (budgetBody "Food")
      = (syncedStore,
         BudgetResponse.badRequest "Budget for this category and period already exists") :=
  ⟨by decide,
   (createBudget_duplicate_conflict Faults.none nov2026 syncedStore 7 (budgetBody "Food")
      (foodBudget 30) (by decide) (by decide) (by decide)).1⟩

/-! ## The budget overview -/

/-- The `forEach` of `getBudgetOverview` as sums, a count and a map. -/
theorem foldl_overviewStep (bs : List Budget) (init : Overview) :
    (bs.foldl overviewStep init).totalBudgeted
      = init.totalBudgeted + (bs.map (fun b => b.amount)).sum ∧
    (bs.foldl overviewStep init).totalSpent
      = init.totalSpent + (bs.map (fun b => b.spent)).sum ∧
    (bs.foldl overviewStep init).budgetCount = init.budgetCount ∧
    (bs.foldl overviewStep init).overBudgetCount
      = init.overBudgetCount + (bs.filter (fun b => decide (b.spent > b.amount))).length ∧
    (bs.foldl overviewStep init).categories = init.categories ++ bs.map categoryEntry := by
  induction bs generalizing init with
  | nil => simp
  | cons b bs ih =>
    obtain ⟨h1, h2, h3, h4, h5⟩ := ih (overviewStep init b)
    simp only [List.foldl_cons, List.map_cons, List.sum_cons, h1, h2, h3, h4, h5]
    refine ⟨?_, ?_, ?_, ?_, ?_⟩
    · simp only [overviewStep]
      ring
    · simp only [overviewStep]
      ring
    · rfl
    · by_cases hb : b.spent > b.amount
      · simp only [overviewStep, hb, if_true, List.filter_cons, decide_True, List.length_cons]
        omega
      · simp only [overviewStep, hb, if_false, List.filter_cons, decide_False]
        simp
    · simp [overviewStep]

/-- C13: `getBudgetOverview` returns `totalBudgeted` = sum of `amount`,
`totalSpent` = sum of `spent`, `budgetCount` = number of budgets and
`overBudgetCount` = number of budgets with `spent > amount`, over the budgets of
the period; on `{100,50}, {50,60}, {0,0}` these are 150, 110, 3 and 1. -/
theorem getBudgetOverview_totals (now : JsDate) (s : Store) (userId : UserId)
    (qmonth qyear : Option Nat) :
    (∃ o : Overview,
      getBudgetOverview Faults.none now s userId qmonth qyear = Reply.success o ∧
      o.totalBudgeted = ((Budget.find s.budgets userId (qmonth.getD (now.getMonth + 1))
        (qyear.getD now.getFullYear)).map (fun b => b.amount)).sum ∧
      o.totalSpent = ((Budget.find s.budgets userId (qmonth.getD (now.getMonth + 1))
        (qyear.getD now.getFullYear)).map (fun b => b.spent)).sum ∧
      o.budgetCount = (Budget.find s.budgets userId (qmonth.getD (now.getMonth + 1))
        (qyear.getD now.getFullYear)).length ∧
      o.overBudgetCount = ((Budget.find s.budgets userId (qmonth.getD (now.getMonth + 1))
        (qyear.getD now.getFullYear)).filter (fun b => decide (b.spent > b.amount))).length) ∧
    (∃ o : Overview,
      getBudgetOverview Faults.none nov2026 threeBudgets 7 none none = Reply.success o ∧
      o.totalBudgeted = 150 ∧ o.totalSpent = 110 ∧ o.budgetCount = 3 ∧
      o.overBudgetCount = 1) := by
  constructor
  · obtain ⟨h1, h2, h3, h4, _⟩ := foldl_overviewStep
      (Budget.find s.budgets userId (qmonth.getD (now.getMonth + 1))
        (qyear.getD now.getFullYear))
      { totalBudgeted := 0, totalSpent := 0,
        budgetCount := (Budget.find s.budgets userId (qmonth.getD (now.getMonth + 1))
          (qyear.getD now.getFullYear)).length,
        overBudgetCount := 0, categories := [] }
    refine ⟨_, rfl, ?_, ?_, ?_, ?_⟩
    · rw [h1]; simp
    · rw [h2]; simp
    · rw [h3]
    · rw [h4]; simp
  · exact ⟨_, rfl, by decide, by decide, by decide, by decide⟩

/-- C14: `getBudgetOverview` returns one `categories` entry per budget of the
period, in their order, each with `budgeted = amount`, `spent = spent`,
`remaining = amount - spent`, and `percentage = spent / amount * 100` when
`amount > 0` and `0` when `amount = 0`. -/
theorem getBudgetOverview_categories (now : JsDate) (s : Store) (userId : UserId)
    (qmonth qyear : Option Nat) :
    (∃ o : Overview,
      getBudgetOverview Faults.none now s userId qmonth qyear = Reply.success o ∧
      o.categories = (Budget.find s.budgets userId (qmonth.getD (now.getMonth + 1))
        (qyear.getD now.getFullYear)).map categoryEntry ∧
      o.categories.length = (Budget.find s.budgets userId (qmonth.getD (now.getMonth + 1))
        (qyear.getD now.getFullYear)).length) ∧
    (∀ b : Budget,
      (categoryEntry b).category = b.category ∧ (categoryEntry b).budgeted = b.amount ∧
      (categoryEntry b).spent = b.spent ∧
      (categoryEntry b).remaining = b.amount - b.spent ∧
      (0 < b.amount →
        (categoryEntry b).percentage = (b.spent : ℚ) / (b.amount : ℚ) * 100) ∧
      (b.amount = 0 → (categoryEntry b).percentage = 0)) := by
  constructor
  · obtain ⟨_, _, _, _, h5⟩ := foldl_overviewStep
      (Budget.find s.budgets userId (qmonth.getD (now.getMonth + 1))
        (qyear.getD now.getFullYear))
      { totalBudgeted := 0, totalSpent := 0,
        budgetCount := (Budget.find s.budgets userId (qmonth.getD (now.getMonth + 1))
          (qyear.getD now.getFullYear)).length,
        overBudgetCount := 0, categories := [] }
    refine ⟨_, rfl, ?_, ?_⟩
    · rw [h5]; simp
    · rw [h5]; simp
  · intro b
    refine ⟨rfl, rfl, rfl, rfl, ?_, ?_⟩
    · intro hpos
      simp [categoryEntry, hpos]
    · intro hzero
      simp [categoryEntry, hzero]

theorem getBudgetOverview_categories_witness :
    (categoryEntry { foodBudget 50 with amount := 100 }).percentage
      = ((50 : Int) : ℚ) / ((100 : Int) : ℚ) * 100 ∧
    (categoryEntry { foodBudget 0 with amount := 0 }).percentage = 0 :=
  ⟨((getBudgetOverview_categories nov2026 threeBudgets 7 none none).2
      { foodBudget 50 with amount := 100 }).2.2.2.2.1 (by decide),
   ((getBudgetOverview_categories nov2026 threeBudgets 7 none none).2
      { foodBudget 0 with amount := 0 }).2.2.2.2.2 rfl⟩

/-- C15: `getBudgetOverview` queries the budgets without a sort and appends one
entry per document, so `categories` has the order in which the store hands the
documents over; when that is "Transport", "Food", "Unused", as after inserting
them in this order into a collection that is scanned, the overview lists
"Transport" first and the category names are not ascending. -/
theorem getBudgetOverview_order_eval :
    ∃ o : Overview,
      getBudgetOverview Faults.none nov2026 threeBudgets 7 none none = Reply.success o ∧
      o.categories.map (fun c => c.category) = ["Transport", "Food", "Unused"] ∧
      ¬ (o.categories.map (fun c => c.category)).Sorted (fun a b => a ≤ b) := by
  have hnames : (List.foldl overviewStep
      { totalBudgeted := 0, totalSpent := 0,
        budgetCount := (Budget.find threeBudgets.budgets 7 (none.getD (nov2026.getMonth + 1))
          (none.getD nov2026.getFullYear)).length,
        overBudgetCount := 0, categories := [] }
      (Budget.find threeBudgets.budgets 7 (none.getD (nov2026.getMonth + 1))
        (none.getD nov2026.getFullYear))).categories.map (fun c => c.category)
      = ["Transport", "Food", "Unused"] := by
    decide
  refine ⟨_, rfl, hnames, ?_⟩
  rw [hnames]
  simp
  decide

/-! ## Statistics -/

theorem groupBy_ids (key : Transaction → String) (txs : List Transaction) :
    (groupBy key txs).map (fun g => g._id) = (txs.map key).dedup := by
  unfold groupBy
  rw [List.map_map]
  conv_rhs => rw [← List.map_id (txs.map key).dedup]
  apply List.map_congr_left
  intro k _
  rfl

theorem groupBy_ids_nodup (key : Transaction → String) (txs : List Transaction) :
    ((groupBy key txs).map (fun g => g._id)).Nodup := by
  rw [groupBy_ids]
  exact List.nodup_dedup _

theorem mem_groupBy {key : Transaction → String} {txs : List Transaction} {g : GroupStat}
    (h : g ∈ groupBy key txs) :
    (∃ t ∈ txs, key t = g._id) ∧
    g.total = ((txs.filter (fun t => decide (key t = g._id))).map (fun t => t.amount)).sum := by
  unfold groupBy at h
  obtain ⟨k, hk, hg⟩ := List.mem_map.mp h
  rw [List.mem_dedup] at hk
  obtain ⟨t, ht, htk⟩ := List.mem_map.mp hk
  subst hg
  exact ⟨⟨t, ht, htk⟩, rfl⟩

theorem groupBy_mem_of_key (key : Transaction → String) (txs : List Transaction)
    (t : Transaction) (ht : t ∈ txs) :
    GroupStat.mk (key t)
      ((txs.filter (fun x => decide (key x = key t))).map (fun x => x.amount)).sum
      (txs.filter (fun x => decide (key x = key t))).length ∈ groupBy key txs := by
  unfold groupBy
  apply List.mem_map.mpr
  exact ⟨key t, List.mem_dedup.mpr (List.mem_map.mpr ⟨t, ht, rfl⟩), rfl⟩

/-- A property that `setStat` writes only under the name `n` keeps its value
through the `forEach` when no group carries that name. -/
theorem foldl_setStat_absent (get : Stats → Int) (n : String)
    (hget : ∀ (r : Stats) (g : GroupStat),
      get (setStat r g) = if g._id = n then g.total else get r)
    (gs : List GroupStat) (init : Stats) (habs : ∀ g ∈ gs, g._id ≠ n) :
    get (gs.foldl setStat init) = get init := by
  induction gs generalizing init with
  | nil => rfl
  | cons g gs ih =>
    rw [List.foldl_cons, ih _ (fun x hx => habs x (List.mem_cons_of_mem _ hx)), hget,
      if_neg (habs g (List.mem_cons_self _ _))]

/-- A property that `setStat` writes only under the name `n` ends up holding
the total of the one group carrying that name. -/
theorem foldl_setStat_present (get : Stats → Int) (n : String)
    (hget : ∀ (r : Stats) (g : GroupStat),
      get (setStat r g) = if g._id = n then g.total else get r)
    (gs : List GroupStat) (init : Stats) (hnd : (gs.map (fun g => g._id)).Nodup)
    (g0 : GroupStat) (hg0 : g0 ∈ gs) (hid : g0._id = n) :
    get (gs.foldl setStat init) = g0.total := by
  induction gs generalizing init with
  | nil => simp at hg0
  | cons g gs ih =>
    rw [List.map_cons, List.nodup_cons] at hnd
    obtain ⟨hg, hnd2⟩ := hnd
    rw [List.foldl_cons]
    rcases List.mem_cons.mp hg0 with hEq | hmem
    · subst hEq
      have habs : ∀ x ∈ gs, x._id ≠ n := by
        intro x hx hxn
        exact hg (List.mem_map.mpr ⟨x, hx, hxn.trans hid.symm⟩)
      rw [foldl_setStat_absent get n hget gs _ habs, hget, if_pos hid]
    · exact ih _ hnd2 hmem

theorem setStat_income (r : Stats) (g : GroupStat) :
    (setStat r g).income = if g._id = "income" then g.total else r.income := by
  unfold setStat
  split
  · simp
  · split
    · rfl
    · split
      · rfl
      · split <;> rfl

theorem setStat_expense (r : Stats) (g : GroupStat) :
    (setStat r g).expense = if g._id = "expense" then g.total else r.expense := by
  unfold setStat
  split
  · rename_i h
    have hne : g._id ≠ "expense" := by rw [h]; decide
    simp [hne]
  · split
    · simp
    · split
      · rfl
      · split <;> rfl

/-- The total the `forEach` leaves under one of the names `income`, `expense`. -/
theorem typeTotal_after_forEach (get : Stats → Int) (n : String)
    (hget : ∀ (r : Stats) (g : GroupStat),
      get (setStat r g) = if g._id = n then g.total else get r)
    (matched : List Transaction) (init : Stats) (hinit : get init = 0) :
    get ((groupBy (fun t => t.type) matched).foldl setStat init)
      = ((matched.filter (fun t => decide (t.type = n))).map (fun t => t.amount)).sum := by
  by_cases hex : ∃ t ∈ matched, t.type = n
  · obtain ⟨t, ht, htn⟩ := hex
    have hmem := groupBy_mem_of_key (fun t => t.type) matched t ht
    rw [foldl_setStat_present get n hget _ init (groupBy_ids_nodup _ _) _ hmem htn]
    simp only [htn]
  · have habs : ∀ g ∈ groupBy (fun t => t.type) matched, g._id ≠ n := by
      intro g hg hgn
      obtain ⟨⟨t, ht, htk⟩, _⟩ := mem_groupBy hg
      exact hex ⟨t, ht, htk.trans hgn⟩
    rw [foldl_setStat_absent get n hget _ init habs, hinit]
    have hempty : matched.filter (fun t => decide (t.type = n)) = [] := by
      rw [List.filter_eq_nil_iff]
      intro t ht htn
      exact hex ⟨t, ht, by simpa using htn⟩
    rw [hempty]
    rfl

theorem matched_filter (txs : List Transaction) (userId : UserId)
    (startDate endDate : Option JsDate) (q : Transaction → Prop) [DecidablePred q] :
    (txs.filter (fun t => decide (t.user = userId) && inRange startDate endDate t.date)).filter
        (fun t => decide (q t))
      = txs.filter (fun t =>
          decide (t.user = userId ∧ inRange startDate endDate t.date = true ∧ q t)) := by
  rw [List.filter_filter]
  apply List.filter_congr
  intro t _
  rw [Bool.eq_iff_iff]
  simp only [Bool.and_eq_true, decide_eq_true_eq]
  tauto

/-- C17: `getStats` returns `income` = sum of `amount` over the user's income
transactions in the date range, `expense` = the same sum over the expenses, each
0 when there is no such transaction, and `balance = income - expense`. -/
theorem getStats_totals (s : Store) (userId : UserId) (startDate endDate : Option JsDate) :
    ∃ r : Stats,
      getStats Faults.none s userId startDate endDate = Reply.success r ∧
      r.income = ((s.transactions.filter (fun t =>
          decide (t.user = userId ∧ inRange startDate endDate t.date = true ∧
            t.type = "income"))).map (fun t => t.amount)).sum ∧
      r.expense = ((s.transactions.filter (fun t =>
          decide (t.user = userId ∧ inRange startDate endDate t.date = true ∧
            t.type = "expense"))).map (fun t => t.amount)).sum ∧
      r.balance = r.income - r.expense ∧
      ((∀ t ∈ s.transactions, t.user = userId → inRange startDate endDate t.date = true →
          t.type ≠ "income") → r.income = 0) ∧
      ((∀ t ∈ s.transactions, t.user = userId → inRange startDate endDate t.date = true →
          t.type ≠ "expense") → r.expense = 0) := by
  have hinc : ∀ init : Stats, init.income = 0 →
      ((groupBy (fun t => t.type) (s.transactions.filter (fun t =>
        decide (t.user = userId) && inRange startDate endDate t.date))).foldl
          setStat init).income
        = ((s.transactions.filter (fun t =>
            decide (t.user = userId ∧ inRange startDate endDate t.date = true ∧
              t.type = "income"))).map (fun t => t.amount)).sum := by
    intro init h0
    rw [← matched_filter s.transactions userId startDate endDate (fun t => t.type = "income")]
    exact typeTotal_after_forEach (fun r => r.income) "income" setStat_income _ init h0
  have hexp : ∀ init : Stats, init.expense = 0 →
      ((groupBy (fun t => t.type) (s.transactions.filter (fun t =>
        decide (t.user = userId) && inRange startDate endDate t.date))).foldl
          setStat init).expense
        = ((s.transactions.filter (fun t =>
            decide (t.user = userId ∧ inRange startDate endDate t.date = true ∧
              t.type = "expense"))).map (fun t => t.amount)).sum := by
    intro init h0
    rw [← matched_filter s.transactions userId startDate endDate (fun t => t.type = "expense")]
    exact typeTotal_after_forEach (fun r => r.expense) "expense" setStat_expense _ init h0
  refine ⟨_, rfl, hinc _ rfl, hexp _ rfl, rfl, ?_, ?_⟩
  · intro hnone
    refine (hinc _ rfl).trans ?_
    have hempty : s.transactions.filter (fun t =>
        decide (t.user = userId ∧ inRange startDate endDate t.date = true ∧
          t.type = "income")) = [] := by
      rw [List.filter_eq_nil_iff]
      intro t ht hm
      rw [decide_eq_true_iff] at hm
      exact hnone t ht hm.1 hm.2.1 hm.2.2
    rw [hempty]
    rfl
  · intro hnone
    refine (hexp _ rfl).trans ?_
    have hempty : s.transactions.filter (fun t =>
        decide (t.user = userId ∧ inRange startDate endDate t.date = true ∧
          t.type = "expense")) = [] := by
      rw [List.filter_eq_nil_iff]
      intro t ht hm
      rw [decide_eq_true_iff] at hm
      exact hnone t ht hm.1 hm.2.1 hm.2.2
    rw [hempty]
    rfl

theorem getStats_totals_witness :
    (∃ r : Stats, getStats Faults.none syncedStore 7 none none = Reply.success r ∧
      r.income = 0 ∧ r.expense = 30 ∧ r.balance = -30) ∧
    (∃ r : Stats, getStats Faults.none statsLedger 7 none none = Reply.success r ∧
      r.income = 100 ∧ r.expense = 45 ∧ r.balance = 55) := by
  obtain ⟨r, hr, _, he, hb, h0, _⟩ := getStats_totals syncedStore 7 none none
  obtain ⟨r2, hr2, hi2, he2, hb2, _, _⟩ := getStats_totals statsLedger 7 none none
  have hi : r.income = 0 := h0 (by decide)
  have he30 : r.expense = 30 := he.trans (by decide)
  have hi100 : r2.income = 100 := hi2.trans (by decide)
  have he45 : r2.expense = 45 := he2.trans (by decide)
  refine ⟨⟨r, hr, hi, he30, ?_⟩, ⟨r2, hr2, hi100, he45, ?_⟩⟩
  · rw [hb, hi, he30]
    rfl
  · rw [hb2, hi100, he45]
    rfl

theorem setStat_breakdown (r : Stats) (g : GroupStat) (h : g._id ≠ "categoryBreakdown") :
    (setStat r g).categoryBreakdown = r.categoryBreakdown := by
  unfold setStat
  split
  · rfl
  · split
    · rfl
    · split
      · rfl
      · rfl

theorem foldl_setStat_breakdown (gs : List GroupStat) (init : Stats)
    (h : ∀ g ∈ gs, g._id ≠ "categoryBreakdown") :
    (gs.foldl setStat init).categoryBreakdown = init.categoryBreakdown := by
  induction gs generalizing init with
  | nil => rfl
  | cons g gs ih =>
    rw [List.foldl_cons, ih _ (fun x hx => h x (List.mem_cons_of_mem _ hx)),
      setStat_breakdown _ _ (h g (List.mem_cons_self _ _))]

theorem expense_filter (txs : List Transaction) (userId : UserId)
    (startDate endDate : Option JsDate) (c : String) :
    ((txs.filter (fun t => decide (t.user = userId) && inRange startDate endDate t.date)).filter
        (fun t => decide (t.type = "expense"))).filter (fun t => decide (t.category = c))
      = txs.filter (fun t =>
          decide (t.user = userId ∧ inRange startDate endDate t.date = true ∧
            t.type = "expense" ∧ t.category = c)) := by
  rw [List.filter_filter, List.filter_filter]
  apply List.filter_congr
  intro t _
  rw [Bool.eq_iff_iff]
  simp only [Bool.and_eq_true, decide_eq_true_eq]
  tauto

/-- C18: when every stored transaction is an income or an expense, the
`categoryBreakdown` of `getStats` holds exactly one entry per distinct category
of the user's expenses in the date range (none for a category without such an
expense), each entry's `total` is the sum of that category's expense amounts,
and the entries are sorted by `total`, largest first. -/
theorem getStats_categoryBreakdown (s : Store) (userId : UserId)
    (startDate endDate : Option JsDate)
    (htypes : ∀ t ∈ s.transactions, t.type = "income" ∨ t.type = "expense") :
    ∃ (r : Stats) (entries : List GroupStat),
      getStats Faults.none s userId startDate endDate = Reply.success r ∧
      r.categoryBreakdown = Breakdown.groups entries ∧
      (entries.map (fun e => e._id)).Nodup ∧
      (∀ c : String, c ∈ entries.map (fun e => e._id) ↔
        ∃ t ∈ s.transactions, t.user = userId ∧ inRange startDate endDate t.date = true ∧
          t.type = "expense" ∧ t.category = c) ∧
      (∀ e ∈ entries, e.total = ((s.transactions.filter (fun t =>
          decide (t.user = userId ∧ inRange startDate endDate t.date = true ∧
            t.type = "expense" ∧ t.category = e._id))).map (fun t => t.amount)).sum) ∧
      entries.Sorted (fun a b => a.total ≥ b.total) := by
  have hperm : (sortByTotalDesc (groupBy (fun t => t.category)
      ((s.transactions.filter (fun t =>
        decide (t.user = userId) && inRange startDate endDate t.date)).filter
          (fun t => decide (t.type = "expense"))))).Perm
      (groupBy (fun t => t.category)
        ((s.transactions.filter (fun t =>
          decide (t.user = userId) && inRange startDate endDate t.date)).filter
            (fun t => decide (t.type = "expense")))) :=
    List.perm_insertionSort _ _
  have hkeep : ∀ g ∈ groupBy (fun t => t.type) (s.transactions.filter (fun t =>
      decide (t.user = userId) && inRange startDate endDate t.date)),
      g._id ≠ "categoryBreakdown" := by
    intro g hg hgn
    obtain ⟨⟨t, ht, htk⟩, _⟩ := mem_groupBy hg
    have hty : t.type = "categoryBreakdown" := htk.trans hgn
    rcases htypes t (List.mem_of_mem_filter ht) with h | h
    · rw [h] at hty
      exact absurd hty (by decide)
    · rw [h] at hty
      exact absurd hty (by decide)
  refine ⟨_, _, rfl, foldl_setStat_breakdown _ _ hkeep, ?_, ?_, ?_, ?_⟩
  · rw [(hperm.map _).nodup_iff]
    exact groupBy_ids_nodup _ _
  · intro c
    rw [(hperm.map _).mem_iff, groupBy_ids, List.mem_dedup, List.mem_map]
    constructor
    · rintro ⟨t, ht, rfl⟩
      rw [List.mem_filter, List.mem_filter] at ht
      obtain ⟨⟨hmem, hur⟩, hexp⟩ := ht
      simp only [Bool.and_eq_true, decide_eq_true_eq] at hur hexp
      exact ⟨t, hmem, hur.1, hur.2, hexp, rfl⟩
    · rintro ⟨t, hmem, hu, hr, hexp, rfl⟩
      refine ⟨t, ?_, rfl⟩
      rw [List.mem_filter, List.mem_filter]
      simp only [Bool.and_eq_true, decide_eq_true_eq]
      exact ⟨⟨hmem, hu, hr⟩, hexp⟩
  · intro e he
    obtain ⟨_, htotal⟩ := mem_groupBy (hperm.mem_iff.mp he)
    rw [htotal, expense_filter]
  · haveI : IsTotal GroupStat (fun a b => a.total ≥ b.total) :=
      ⟨fun a b => le_total b.total a.total⟩
    haveI : IsTrans GroupStat (fun a b => a.total ≥ b.total) :=
      ⟨fun _ _ _ h1 h2 => le_trans h2 h1⟩
    exact List.sorted_insertionSort _ _

theorem getStats_categoryBreakdown_witness :
    (∀ t ∈ statsLedger.transactions, t.type = "income" ∨ t.type = "expense") ∧
    ∃ (r : Stats) (entries : List GroupStat),
      getStats Faults.none statsLedger 7 none none = Reply.success r ∧
      r.categoryBreakdown = Breakdown.groups entries ∧
      entries = [{ _id := "Bus", total := 30, count := 1 },
                 { _id := "Food", total := 15, count := 2 }] ∧
      entries.Sorted (fun a b => a.total ≥ b.total) := by
  obtain ⟨r, entries, hr, hb, _, _, _, hsorted⟩ :=
    getStats_categoryBreakdown statsLedger 7 none none (by decide)
  have heval : getStats Faults.none statsLedger 7 none none
      = Reply.success
          { income := 100, expense := 45, balance := 55,
            categoryBreakdown := Breakdown.groups
              [{ _id := "Bus", total := 30, count := 1 },
               { _id := "Food", total := 15, count := 2 }],
            extra := [] } := by
    decide
  rw [heval] at hr
  injection hr with hr
  subst hr
  injection hb with hb
  exact ⟨by decide, _, entries, heval, by rw [hb], hb.symm, hsorted⟩

/-! ## Failures of the reconciliation step -/

/-- C20: when no call on the transaction collection throws, then whatever the
budget lookup and the budget save do (throw or not), `createTransaction` answers
201 with the stored transaction, `updateTransaction` answers 200 with the saved
transaction, and `deleteTransaction` answers 200 with the transaction removed. -/
theorem reconciliation_failure_not_fatal (f : Faults) (now now2 : JsDate) (s : Store)
    (userId : UserId) (cbody : CreateBody) (id : ObjectId) (ubody : UpdateBody)
    (t : Transaction)
    (hfind : f.txFind = false) (hsave : f.txSave = false) (hdel : f.txDelete = false)
    (hcv : createValid cbody = true) (huv : updateValid ubody = true)
    (ht : Transaction.findOne s.transactions id userId = some t) :
    ((createTransaction f now s userId cbody).2
        = Response.created (Transaction.mk s.nextId userId cbody.type cbody.category
            cbody.amount cbody.description cbody.date now) ∧
      (createTransaction f now s userId cbody).2.status = 201 ∧
      (createTransaction f now s userId cbody).1.transactions
        = s.transactions ++ [Transaction.mk s.nextId userId cbody.type cbody.category
            cbody.amount cbody.description cbody.date now]) ∧
    ((updateTransaction f now now2 s userId id ubody).2 = Response.ok (t.assign ubody) ∧
      (updateTransaction f now now2 s userId id ubody).2.status = 200 ∧
      (updateTransaction f now now2 s userId id ubody).1.transactions
        = Transaction.save s.transactions (t.assign ubody)) ∧
    ((deleteTransaction f now s userId id).2
        = Response.okMessage "Transaction deleted successfully" ∧
      (deleteTransaction f now s userId id).2.status = 200 ∧
      (deleteTransaction f now s userId id).1.transactions
        = Transaction.findByIdAndDelete s.transactions id) := by
  refine ⟨⟨?_, ?_, ?_⟩, ⟨?_, ?_, ?_⟩, ⟨?_, ?_, ?_⟩⟩
  · simp [createTransaction, hcv, hsave]
  · simp [createTransaction, hcv, hsave, Response.status]
  · simp [createTransaction, hcv, hsave]
  · simp [updateTransaction, huv, hfind, hsave, ht]
  · simp [updateTransaction, huv, hfind, hsave, ht, Response.status]
  · simp [updateTransaction, huv, hfind, hsave, ht]
  · simp [deleteTransaction, hfind, hdel, ht]
  · simp [deleteTransaction, hfind, hdel, ht, Response.status]
  · simp [deleteTransaction, hfind, hdel, ht]

theorem reconciliation_failure_not_fatal_witness :
    Faults.budgetStoreDown.budgetFind = true ∧ Faults.budgetStoreDown.budgetSave = true ∧
    (createTransaction Faults.budgetStoreDown nov2026 syncedStore 7
        ⟨"expense", 20, "Food", "lunch", nov2026⟩).2.status = 201 ∧
    (updateTransaction Faults.budgetStoreDown nov2026 nov2026 syncedStore 7 3
        (amountBody 45)).1.transactions = [sampleTx 3 "expense" "Food" 45 nov2026] ∧
    (deleteTransaction Faults.budgetStoreDown nov2026 syncedStore 7 3).1.transactions = [] := by
  have h := reconciliation_failure_not_fatal Faults.budgetStoreDown nov2026 nov2026
    syncedStore 7 ⟨"expense", 20, "Food", "lunch", nov2026⟩ 3 (amountBody 45)
    (sampleTx 3 "expense" "Food" 30 nov2026)
    (by decide) (by decide) (by decide) (by decide) (by decide) (by decide)
  exact ⟨rfl, rfl, h.1.2.1, h.2.1.2.2.trans (by decide), h.2.2.2.2.trans (by decide)⟩

/-! ## Fields an update body can overwrite -/

/-- C21: `updateBudget` evaluated on the accepted body `{ spent: 0 }` for user
7's "Food" budget with `spent = 30`: the handler answers 200 and the stored
budget has `spent = 0`. -/
theorem updateBudget_spent_eval :
    budgetUpdateValid { BudgetUpdateBody.empty with spent := some 0 } = true ∧
    updateBudget Faults.none syncedStore 7 1 { BudgetUpdateBody.empty with spent := some 0 }
      = ({ syncedStore with budgets := [foodBudget 0, transportBudget 0] },
         BudgetResponse.ok (foodBudget 0)) := by
  decide

/-- C22: the update handlers evaluated on the accepted body `{ user: 8 }` sent
by user 7: `updateTransaction` answers 200 and the stored transaction belongs to
user 8, and `updateBudget` answers 200 and the stored budget belongs to user 8. -/
theorem update_owner_eval :
    updateValid { UpdateBody.empty with user := some 8 } = true ∧
    updateTransaction Faults.none nov2026 nov2026 syncedStore 7 3
        { UpdateBody.empty with user := some 8 }
      = ({ syncedStore with
            transactions := [{ sampleTx 3 "expense" "Food" 30 nov2026 with user := 8 }] },
         Response.ok { sampleTx 3 "expense" "Food" 30 nov2026 with user := 8 }) ∧
    budgetUpdateValid { BudgetUpdateBody.empty with user := some 8 } = true ∧
    updateBudget Faults.none syncedStore 7 1 { BudgetUpdateBody.empty with user := some 8 }
      = ({ syncedStore with
            budgets := [{ foodBudget 30 with user := 8 }, transportBudget 0] },
         BudgetResponse.ok { foodBudget 30 with user := 8 }) := by
  decide

/-! ## Unknown transactions -/

theorem Transaction.findOne_none_of_absent (txs : List Transaction) (id : ObjectId)
    (u : UserId) (h : ∀ t ∈ txs, t._id = id → t.user ≠ u) :
    Transaction.findOne txs id u = none := by
  unfold Transaction.findOne
  rw [List.find?_eq_none]
  intro t ht
  have := h t ht
  simp only [decide_eq_true_eq, not_and]
  exact this

/-- C23: when no stored transaction carries the id together with the
requester as owner (the id is unknown, or the transaction belongs to someone
else), `updateTransaction`, on an accepted body, and `deleteTransaction` answer
404 'Transaction not found' and leave the whole store as it was. -/
theorem unknown_transaction_not_found (now now2 : JsDate) (s : Store) (userId : UserId)
    (id : ObjectId) (body : UpdateBody)
    (hvalid : updateValid body = true)
    (habsent : ∀ t ∈ s.transactions, t._id = id → t.user ≠ userId) :
    updateTransaction Faults.none now now2 s userId id body
      = (s, Response.notFound "Transaction not found") ∧
    (updateTransaction Faults.none now now2 s userId id body).2.status = 404 ∧
    deleteTransaction Faults.none now s userId id
      = (s, Response.notFound "Transaction not found") ∧
    (deleteTransaction Faults.none now s userId id).2.status = 404 := by
  have hnone := Transaction.findOne_none_of_absent s.transactions id userId habsent
  have hu : updateTransaction Faults.none now now2 s userId id body
      = (s, Response.notFound "Transaction not found") := by
    simp [updateTransaction, hvalid, Faults.none, hnone]
  have hd : deleteTransaction Faults.none now s userId id
      = (s, Response.notFound "Transaction not found") := by
    simp [deleteTransaction, Faults.none, hnone]
  refine ⟨hu, ?_, hd, ?_⟩
  · rw [hu]
    rfl
  · rw [hd]
    rfl

theorem unknown_transaction_not_found_witness :
    (∀ t ∈ syncedStore.transactions, t._id = 3 → t.user ≠ 8) ∧
    updateTransaction Faults.none nov2026 nov2026 syncedStore 8 3 (amountBody 45)
      = (syncedStore, Response.notFound "Transaction not found") ∧
    deleteTransaction Faults.none nov2026 syncedStore 7 99
      = (syncedStore, Response.notFound "Transaction not found") :=
  ⟨by decide,
   (unknown_transaction_not_found nov2026 nov2026 syncedStore 8 3 (amountBody 45)
      (by decide) (by decide)).1,
   (unknown_transaction_not_found nov2026 nov2026 syncedStore 7 99 (amountBody 45)
      (by decide) (by decide)).2.2.1⟩

/-! ## The reconciler on one budget -/

theorem updateBudgetSpent_found (now : JsDate) (bs : List Budget) (u : UserId)
    (c : String) (a : Int) (op : String) (b : Budget)
    (h : Budget.findOne bs u c (now.getMonth + 1) now.getFullYear = some b) :
    updateBudgetSpent Faults.none now bs u c a op
      = Budget.save bs { b with spent := adjustSpent b.spent a op } := by
  by_cases hadd : op = "add"
  · simp [updateBudgetSpent, Faults.none, h, adjustSpent, hadd]
  · by_cases hsub : op = "subtract"
    · simp [updateBudgetSpent, Faults.none, h, adjustSpent, hsub]
    · simp [updateBudgetSpent, Faults.none, h, adjustSpent, hadd, hsub]

theorem Budget.save_save (bs : List Budget) (d1 d2 : Budget) (hid : d1._id = d2._id) :
    Budget.save (Budget.save bs d1) d2 = Budget.save bs d2 := by
  unfold Budget.save
  rw [List.map_map]
  apply List.map_congr_left
  intro x _
  by_cases hx : x._id = d1._id
  · simp [hx, hid]
  · have hx2 : x._id ≠ d2._id := fun h => hx (h.trans hid.symm)
    simp [hx, hx2]

theorem Budget.save_self (bs : List Budget) (b : Budget) (hb : b ∈ bs)
    (hids : (bs.map (fun x => x._id)).Nodup) : Budget.save bs b = bs := by
  unfold Budget.save
  conv_rhs => rw [← List.map_id bs]
  apply List.map_congr_left
  intro x hx
  by_cases hxid : x._id = b._id
  · have hEq : x = b := List.inj_on_of_nodup_map hids hx hb hxid
    simp [hEq]
  · simp [hxid]

/-- Two reconciliations of the same key, one after the other. -/
theorem updateBudgetSpent_twice (now : JsDate) (bs : List Budget) (u : UserId)
    (c : String) (b : Budget) (a1 a2 : Int) (op1 op2 : String)
    (h : Budget.findOne bs u c (now.getMonth + 1) now.getFullYear = some b) :
    updateBudgetSpent Faults.none now
        (updateBudgetSpent Faults.none now bs u c a1 op1) u c a2 op2
      = Budget.save bs { b with spent := adjustSpent (adjustSpent b.spent a1 op1) a2 op2 } := by
  rw [updateBudgetSpent_found now bs u c a1 op1 b h]
  rw [updateBudgetSpent_found now _ u c a2 op2 _ (Budget.findOne_save_spent h _)]
  exact Budget.save_save bs _ _ rfl

/-- C29: on a budget collection with pairwise distinct `_id`s, one
reconciliation step either changes nothing or rewrites the `spent` of exactly
one stored budget, which has the given user and category and the clock's month
and year; that budget's other fields and every other budget are unchanged. -/
theorem updateBudgetSpent_frame (f : Faults) (now : JsDate) (bs : List Budget)
    (u : UserId) (c : String) (a : Int) (op : String)
    (hids : (bs.map (fun x => x._id)).Nodup) :
    updateBudgetSpent f now bs u c a op = bs ∨
    ∃ b ∈ bs, b.user = u ∧ b.category = c ∧ b.month = now.getMonth + 1 ∧
      b.year = now.getFullYear ∧ bs.count b = 1 ∧
      ∃ v : Int, updateBudgetSpent f now bs u c a op
        = bs.map (fun x => if x = b then { x with spent := v } else x) := by
  by_cases hf : f.budgetFind = true
  · left
    simp [updateBudgetSpent, hf]
  · cases hfind : Budget.findOne bs u c (now.getMonth + 1) now.getFullYear with
    | none =>
      left
      exact updateBudgetSpent_not_found f now bs u c a op hfind
    | some b =>
      by_cases hsave : f.budgetSave = true
      · left
        simp [updateBudgetSpent, hf, hfind, hsave]
      · right
        obtain ⟨hmem, hkey⟩ := Budget.findOne_some hfind
        rw [Budget.hasKey_iff] at hkey
        have hnd : bs.Nodup := List.Nodup.of_map _ hids
        refine ⟨b, hmem, hkey.1, hkey.2.1, hkey.2.2.1, hkey.2.2.2,
          List.count_eq_one_of_mem hnd hmem, adjustSpent b.spent a op, ?_⟩
        have hrun : updateBudgetSpent f now bs u c a op
            = Budget.save bs { b with spent := adjustSpent b.spent a op } := by
          by_cases hadd : op = "add"
          · simp [updateBudgetSpent, hf, hsave, hfind, adjustSpent, hadd]
          · by_cases hsub : op = "subtract"
            · simp [updateBudgetSpent, hf, hsave, hfind, adjustSpent, hsub]
            · simp [updateBudgetSpent, hf, hsave, hfind, adjustSpent, hadd, hsub]
        rw [hrun]
        unfold Budget.save
        apply List.map_congr_left
        intro x hx
        by_cases hxb : x = b
        · subst hxb
          simp
        · have hxid : x._id ≠ b._id := fun h =>
            hxb (List.inj_on_of_nodup_map hids hx hmem h)
          simp [hxb, hxid]

theorem updateBudgetSpent_frame_witness :
    ([foodBudget 50, transportBudget 20].map (fun x => x._id)).Nodup ∧
    updateBudgetSpent Faults.none nov2026 [foodBudget 50, transportBudget 20] 7 "Food" 10 "add"
      = [foodBudget 60, transportBudget 20] := by
  refine ⟨by decide, ?_⟩
  rcases updateBudgetSpent_frame Faults.none nov2026 [foodBudget 50, transportBudget 20]
    7 "Food" 10 "add" (by decide) with h | ⟨_, _, _, _, _, _, _, _, _⟩
  · exact absurd h (by decide)
  · decide

/-! ## Order of two adjustments -/

/-- C25 (amended): on whole numbers whose sum stays below `2 ^ 53`, two
reconciliation adjustments of non-negative amounts on the same budget with
`spent ≥ 0` give the same `spent` in both orders when both are 'add', when both
are 'subtract', and when one is an 'add' and the other a 'subtract' of an
amount that does not exceed the starting `spent`. -/
theorem updateBudgetSpent_order (now : JsDate) (bs : List Budget) (u : UserId)
    (c : String) (b : Budget) (a1 a2 : Int)
    (h : Budget.findOne bs u c (now.getMonth + 1) now.getFullYear = some b)
    (_h0 : 0 ≤ b.spent) (h1 : 0 ≤ a1) (h2 : 0 ≤ a2)
    (_hrange : b.spent + a1 + a2 < maxExact) :
    (updateBudgetSpent Faults.none now
        (updateBudgetSpent Faults.none now bs u c a1 "add") u c a2 "add"
      = updateBudgetSpent Faults.none now
        (updateBudgetSpent Faults.none now bs u c a2 "add") u c a1 "add") ∧
    (updateBudgetSpent Faults.none now
        (updateBudgetSpent Faults.none now bs u c a1 "subtract") u c a2 "subtract"
      = updateBudgetSpent Faults.none now
        (updateBudgetSpent Faults.none now bs u c a2 "subtract") u c a1 "subtract") ∧
    (a2 ≤ b.spent →
      updateBudgetSpent Faults.none now
        (updateBudgetSpent Faults.none now bs u c a1 "add") u c a2 "subtract"
      = updateBudgetSpent Faults.none now
        (updateBudgetSpent Faults.none now bs u c a2 "subtract") u c a1 "add") := by
  refine ⟨?_, ?_, ?_⟩
  · rw [updateBudgetSpent_twice now bs u c b a1 a2 "add" "add" h,
      updateBudgetSpent_twice now bs u c b a2 a1 "add" "add" h]
    have hv : adjustSpent (adjustSpent b.spent a1 "add") a2 "add"
        = adjustSpent (adjustSpent b.spent a2 "add") a1 "add" := by
      simp only [adjustSpent, if_true]
      ring
    rw [hv]
  · rw [updateBudgetSpent_twice now bs u c b a1 a2 "subtract" "subtract" h,
      updateBudgetSpent_twice now bs u c b a2 a1 "subtract" "subtract" h]
    have hv : adjustSpent (adjustSpent b.spent a1 "subtract") a2 "subtract"
        = adjustSpent (adjustSpent b.spent a2 "subtract") a1 "subtract" := by
      have hne : ¬ ("subtract" = "add") := by decide
      simp only [adjustSpent, hne, if_false, if_true]
      omega
    rw [hv]
  · intro hle
    rw [updateBudgetSpent_twice now bs u c b a1 a2 "add" "subtract" h,
      updateBudgetSpent_twice now bs u c b a2 a1 "subtract" "add" h]
    have hv : adjustSpent (adjustSpent b.spent a1 "add") a2 "subtract"
        = adjustSpent (adjustSpent b.spent a2 "subtract") a1 "add" := by
      have hne : ¬ ("subtract" = "add") := by decide
      simp only [adjustSpent, hne, if_false, if_true]
      omega
    rw [hv]

theorem updateBudgetSpent_order_witness :
    (20 : Int) ≤ (foodBudget 50).spent ∧
    (foodBudget 50).spent + 10 + 20 < maxExact ∧
    updateBudgetSpent Faults.none nov2026
        (updateBudgetSpent Faults.none nov2026 [foodBudget 50] 7 "Food" 10 "add")
        7 "Food" 20 "subtract"
      = updateBudgetSpent Faults.none nov2026
        (updateBudgetSpent Faults.none nov2026 [foodBudget 50] 7 "Food" 20 "subtract")
        7 "Food" 10 "add" :=
  ⟨by decide, by decide,
   (updateBudgetSpent_order nov2026 [foodBudget 50] 7 "Food" (foodBudget 50) 10 20
      (by decide) (by decide) (by decide) (by decide) (by decide)).2.2 (by decide)⟩

/-- C25 as stated fails: from `spent = 5`, subtracting 20 and then adding 10
leaves 10, while adding 10 and then subtracting 20 leaves 0. -/
theorem updateBudgetSpent_order_matters :
    ¬ ∀ (now : JsDate) (bs : List Budget) (u : UserId) (c : String) (b : Budget)
        (a1 a2 : Int) (op1 op2 : String),
        Budget.findOne bs u c (now.getMonth + 1) now.getFullYear = some b →
        0 ≤ b.spent → 0 < a1 → 0 < a2 →
        (op1 = "add" ∨ op1 = "subtract") → (op2 = "add" ∨ op2 = "subtract") →
        updateBudgetSpent Faults.none now
            (updateBudgetSpent Faults.none now bs u c a1 op1) u c a2 op2
          = updateBudgetSpent Faults.none now
            (updateBudgetSpent Faults.none now bs u c a2 op2) u c a1 op1 := by
  intro h
  have h1 := h nov2026 [foodBudget 5] 7 "Food" (foodBudget 5) 20 10 "subtract" "add"
    (by decide) (by decide) (by decide) (by decide) (by decide) (by decide)
  revert h1
  decide

/-! ## Same-category updates with the floor -/

/-- C27: for an expense that stays an expense and keeps its category, with
`diff = new amount - old amount`: on a budget with `spent ≥ 0` the `spent`
becomes `max 0 (spent + diff)`; an update with `diff = 0` leaves a budget with
`spent ≥ 0` as it is and resets a budget with negative `spent` to 0. -/
theorem updateTransaction_same_category_floor (now now2 : JsDate) (s : Store)
    (userId : UserId) (id : ObjectId) (body : UpdateBody) (t : Transaction) (b : Budget)
    (hvalid : updateValid body = true)
    (ht : Transaction.findOne s.transactions id userId = some t)
    (_hold : t.type = "expense") (hnew : (t.assign body).type = "expense")
    (hcat : (t.assign body).category = t.category)
    (hb : Budget.findOne s.budgets userId t.category (now.getMonth + 1)
      now.getFullYear = some b) :
    (0 ≤ b.spent →
      Budget.findOne (updateTransaction Faults.none now now2 s userId id body).1.budgets
          userId t.category (now.getMonth + 1) now.getFullYear
        = some { b with spent := max 0 (b.spent + ((t.assign body).amount - t.amount)) }) ∧
    (0 ≤ b.spent → (t.assign body).amount = t.amount →
      Budget.findOne (updateTransaction Faults.none now now2 s userId id body).1.budgets
          userId t.category (now.getMonth + 1) now.getFullYear = some b) ∧
    (b.spent < 0 → (t.assign body).amount = t.amount →
      Budget.findOne (updateTransaction Faults.none now now2 s userId id body).1.budgets
          userId t.category (now.getMonth + 1) now.getFullYear
        = some { b with spent := 0 }) := by
  have hrun : Budget.findOne
      (updateTransaction Faults.none now now2 s userId id body).1.budgets
      userId t.category (now.getMonth + 1) now.getFullYear
      = some { b with
          spent := adjustSpent b.spent |(t.assign body).amount - t.amount|
            (if (t.assign body).amount - t.amount > 0 then "add" else "subtract") } := by
    rw [updateTransaction_budgets now now2 s userId id body t hvalid ht]
    simp only [hnew, hcat, if_true]
    rw [updateBudgetSpent_found now s.budgets userId t.category _ _ b hb]
    exact Budget.findOne_save_spent hb _
  have hne : ¬ ("subtract" = "add") := by decide
  refine ⟨?_, ?_, ?_⟩
  · intro h0
    rw [hrun]
    by_cases hd : (t.assign body).amount - t.amount > 0
    · simp only [hd, if_true, adjustSpent, abs_of_pos hd]
      rw [max_eq_right (by omega)]
    · simp only [hd, if_false, adjustSpent, hne, if_true, abs_of_nonpos (not_lt.mp hd)]
      congr 3
      ring
  · intro h0 hsame
    rw [hrun]
    have hd : ¬ ((t.assign body).amount - t.amount > 0) := by omega
    have hz : (t.assign body).amount - t.amount = 0 := by omega
    rw [if_neg hd, hz]
    have hv : adjustSpent b.spent |(0 : Int)| "subtract" = b.spent := by
      simp only [adjustSpent, hne, if_false, if_true, abs_zero, sub_zero]
      exact max_eq_right h0
    rw [hv]
  · intro hneg hsame
    rw [hrun]
    have hd : ¬ ((t.assign body).amount - t.amount > 0) := by omega
    have hz : (t.assign body).amount - t.amount = 0 := by omega
    rw [if_neg hd, hz]
    have hv : adjustSpent b.spent |(0 : Int)| "subtract" = 0 := by
      simp only [adjustSpent, hne, if_false, if_true, abs_zero, sub_zero]
      exact max_eq_left (le_of_lt hneg)
    rw [hv]

theorem updateTransaction_same_category_floor_witness :
    (0 : Int) ≤ (foodBudget 5).spent ∧
    Budget.findOne
        (updateTransaction Faults.none nov2026 nov2026 backdatedStore 7 3
          (amountBody 10)).1.budgets 7 "Food" 11 2026
      = some (foodBudget 0) ∧
    Budget.findOne
        (updateTransaction Faults.none nov2026 nov2026 backdatedStore 7 3
          UpdateBody.empty).1.budgets 7 "Food" 11 2026
      = some (foodBudget 5) :=
  ⟨by decide,
   (updateTransaction_same_category_floor nov2026 nov2026 backdatedStore 7 3 (amountBody 10)
      (sampleTx 3 "expense" "Food" 30 oct2026) (foodBudget 5)
      (by decide) (by decide) (by decide) (by decide) (by decide) (by decide)).1 (by decide),
   (updateTransaction_same_category_floor nov2026 nov2026 backdatedStore 7 3 UpdateBody.empty
      (sampleTx 3 "expense" "Food" 30 oct2026) (foodBudget 5)
      (by decide) (by decide) (by decide) (by decide) (by decide) (by decide)).2.1
      (by decide) (by decide)⟩

/-! ## `spent` stays non-negative -/

theorem Budget.mem_save {bs : List Budget} {doc x : Budget} (h : x ∈ Budget.save bs doc) :
    x = doc ∨ x ∈ bs := by
  unfold Budget.save at h
  obtain ⟨y, hy, hyx⟩ := List.mem_map.mp h
  by_cases hid : y._id = doc._id
  · rw [if_pos hid] at hyx
    exact Or.inl hyx.symm
  · rw [if_neg hid] at hyx
    exact Or.inr (hyx ▸ hy)

theorem updateBudgetSpent_nonneg (f : Faults) (now : JsDate) (bs : List Budget)
    (u : UserId) (c : String) (a : Int) (op : String)
    (h : ∀ b ∈ bs, 0 ≤ b.spent) (ha : op = "add" → 0 ≤ a) :
    ∀ b ∈ updateBudgetSpent f now bs u c a op, 0 ≤ b.spent := by
  unfold updateBudgetSpent
  split
  · exact h
  · simp only
    split
    · exact h
    · rename_i budget hfind
      have hbudget := h budget (Budget.findOne_some hfind).1
      split
      · exact h
      · intro x hx
        rcases Budget.mem_save hx with hEq | hmem
        · subst hEq
          by_cases hadd : op = "add"
          · have := ha hadd
            simp only [hadd, if_true]
            omega
          · by_cases hsub : op = "subtract"
            · simp only [hadd, hsub, if_false, if_true]
              exact le_max_left _ _
            · simp only [hadd, hsub, if_false]
              exact hbudget
        · exact h x hmem

theorem createValid_amount {body : CreateBody} (h : createValid body = true) :
    1 ≤ body.amount := by
  simp only [createValid, Bool.and_eq_true, decide_eq_true_eq] at h
  exact h.1.1.2

theorem groupTotal_nonneg (matched : List Transaction) (h : ∀ t ∈ matched, 0 ≤ t.amount) :
    0 ≤ (matched.map (fun t => t.amount)).sum := by
  apply List.sum_nonneg
  intro x hx
  obtain ⟨t, ht, rfl⟩ := List.mem_map.mp hx
  exact h t ht

/-- C26: if every stored budget has `spent ≥ 0` and every stored transaction
has `amount > 0`, then after `createTransaction`, `updateTransaction` or
`deleteTransaction` every stored budget has `spent ≥ 0`, and so has every
budget after `createBudget`, the seeded one included; this holds whatever store
calls fail. -/
theorem spent_stays_nonneg (f : Faults) (now now2 : JsDate) (s : Store) (userId : UserId)
    (cbody : CreateBody) (id : ObjectId) (ubody : UpdateBody) (bbody : BudgetBody)
    (hb : ∀ b ∈ s.budgets, 0 ≤ b.spent) (ht : ∀ t ∈ s.transactions, 0 < t.amount) :
    (∀ b ∈ (createTransaction f now s userId cbody).1.budgets, 0 ≤ b.spent) ∧
    (∀ b ∈ (updateTransaction f now now2 s userId id ubody).1.budgets, 0 ≤ b.spent) ∧
    (∀ b ∈ (deleteTransaction f now s userId id).1.budgets, 0 ≤ b.spent) ∧
    (∀ b ∈ (createBudget f now s userId bbody).1.budgets, 0 ≤ b.spent) := by
  refine ⟨?_, ?_, ?_, ?_⟩
  · unfold createTransaction
    split
    · exact hb
    · rename_i hvalid
      have hamt := createValid_amount (by simpa using hvalid)
      split
      · exact hb
      · simp only
        split
        · exact updateBudgetSpent_nonneg f now s.budgets userId _ _ "add" hb
            (fun _ => by omega)
        · exact hb
  · unfold updateTransaction
    split
    · exact hb
    · rename_i hvalid
      split
      · exact hb
      · split
        · exact hb
        · rename_i found hfound
          have hmem := (Transaction.findOne_found hfound).1
          have hnew := assign_amount_nonneg found ubody (by simpa using hvalid)
            (le_of_lt (ht found hmem))
          simp only
          split
          · exact hb
          · simp only
            split
            · split
              · exact updateBudgetSpent_nonneg f now s.budgets userId _ _ _ hb
                  (fun _ => abs_nonneg _)
              · exact updateBudgetSpent_nonneg f now2 _ userId _ _ "add"
                  (updateBudgetSpent_nonneg f now s.budgets userId _ _ "subtract" hb
                    (fun h => absurd h (by decide)))
                  (fun _ => hnew)
            · exact hb
  · unfold deleteTransaction
    split
    · exact hb
    · split
      · exact hb
      · simp only
        have hsub : ∀ (c : String) (a : Int),
            ∀ b ∈ updateBudgetSpent f now s.budgets userId c a "subtract", 0 ≤ b.spent :=
          fun c a => updateBudgetSpent_nonneg f now s.budgets userId c a "subtract" hb
            (fun h => absurd h (by decide))
        split <;> split <;> first | exact hsub _ _ | exact hb
  · unfold createBudget
    split
    · exact hb
    · simp only
      split
      · exact hb
      · split
        · exact hb
        · split
          · exact hb
          · exact hb
          · rename_i budgets hins
            obtain ⟨hEq, _⟩ := Budget.insert_ok hins
            rw [hEq]
            intro b hbmem
            rcases List.mem_append.mp hbmem with h | h
            · exact hb b h
            · rw [List.mem_singleton] at h
              subst h
              simp only [groupTotal_head]
              apply groupTotal_nonneg
              intro t htm
              exact le_of_lt (ht t (List.mem_of_mem_filter htm))

theorem spent_stays_nonneg_witness :
    (∀ b ∈ syncedStore.budgets, 0 ≤ b.spent) ∧
    (∀ t ∈ syncedStore.transactions, 0 < t.amount) ∧
    (∀ b ∈ (updateTransaction Faults.none nov2026 nov2026 syncedStore 7 3
      (amountBody 1)).1.budgets, 0 ≤ b.spent) ∧
    (∀ b ∈ (deleteTransaction Faults.none nov2026 syncedStore 7 3).1.budgets, 0 ≤ b.spent) :=
  ⟨by decide, by decide,
   (spent_stays_nonneg Faults.none nov2026 nov2026 syncedStore 7
      ⟨"expense", 20, "Food", "lunch", nov2026⟩ 3 (amountBody 1) (budgetBody "Fun")
      (by decide) (by decide)).2.1,
   (spent_stays_nonneg Faults.none nov2026 nov2026 syncedStore 7
      ⟨"expense", 20, "Food", "lunch", nov2026⟩ 3 (amountBody 1) (budgetBody "Fun")
      (by decide) (by decide)).2.2.1⟩

/-! ## Create and delete as a round trip -/

theorem updateBudgetSpent_same_period (f : Faults) (now now2 : JsDate) (bs : List Budget)
    (u : UserId) (c : String) (a : Int) (op : String) (h : samePeriod now2 now) :
    updateBudgetSpent f now2 bs u c a op = updateBudgetSpent f now bs u c a op := by
  unfold updateBudgetSpent
  rw [h.1, h.2]

theorem Transaction.findOne_appended (txs : List Transaction) (t : Transaction)
    (hfresh : ∀ x ∈ txs, x._id ≠ t._id) :
    Transaction.findOne (txs ++ [t]) t._id t.user = some t := by
  unfold Transaction.findOne
  rw [List.find?_append]
  have hnone : txs.find? (fun x => decide (x._id = t._id ∧ x.user = t.user)) = none := by
    rw [List.find?_eq_none]
    intro x hx
    simp only [decide_eq_true_eq, not_and]
    intro hid
    exact absurd hid (hfresh x hx)
  rw [hnone]
  simp

theorem findByIdAndDelete_appended (txs : List Transaction) (t : Transaction)
    (hfresh : ∀ x ∈ txs, x._id ≠ t._id) :
    Transaction.findByIdAndDelete (txs ++ [t]) t._id = txs := by
  unfold Transaction.findByIdAndDelete
  rw [List.filter_append]
  have h1 : txs.filter (fun x => decide (x._id ≠ t._id)) = txs := by
    rw [List.filter_eq_self]
    intro x hx
    simpa using hfresh x hx
  rw [h1]
  simp

/-- The budgets left by adding an amount and then subtracting it again. -/
theorem add_then_subtract (now : JsDate) (bs : List Budget) (u : UserId) (c : String)
    (a : Int) (hids : (bs.map (fun x => x._id)).Nodup) (hspent : ∀ b ∈ bs, 0 ≤ b.spent) :
    updateBudgetSpent Faults.none now
      (updateBudgetSpent Faults.none now bs u c a "add") u c a "subtract" = bs := by
  cases hfind : Budget.findOne bs u c (now.getMonth + 1) now.getFullYear with
  | none =>
    rw [updateBudgetSpent_not_found _ now bs u c a "add" hfind,
      updateBudgetSpent_not_found _ now bs u c a "subtract" hfind]
  | some b =>
    obtain ⟨hmem, _⟩ := Budget.findOne_some hfind
    rw [updateBudgetSpent_twice now bs u c b a a "add" "subtract" hfind]
    have hne : ¬ ("subtract" = "add") := by decide
    have hv : adjustSpent (adjustSpent b.spent a "add") a "subtract" = b.spent := by
      simp only [adjustSpent, hne, if_false, if_true]
      have := hspent b hmem
      rw [max_eq_right (by omega)]
      ring
    rw [hv]
    exact Budget.save_self bs b hmem hids

/-- C28 (amended): on budgets with pairwise distinct `_id`s and `spent ≥ 0`,
creating an expense whose amount is a whole number, with the sums of the
reconciliation below `2 ^ 53`, and then deleting it under a clock of the same
calendar month restores the budget collection (and the ledger); in the reverse
order, deleting a stored expense whose amount exceeds the budget's `spent` and
creating it again leaves the budget with `spent` equal to the amount, not to
its original value. -/
theorem create_delete_round_trip (now now2 : JsDate) (s : Store) (userId : UserId)
    (hfresh : ∀ x ∈ s.transactions, x._id ≠ s.nextId)
    (hids : (s.budgets.map (fun x => x._id)).Nodup)
    (hspent : ∀ x ∈ s.budgets, 0 ≤ x.spent)
    (hper : samePeriod now2 now) :
    (∀ body : CreateBody, createValid body = true → body.type = "expense" →
      inExactRange s.budgets body.amount →
      (deleteTransaction Faults.none now2
          (createTransaction Faults.none now s userId body).1 userId s.nextId).1.budgets
        = s.budgets ∧
      (deleteTransaction Faults.none now2
          (createTransaction Faults.none now s userId body).1 userId s.nextId).1.transactions
        = s.transactions ∧
      (deleteTransaction Faults.none now2
          (createTransaction Faults.none now s userId body).1 userId s.nextId).2.status
        = 200) ∧
    (∀ (id : ObjectId) (t : Transaction) (b : Budget),
      Transaction.findOne s.transactions id userId = some t → t.type = "expense" →
      Budget.findOne s.budgets userId t.category (now.getMonth + 1) now.getFullYear
        = some b →
      b.spent < t.amount →
      createValid ⟨t.type, t.amount, t.category, t.description, t.date⟩ = true →
      Budget.findOne
          (createTransaction Faults.none now2
            (deleteTransaction Faults.none now s userId id).1
            userId ⟨t.type, t.amount, t.category, t.description, t.date⟩).1.budgets
          userId t.category (now.getMonth + 1) now.getFullYear
        = some { b with spent := t.amount } ∧
      t.amount ≠ b.spent) := by
  constructor
  · intro body hvalid hexp _
    have hcreate : (createTransaction Faults.none now s userId body).1
        = { transactions := s.transactions ++
              [Transaction.mk s.nextId userId body.type body.category body.amount
                body.description body.date now],
            budgets := updateBudgetSpent Faults.none now s.budgets userId body.category
              body.amount "add",
            nextId := s.nextId + 1 } := by
      simp [createTransaction, hvalid, hexp, Faults.none]
    have hfound := Transaction.findOne_appended s.transactions
      (Transaction.mk s.nextId userId body.type body.category body.amount
        body.description body.date now) hfresh
    have hdel := findByIdAndDelete_appended s.transactions
      (Transaction.mk s.nextId userId body.type body.category body.amount
        body.description body.date now) hfresh
    simp only at hfound hdel
    rw [hcreate]
    have hback := add_then_subtract now s.budgets userId body.category body.amount hids hspent
    rw [← updateBudgetSpent_same_period Faults.none now now2 _ userId body.category
      body.amount "subtract" hper] at hback
    refine ⟨?_, ?_, ?_⟩
    · simp only [deleteTransaction, Faults.none, Bool.false_eq_true, if_false, hfound]
      rw [if_pos hexp]
      exact hback
    · simp only [deleteTransaction, Faults.none, Bool.false_eq_true, if_false, hfound]
      exact hdel
    · simp only [deleteTransaction, Faults.none, Bool.false_eq_true, if_false, hfound]
      rfl
  · intro id t b ht htype hb hlt hvalid2
    have hdelete : (deleteTransaction Faults.none now s userId id).1.budgets
        = updateBudgetSpent Faults.none now s.budgets userId t.category t.amount
          "subtract" := by
      simp [deleteTransaction, Faults.none, ht, htype]
    have hrun : (createTransaction Faults.none now2 (deleteTransaction Faults.none now s userId id).1
        userId ⟨t.type, t.amount, t.category, t.description, t.date⟩).1.budgets
        = updateBudgetSpent Faults.none now2
            (deleteTransaction Faults.none now s userId id).1.budgets userId t.category
            t.amount "add" := by
      simp only [createTransaction, hvalid2, Faults.none, Bool.not_true, Bool.false_eq_true,
        if_false]
      rw [if_pos htype]
    rw [hrun, hdelete, updateBudgetSpent_same_period Faults.none now now2 _ userId t.category
      t.amount "add" hper,
      updateBudgetSpent_twice now s.budgets userId t.category b t.amount t.amount
        "subtract" "add" hb]
    have hne : ¬ ("subtract" = "add") := by decide
    have hv : adjustSpent (adjustSpent b.spent t.amount "subtract") t.amount "add"
        = t.amount := by
      simp only [adjustSpent, hne, if_false, if_true]
      rw [max_eq_left (by omega)]
      ring
    rw [hv]
    exact ⟨Budget.findOne_save_spent hb _, by omega⟩

theorem create_delete_round_trip_witness :
    createValid ⟨"expense", 20, "Food", "lunch", nov2026⟩ = true ∧
    inExactRange backdatedStore.budgets 20 ∧
    (deleteTransaction Faults.none nov2026
        (createTransaction Faults.none nov2026 backdatedStore 7
          ⟨"expense", 20, "Food", "lunch", nov2026⟩).1 7 5).1.budgets
      = [foodBudget 5] ∧
    Budget.findOne
        (createTransaction Faults.none nov2026
          (deleteTransaction Faults.none nov2026 backdatedStore 7 3).1
          7 ⟨"expense", 30, "Food", "sample", oct2026⟩).1.budgets
        7 "Food" 11 2026
      = some (foodBudget 30) :=
  ⟨by decide, by decide,
   ((create_delete_round_trip nov2026 nov2026 backdatedStore 7 (by decide) (by decide)
      (by decide) (by decide)).1 ⟨"expense", 20, "Food", "lunch", nov2026⟩ (by decide)
      (by decide) (by decide)).1,
   ((create_delete_round_trip nov2026 nov2026 backdatedStore 7 (by decide) (by decide)
      (by decide) (by decide)).2 3 (sampleTx 3 "expense" "Food" 30 oct2026) (foodBudget 5)
      (by decide) (by decide) (by decide) (by decide) (by decide)).1⟩

/-- The numbers of the failing round trip: `spent` goes from `0.1` to
`0.30000000000000004` and back to `0.10000000000000003`. -/
theorem create_delete_spent_eval :
    (createTransaction64 Faults.none nov2026 (foodStore64 (Double.ofDecimal 1 1)) 7
        (foodExpense64 (Double.ofDecimal 2 1))).1.budgets.map (fun b => b.spent)
      = [⟨5404319552844596, -54⟩] ∧
    (deleteTransaction64 Faults.none nov2026
        (createTransaction64 Faults.none nov2026 (foodStore64 (Double.ofDecimal 1 1)) 7
          (foodExpense64 (Double.ofDecimal 2 1))).1 7 2).1.budgets.map (fun b => b.spent)
      = [⟨3602879701896398, -55⟩] ∧
    Double.ofDecimal 1 1 = ⟨7205759403792794, -56⟩ := by
  set_option maxRecDepth 100000 in decide

/-- C28 as stated fails: on a budget with `spent = 0.1`, creating an expense of
`0.2` and deleting it again leaves `spent = 0.10000000000000003`, because
`0.1 + 0.2` is rounded before `0.2` is subtracted. -/
theorem create_delete_not_restoring :
    ¬ ∀ (now now2 : JsDate) (s : Store64) (userId : UserId) (body : CreateBody64),
        createValid64 body = true → body.type = "expense" →
        (∀ b ∈ s.budgets, Double.lt b.spent (Double.ofInt 0) = false) →
        samePeriod now2 now →
        ∀ b ∈ s.budgets,
          ∃ b2 ∈ (deleteTransaction64 Faults.none now2
              (createTransaction64 Faults.none now s userId body).1 userId s.nextId).1.budgets,
            b2._id = b._id ∧ Double.eqv b2.spent b.spent = true := by
  intro h
  have h1 := h nov2026 nov2026 (foodStore64 (Double.ofDecimal 1 1)) 7
    (foodExpense64 (Double.ofDecimal 2 1))
    (by set_option maxRecDepth 100000 in decide) (by decide)
    (by set_option maxRecDepth 100000 in decide) (by decide)
  revert h1
  set_option maxRecDepth 100000 in decide

/-! ## Two reconciliations in flight -/

/-- `updateBudgetSpent` is its read followed by its write. -/
theorem updateBudgetSpent_read_write (now : JsDate) (bs : List Budget) (u : UserId)
    (c : String) (a : Int) (op : String) :
    updateBudgetSpent Faults.none now bs u c a op
      = reconcileWrite bs (reconcileRead now bs u c) a op := by
  unfold reconcileRead reconcileWrite
  cases hfind : Budget.findOne bs u c (now.getMonth + 1) now.getFullYear with
  | none => exact updateBudgetSpent_not_found _ now bs u c a op hfind
  | some b => exact updateBudgetSpent_found now bs u c a op b hfind

/-- C24 (amended): a reconciliation is a read of the budget followed by a save
of the computed `spent`; when two reconciliations run one after the other, in
either order, the result is that of the two calls of `updateBudgetSpent` in
that order, so both adjustments take effect: for two 'add's on the same budget
the final `spent` is `spent + a1 + a2`. -/
theorem serial_reconciliations (now : JsDate) (bs : List Budget) (r1 r2 : Reconciliation) :
    runSchedule now r1 r2 bs
        [RaceStep.read true, RaceStep.write true, RaceStep.read false, RaceStep.write false]
      = updateBudgetSpent Faults.none now
          (updateBudgetSpent Faults.none now bs r1.userId r1.category r1.amount r1.operation)
          r2.userId r2.category r2.amount r2.operation ∧
    runSchedule now r1 r2 bs
        [RaceStep.read false, RaceStep.write false, RaceStep.read true, RaceStep.write true]
      = updateBudgetSpent Faults.none now
          (updateBudgetSpent Faults.none now bs r2.userId r2.category r2.amount r2.operation)
          r1.userId r1.category r1.amount r1.operation ∧
    (∀ b : Budget,
      Budget.findOne bs r1.userId r1.category (now.getMonth + 1) now.getFullYear = some b →
      r2.userId = r1.userId → r2.category = r1.category →
      r1.operation = "add" → r2.operation = "add" →
      Budget.findOne
          (runSchedule now r1 r2 bs
            [RaceStep.read true, RaceStep.write true, RaceStep.read false,
              RaceStep.write false])
          r1.userId r1.category (now.getMonth + 1) now.getFullYear
        = some { b with spent := b.spent + r1.amount + r2.amount }) := by
  have h1 : runSchedule now r1 r2 bs
      [RaceStep.read true, RaceStep.write true, RaceStep.read false, RaceStep.write false]
      = updateBudgetSpent Faults.none now
          (updateBudgetSpent Faults.none now bs r1.userId r1.category r1.amount r1.operation)
          r2.userId r2.category r2.amount r2.operation := by
    rw [updateBudgetSpent_read_write, updateBudgetSpent_read_write]
    rfl
  have h2 : runSchedule now r1 r2 bs
      [RaceStep.read false, RaceStep.write false, RaceStep.read true, RaceStep.write true]
      = updateBudgetSpent Faults.none now
          (updateBudgetSpent Faults.none now bs r2.userId r2.category r2.amount r2.operation)
          r1.userId r1.category r1.amount r1.operation := by
    rw [updateBudgetSpent_read_write, updateBudgetSpent_read_write]
    rfl
  refine ⟨h1, h2, ?_⟩
  intro b hb hu hc hop1 hop2
  rw [h1, hu, hc, hop1, hop2,
    updateBudgetSpent_twice now bs r1.userId r1.category b r1.amount r2.amount "add" "add" hb]
  have hv : adjustSpent (adjustSpent b.spent r1.amount "add") r2.amount "add"
      = b.spent + r1.amount + r2.amount := by
    simp only [adjustSpent, if_true]
  rw [hv]
  exact Budget.findOne_save_spent hb _

theorem serial_reconciliations_witness :
    Budget.findOne [foodBudget 50] 7 "Food" (nov2026.getMonth + 1) nov2026.getFullYear
      = some (foodBudget 50) ∧
    Budget.findOne
        (runSchedule nov2026 ⟨7, "Food", 10, "add"⟩ ⟨7, "Food", 20, "add"⟩ [foodBudget 50]
          [RaceStep.read true, RaceStep.write true, RaceStep.read false, RaceStep.write false])
        7 "Food" 11 2026
      = some (foodBudget 80) :=
  ⟨by decide,
   (serial_reconciliations nov2026 [foodBudget 50] ⟨7, "Food", 10, "add"⟩
      ⟨7, "Food", 20, "add"⟩).2.2 (foodBudget 50) (by decide) rfl rfl rfl rfl⟩

/-- C24 as stated fails: when both reconciliations read the "Food" budget
(`spent = 50`) before either saves, the second save overwrites the first, and
adding 10 and 20 leaves `spent = 70` where the two calls in sequence leave 80. -/
theorem interleaved_reconciliations_lose_update :
    ¬ ∀ (now : JsDate) (bs : List Budget) (r1 r2 : Reconciliation),
        ∀ steps ∈ interleavings,
          runSchedule now r1 r2 bs steps
            = updateBudgetSpent Faults.none now
                (updateBudgetSpent Faults.none now bs r1.userId r1.category r1.amount
                  r1.operation)
                r2.userId r2.category r2.amount r2.operation
          ∨ runSchedule now r1 r2 bs steps
            = updateBudgetSpent Faults.none now
                (updateBudgetSpent Faults.none now bs r2.userId r2.category r2.amount
                  r2.operation)
                r1.userId r1.category r1.amount r1.operation := by
  intro h
  have h1 := h nov2026 [foodBudget 50] ⟨7, "Food", 10, "add"⟩ ⟨7, "Food", 20, "add"⟩
    [RaceStep.read true, RaceStep.read false, RaceStep.write true, RaceStep.write false]
    (by decide)
  revert h1
  decide
/-! ## Binary64 rounding -/

theorem bitLength_le (fuel : Nat) : ∀ (n k : Nat), n < 2 ^ k → bitLength fuel n ≤ k := by
  induction fuel with
  | zero => intro n k _; simp [bitLength]
  | succ fuel ih =>
    intro n k h
    unfold bitLength
    split
    · omega
    · rename_i hn
      cases k with
      | zero => simp at h; omega
      | succ k =>
        have : n / 2 < 2 ^ k := by
          rw [Nat.div_lt_iff_lt_mul (by norm_num)]
          rw [pow_succ] at h
          exact h
        have := ih (n / 2) k this
        omega

theorem lt_pow_bitLength (fuel : Nat) : ∀ n : Nat, n ≤ fuel → n < 2 ^ bitLength fuel n := by
  induction fuel with
  | zero => intro n h; simp [bitLength]; omega
  | succ fuel ih =>
    intro n h
    unfold bitLength
    split
    · rename_i hn; simp [hn]
    · rename_i hn
      have h2 : n / 2 ≤ fuel := by omega
      have := ih (n / 2) h2
      rw [pow_succ]
      omega

theorem Double.scaled_shift (d : Double) (e E : Int) (h1 : E ≤ e) (h2 : e ≤ d.exp) :
    d.scaled E = d.scaled e * ((2 ^ (e - E).toNat : Nat) : Int) := by
  unfold Double.scaled
  have : (d.exp - E).toNat = (d.exp - e).toNat + (e - E).toNat := by omega
  rw [this, pow_add]
  push_cast
  ring

theorem Double.lt_iff_scaled (a b : Double) (E : Int) (ha : E ≤ a.exp) (hb : E ≤ b.exp) :
    Double.lt a b = true ↔ a.scaled E < b.scaled E := by
  unfold Double.lt
  rw [decide_eq_true_iff,
    Double.scaled_shift a (min a.exp b.exp) E (le_min ha hb) (min_le_left _ _),
    Double.scaled_shift b (min a.exp b.exp) E (le_min ha hb) (min_le_right _ _)]
  have hpos : (0 : Int) < ((2 ^ (min a.exp b.exp - E).toNat : Nat) : Int) := by positivity
  constructor
  · intro h
    exact Int.mul_lt_mul_of_pos_right h hpos
  · intro h
    exact lt_of_mul_lt_mul_right h (le_of_lt hpos)


theorem Double.round_exp (m e : Int) :
    (Double.round m e).exp = e + ((bitLength m.natAbs m.natAbs - 53 : Nat) : Int) := rfl

theorem Double.round_mant_le (m e : Int) (K : Nat) (h0 : 0 ≤ m)
    (hK : m.natAbs < K * 2 ^ (bitLength m.natAbs m.natAbs - 53)) :
    (Double.round m e).mant ≤ (K : Int) := by
  unfold Double.round
  simp only
  have hq : m.natAbs / 2 ^ (bitLength m.natAbs m.natAbs - 53) < K := by
    rw [Nat.div_lt_iff_lt_mul (by positivity)]
    exact hK
  have hsign : m.sign ≤ 1 := by
    rcases Int.lt_trichotomy m 0 with h | h | h
    · omega
    · simp [h]
    · rw [Int.sign_eq_one_of_pos h]
  have hsign0 : 0 ≤ m.sign := Int.sign_nonneg.mpr h0
  split
  · calc m.sign * ((m.natAbs / 2 ^ (bitLength m.natAbs m.natAbs - 53) + 1 : Nat) : Int)
        ≤ 1 * ((m.natAbs / 2 ^ (bitLength m.natAbs m.natAbs - 53) + 1 : Nat) : Int) :=
          Int.mul_le_mul_of_nonneg_right hsign (by positivity)
      _ ≤ (K : Int) := by
          rw [one_mul]
          exact_mod_cast hq
  · calc m.sign * ((m.natAbs / 2 ^ (bitLength m.natAbs m.natAbs - 53) : Nat) : Int)
        ≤ 1 * ((m.natAbs / 2 ^ (bitLength m.natAbs m.natAbs - 53) : Nat) : Int) :=
          Int.mul_le_mul_of_nonneg_right hsign (by positivity)
      _ ≤ (K : Int) := by
          rw [one_mul]
          exact_mod_cast le_of_lt hq

theorem Double.round_zero (e : Int) : (Double.round 0 e).mant = 0 := by
  simp [Double.round]

/-- Rounding `amount * 0.8` never exceeds a non-negative `amount`. -/
theorem Double.mul_point8_le (a : Double) (h0 : 0 ≤ a.mant) (hb : a.mant ≤ 2 ^ 53) :
    (Double.mul a Double.point8).exp ≤ a.exp ∧
    (Double.mul a Double.point8).scaled (Double.mul a Double.point8).exp
      ≤ a.scaled (Double.mul a Double.point8).exp := by
  obtain ⟨m, hm⟩ := Int.eq_ofNat_of_zero_le h0
  have hmb : m ≤ 2 ^ 53 := by
    rw [hm] at hb
    exact_mod_cast hb
  have hn : (a.mant * Double.point8.mant).natAbs = m * 7205759403792794 := by
    rw [hm]
    show ((m : Int) * 7205759403792794).natAbs = _
    rw [Int.natAbs_mul]
    simp
  have hlt : m * 7205759403792794 < 2 ^ 106 := by
    calc m * 7205759403792794 ≤ 2 ^ 53 * 7205759403792794 := Nat.mul_le_mul_right _ hmb
      _ < 2 ^ 106 := by norm_num
  have hshift : bitLength (m * 7205759403792794) (m * 7205759403792794) - 53 ≤ 53 := by
    have := bitLength_le (m * 7205759403792794) (m * 7205759403792794) 106 hlt
    omega
  have hexp : (Double.mul a Double.point8).exp
      = a.exp + (-53) + ((bitLength (m * 7205759403792794) (m * 7205759403792794) - 53 : Nat)
        : Int) := by
    unfold Double.mul
    rw [Double.round_exp, hn]
    rfl
  refine ⟨by rw [hexp]; omega, ?_⟩
  have hself : (Double.mul a Double.point8).scaled (Double.mul a Double.point8).exp
      = (Double.mul a Double.point8).mant := by
    simp [Double.scaled]
  have htoNat : (a.exp - (Double.mul a Double.point8).exp).toNat
      = 53 - (bitLength (m * 7205759403792794) (m * 7205759403792794) - 53) := by
    rw [hexp]
    omega
  rw [hself]
  unfold Double.scaled
  rw [htoNat, hm]
  by_cases hz : m = 0
  · subst hz
    have : (Double.mul a Double.point8).mant = 0 := by
      unfold Double.mul
      rw [hm]
      simp [Double.round]
    rw [this]
    simp
  · have hround := Double.round_mant_le (a.mant * Double.point8.mant)
      (a.exp + Double.point8.exp)
      (m * 2 ^ (53 - (bitLength (m * 7205759403792794) (m * 7205759403792794) - 53)))
      (by rw [hm]; exact Int.mul_nonneg (by positivity) (by decide))
      (by
        rw [hn, Nat.mul_assoc, ← pow_add,
          Nat.sub_add_cancel hshift]
        have hpos : 0 < m := Nat.pos_of_ne_zero hz
        exact Nat.mul_lt_mul_of_pos_left (by norm_num) hpos)
    have hcast : (((m * 2 ^ (53 - (bitLength (m * 7205759403792794)
        (m * 7205759403792794) - 53)) : Nat)) : Int)
        = (m : Int) * ((2 ^ (53 - (bitLength (m * 7205759403792794)
        (m * 7205759403792794) - 53)) : Nat) : Int) := by
      push_cast
      ring
    rw [← hcast]
    exact hround

/-- A number above a non-negative `amount` is above the rounded `amount * 0.8`. -/
theorem Double.lt_mul_point8 (a s : Double) (h0 : 0 ≤ a.mant) (hb : a.mant ≤ 2 ^ 53)
    (h : Double.lt a s = true) : Double.lt (Double.mul a Double.point8) s = true := by
  obtain ⟨hexp, hle⟩ := Double.mul_point8_le a h0 hb
  have hE1 : min (Double.mul a Double.point8).exp s.exp ≤ (Double.mul a Double.point8).exp :=
    min_le_left _ _
  have hE2 : min (Double.mul a Double.point8).exp s.exp ≤ s.exp := min_le_right _ _
  have hE3 : min (Double.mul a Double.point8).exp s.exp ≤ a.exp := le_trans hE1 hexp
  rw [Double.lt_iff_scaled _ _ _ hE1 hE2]
  have h1 := (Double.lt_iff_scaled a s _ hE3 hE2).mp h
  refine lt_of_le_of_lt ?_ h1
  rw [Double.scaled_shift (Double.mul a Double.point8) _ _ hE1 (le_refl _),
    Double.scaled_shift a _ _ hE1 hexp]
  exact Int.mul_le_mul_of_nonneg_right hle (by positivity)

theorem Double.round_small (m e : Int) (h : m.natAbs < 2 ^ 53) : Double.round m e = ⟨m, e⟩ := by
  have hbl : bitLength m.natAbs m.natAbs - 53 = 0 := by
    have := bitLength_le m.natAbs m.natAbs 53 h
    omega
  unfold Double.round
  simp only [hbl, pow_zero, Nat.div_one, Nat.mod_one]
  simp
  exact Int.sign_mul_abs m

theorem Double.add_ofInt (x y : Int) (h : (x + y).natAbs < 2 ^ 53) :
    Double.add (Double.ofInt x) (Double.ofInt y) = Double.ofInt (x + y) := by
  unfold Double.add Double.ofInt Double.scaled
  simp only [min_self, sub_self, Int.toNat_zero, pow_zero, Nat.cast_one, mul_one]
  exact Double.round_small _ _ h

theorem Double.sub_ofInt (x y : Int) (h : (x - y).natAbs < 2 ^ 53) :
    Double.sub (Double.ofInt x) (Double.ofInt y) = Double.ofInt (x - y) := by
  unfold Double.sub Double.ofInt Double.scaled
  simp only [min_self, sub_self, Int.toNat_zero, pow_zero, Nat.cast_one, mul_one]
  exact Double.round_small _ _ h

theorem Double.lt_ofInt (x y : Int) :
    Double.lt (Double.ofInt x) (Double.ofInt y) = decide (x < y) := by
  unfold Double.lt Double.ofInt Double.scaled
  simp

/-- The literal `0.8` is the rounded quotient of 8 by 10. -/
theorem Double.point8_literal : Double.ofDecimal 8 1 = Double.point8 := by
  decide

/-- The rounded mantissa has at most 53 bits. -/
theorem Double.round_isBinary64 (m e : Int) : (Double.round m e).isBinary64 := by
  have hlt := lt_pow_bitLength m.natAbs m.natAbs (le_refl _)
  have hq : m.natAbs / 2 ^ (bitLength m.natAbs m.natAbs - 53) < 2 ^ 53 := by
    rw [Nat.div_lt_iff_lt_mul (by positivity), ← pow_add]
    refine lt_of_lt_of_le hlt (Nat.pow_le_pow_right (by norm_num) ?_)
    omega
  have hsign : m.sign.natAbs ≤ 1 := by
    rcases Int.lt_trichotomy m 0 with h | h | h
    · rw [Int.sign_eq_neg_one_of_neg h]
      decide
    · simp [h]
    · rw [Int.sign_eq_one_of_pos h]
      decide
  unfold Double.isBinary64 Double.round
  simp only
  rw [Int.natAbs_mul, Int.natAbs_ofNat]
  split
  · calc m.sign.natAbs * (m.natAbs / 2 ^ (bitLength m.natAbs m.natAbs - 53) + 1)
        ≤ 1 * (m.natAbs / 2 ^ (bitLength m.natAbs m.natAbs - 53) + 1) :=
          Nat.mul_le_mul_right _ hsign
      _ ≤ 2 ^ 53 := by omega
  · calc m.sign.natAbs * (m.natAbs / 2 ^ (bitLength m.natAbs m.natAbs - 53))
        ≤ 1 * (m.natAbs / 2 ^ (bitLength m.natAbs m.natAbs - 53)) :=
          Nat.mul_le_mul_right _ hsign
      _ ≤ 2 ^ 53 := by omega

/-- The rounded value is within half of the last kept place of the exact one. -/
theorem Double.round_nearest (m e : Int) :
    2 * |(Double.round m e).mant * 2 ^ (bitLength m.natAbs m.natAbs - 53) - m|
      ≤ 2 ^ (bitLength m.natAbs m.natAbs - 53) := by
  have hdm := Nat.div_add_mod m.natAbs (2 ^ (bitLength m.natAbs m.natAbs - 53))
  have hmod : m.natAbs % 2 ^ (bitLength m.natAbs m.natAbs - 53)
      < 2 ^ (bitLength m.natAbs m.natAbs - 53) := Nat.mod_lt _ (by positivity)
  generalize hS : 2 ^ (bitLength m.natAbs m.natAbs - 53) = S at hdm hmod
  have hSi : (2 : Int) ^ (bitLength m.natAbs m.natAbs - 53) = (S : Int) := by
    rw [← hS]
    push_cast
    rfl
  rw [hSi]
  have hm : m = m.sign * (m.natAbs : Int) := (Int.sign_mul_natAbs m).symm
  have habs : ∀ q : Nat, |m.sign * (q : Int) * (S : Int) - m|
      = |(q : Int) * (S : Int) - (m.natAbs : Int)| ∨ m = 0 := by
    intro q
    rcases Int.lt_trichotomy m 0 with h | h | h
    · left
      have hs := Int.sign_eq_neg_one_of_neg h
      rw [hs]
      have : (m.natAbs : Int) = -m := by omega
      rw [this]
      rw [show (-1 : Int) * (q : Int) * (S : Int) - m = -((q : Int) * (S : Int) - -m) by ring,
        abs_neg]
    · right
      exact h
    · left
      have hs := Int.sign_eq_one_of_pos h
      rw [hs]
      have : (m.natAbs : Int) = m := by omega
      rw [this, one_mul]
  unfold Double.round
  simp only [hS]
  by_cases hz : m = 0
  · subst hz
    simp
  · split
    · rename_i hup
      rcases habs (m.natAbs / S + 1) with h | h
      · rw [h]
        simp only [Bool.or_eq_true, Bool.and_eq_true, decide_eq_true_eq] at hup
        have hq : (((m.natAbs / S + 1 : Nat) : Int)) * (S : Int) - (m.natAbs : Int)
            = (S : Int) - ((m.natAbs % S : Nat) : Int) := by
          have hdm2 : ((S * (m.natAbs / S) + m.natAbs % S : Nat) : Int) = (m.natAbs : Int) := by
            rw [hdm]
          push_cast at hdm2 ⊢
          linarith
        rw [hq, abs_of_nonneg (by omega)]
        omega
      · exact absurd h hz
    · rename_i hup
      rcases habs (m.natAbs / S) with h | h
      · rw [h]
        simp only [Bool.or_eq_true, Bool.and_eq_true, decide_eq_true_eq, not_or] at hup
        have hq : (((m.natAbs / S : Nat) : Int)) * (S : Int) - (m.natAbs : Int)
            = - ((m.natAbs % S : Nat) : Int) := by
          have hdm2 : ((S * (m.natAbs / S) + m.natAbs % S : Nat) : Int) = (m.natAbs : Int) := by
            rw [hdm]
          push_cast at hdm2 ⊢
          linarith
        rw [hq, abs_neg, abs_of_nonneg (by omega)]
        omega
      · exact absurd h hz

/-! ## Budget alerts -/

/-- A budget at 80% in decimal can pass the test of line 203: `11.2 * 0.8` is
rounded to `8.959999999999999`, which is below `8.96`. -/
theorem overThreshold_rounding :
    overThreshold (budget64 1 "Food" (Double.ofDecimal 112 1) (Double.ofDecimal 896 2) 11)
      = true := by
  set_option maxRecDepth 100000 in decide

/-- C16: `getBudgetAlerts` returns the alerts of exactly the stored budgets of
the user whose month and year are the clock's and whose `spent` is strictly
greater than the product `amount * 0.8` as the code computes it; with
`amount = 100`, `spent = 81` alerts and `spent = 80` does not, `amount = 0`
with `spent = 0` does not, and a budget of another month is not returned. -/
theorem getBudgetAlerts_threshold (now : JsDate) (budgets : List Budget64)
    (userId : UserId) :
    (∃ alerting : List Budget64,
      getBudgetAlerts Faults.none now budgets userId
        = Reply.success (alerting.map alertOf) ∧
      ∀ b : Budget64, b ∈ alerting ↔
        (b ∈ budgets ∧ b.user = userId ∧ b.month = now.getMonth + 1 ∧
          b.year = now.getFullYear ∧
          Double.lt (Double.mul b.amount Double.point8) b.spent = true)) ∧
    overThreshold (budget64 1 "Food" (Double.ofInt 100) (Double.ofInt 81) 11) = true ∧
    overThreshold (budget64 1 "Food" (Double.ofInt 100) (Double.ofInt 80) 11) = false ∧
    overThreshold (budget64 1 "Food" (Double.ofInt 0) (Double.ofInt 0) 11) = false ∧
    getBudgetAlerts Faults.none nov2026 alertBudgets 7
      = Reply.success [alertOf (budget64 1 "Food" (Double.ofInt 100) (Double.ofInt 81) 11)] := by
  refine ⟨⟨_, rfl, ?_⟩, by decide, by decide, by decide, by decide⟩
  intro b
  simp only [Budget64.find, List.mem_filter, overThreshold, decide_eq_true_eq]
  tauto

/-! ## Whole numbers in binary64 -/

/-- On whole numbers below `2 ^ 53` the binary64 computation of lines 216-220
gives the integer result: there `adjustSpent64` is `adjustSpent`. -/
theorem adjustSpent64_ofInt (spent amount : Int) (operation : String)
    (hadd : (spent + amount).natAbs < 2 ^ 53) (hsub : (spent - amount).natAbs < 2 ^ 53) :
    adjustSpent64 (Double.ofInt spent) (Double.ofInt amount) operation
      = Double.ofInt (adjustSpent spent amount operation) := by
  unfold adjustSpent64 adjustSpent
  by_cases h1 : operation = "add"
  · rw [if_pos h1, if_pos h1, Double.add_ofInt spent amount hadd]
  · rw [if_neg h1, if_neg h1]
    by_cases h2 : operation = "subtract"
    · rw [if_pos h2, if_pos h2, Double.sub_ofInt spent amount hsub]
      unfold Double.max
      rw [Double.lt_ofInt]
      by_cases h3 : 0 < spent - amount
      · rw [if_pos (by simpa using h3), max_eq_right (le_of_lt h3)]
      · rw [if_neg (by simpa using h3), max_eq_left (by omega)]
    · rw [if_neg h2, if_neg h2]

/-! ## Rounding in the reconciler -/

/-- In binary64 two 'add's need not commute: from `spent = 0.1`, adding `0.01`
and then `0.04` gives `0.15`, adding `0.04` and then `0.01` gives
`0.15000000000000002`. -/
theorem updateBudgetSpent64_add_order :
    (updateBudgetSpent64 Faults.none nov2026
        (updateBudgetSpent64 Faults.none nov2026 (foodStore64 (Double.ofDecimal 1 1)).budgets
          7 "Food" (Double.ofDecimal 1 2) "add")
        7 "Food" (Double.ofDecimal 4 2) "add").map (fun b => b.spent)
      = [⟨5404319552844595, -55⟩] ∧
    (updateBudgetSpent64 Faults.none nov2026
        (updateBudgetSpent64 Faults.none nov2026 (foodStore64 (Double.ofDecimal 1 1)).budgets
          7 "Food" (Double.ofDecimal 4 2) "add")
        7 "Food" (Double.ofDecimal 1 2) "add").map (fun b => b.spent)
      = [⟨5404319552844596, -55⟩] := by
  set_option maxRecDepth 100000 in decide

/-- In binary64 `spent` drifts from the recomputed total although every
transaction is dated in the clock's month: after creating expenses of `0.1` and
`0.2` and deleting the first, the ledger holds the one expense of `0.2` and the
budget has `spent = 0.20000000000000004`. -/
theorem spent_drifts_from_total :
    (deleteTransaction64 Faults.none nov2026
        (createTransaction64 Faults.none nov2026
          (createTransaction64 Faults.none nov2026 (foodStore64 (Double.ofInt 0)) 7
            (foodExpense64 (Double.ofDecimal 1 1))).1 7
          (foodExpense64 (Double.ofDecimal 2 1))).1 7 2).1.budgets.map (fun b => b.spent)
      = [⟨7205759403792795, -55⟩] ∧
    (deleteTransaction64 Faults.none nov2026
        (createTransaction64 Faults.none nov2026
          (createTransaction64 Faults.none nov2026 (foodStore64 (Double.ofInt 0)) 7
            (foodExpense64 (Double.ofDecimal 1 1))).1 7
          (foodExpense64 (Double.ofDecimal 2 1))).1 7 2).1.transactions.map
        (fun t => t.amount)
      = [⟨7205759403792794, -55⟩] := by
  set_option maxRecDepth 100000 in decide

/-! ## The whole-number handlers are the binary64 handlers in the exact range -/

theorem Budget64.findOne_to64 (bs : List Budget) (u : UserId) (c : String) (m y : Nat) :
    Budget64.findOne (bs.map Budget.to64) u c m y
      = (Budget.findOne bs u c m y).map Budget.to64 := by
  unfold Budget64.findOne Budget.findOne
  rw [List.find?_map]
  rfl

theorem Budget64.save_to64 (bs : List Budget) (b : Budget) :
    Budget64.save (bs.map Budget.to64) b.to64 = (Budget.save bs b).map Budget.to64 := by
  unfold Budget64.save Budget.save
  rw [List.map_map, List.map_map]
  apply List.map_congr_left
  intro x _
  show (if x.to64._id = b.to64._id then b.to64 else x.to64)
    = Budget.to64 (if x._id = b._id then b else x)
  have hid : ∀ z : Budget, z.to64._id = z._id := fun _ => rfl
  rw [hid, hid]
  split <;> rfl

/-- The range of `inExactRange` bounds both results of lines 217 and 219. -/
theorem inExactRange_bounds {bs : List Budget} {a : Int} (h : inExactRange bs a)
    (ha : 0 ≤ a) {b : Budget} (hb : b ∈ bs) (hs : 0 ≤ b.spent) :
    (b.spent + a).natAbs < 2 ^ 53 ∧ (b.spent - a).natAbs < 2 ^ 53 := by
  have h1 := h.1
  have h2 := h.2 b hb
  unfold maxExact at h1 h2
  constructor <;> omega

/-- On whole numbers in the exact range, `updateBudgetSpent` on binary64 is
`updateBudgetSpent` on the integers. -/
theorem updateBudgetSpent64_to64 (f : Faults) (now : JsDate) (bs : List Budget)
    (u : UserId) (c : String) (a : Int) (op : String)
    (hrange : inExactRange bs a) (ha : 0 ≤ a) (hs : ∀ b ∈ bs, 0 ≤ b.spent) :
    updateBudgetSpent64 f now (bs.map Budget.to64) u c (Double.ofInt a) op
      = (updateBudgetSpent f now bs u c a op).map Budget.to64 := by
  unfold updateBudgetSpent64 updateBudgetSpent
  by_cases hf : f.budgetFind = true
  · simp [hf]
  · simp only [hf, Bool.false_eq_true, if_false]
    rw [Budget64.findOne_to64]
    cases hfind : Budget.findOne bs u c (now.getMonth + 1) now.getFullYear with
    | none => rfl
    | some b =>
      have hmem := (Budget.findOne_some hfind).1
      obtain ⟨hadd, hsub⟩ := inExactRange_bounds hrange ha hmem (hs b hmem)
      simp only [Option.map_some']
      by_cases hsave : f.budgetSave = true
      · simp [hsave]
      · simp only [hsave, Bool.false_eq_true, if_false]
        have hdoc : ({ b.to64 with
            spent := adjustSpent64 b.to64.spent (Double.ofInt a) op } : Budget64)
            = Budget.to64 (if op = "add" then { b with spent := b.spent + a }
                else if op = "subtract" then { b with spent := max 0 (b.spent - a) }
                else b) := by
          have h64 := adjustSpent64_ofInt b.spent a op hadd hsub
          show ({ b.to64 with
            spent := adjustSpent64 (Double.ofInt b.spent) (Double.ofInt a) op } : Budget64) = _
          rw [h64]
          unfold adjustSpent
          split
          · rfl
          · split <;> rfl
        rw [hdoc, Budget64.save_to64]

/-- The literal `0.01` of the amount validator. -/
theorem Double.point01_literal : Double.ofDecimal 1 2 = ⟨5764607523034235, -59⟩ := by
  decide

/-- On a whole amount the validators accept the same bodies. -/
theorem createValid64_to64 (body : CreateBody) :
    createValid64 body.to64 = createValid body := by
  have hlt : Double.lt (Double.ofInt body.amount) (Double.ofDecimal 1 2)
      = decide (body.amount < 1) := by
    rw [Double.point01_literal]
    unfold Double.lt Double.ofInt Double.scaled
    have h1 : min (0 : Int) (-59) = -59 := by decide
    simp only [h1]
    have h2 : ((0 : Int) - -59).toNat = 59 := by decide
    have h3 : ((-59 : Int) - -59).toNat = 0 := by decide
    rw [h2, h3]
    have h4 : ((2 ^ 59 : Nat) : Int) = 576460752303423488 := by norm_num
    rw [h4]
    simp only [pow_zero, Nat.cast_one, mul_one]
    rw [decide_eq_decide]
    omega
  unfold createValid64 createValid CreateBody.to64
  simp only
  rw [hlt]
  congr 3
  by_cases h : body.amount < 1
  · simp [h]
  · simp [h]
    omega

/-- On whole numbers in the exact range, `createTransaction` on binary64 is
`createTransaction` on the integers. -/
theorem createTransaction64_to64 (f : Faults) (now : JsDate) (s : Store) (userId : UserId)
    (body : CreateBody) (hrange : inExactRange s.budgets body.amount)
    (hs : ∀ b ∈ s.budgets, 0 ≤ b.spent) :
    createTransaction64 f now s.to64 userId body.to64
      = ((createTransaction f now s userId body).1.to64,
         (createTransaction f now s userId body).2.status) := by
  unfold createTransaction64 createTransaction
  rw [createValid64_to64]
  by_cases hv : createValid body = true
  · have ha : 0 ≤ body.amount := by
      have := createValid_amount hv
      omega
    simp only [hv, Bool.not_true, Bool.false_eq_true, if_false]
    by_cases hf : f.txSave = true
    · simp only [hf, if_true]
      rfl
    · simp only [hf, Bool.false_eq_true, if_false]
      by_cases he : body.type = "expense"
      · simp only [CreateBody.to64, Store.to64, he, if_true]
        rw [updateBudgetSpent64_to64 f now s.budgets userId body.category body.amount "add"
          hrange ha hs]
        simp [Store.to64, Transaction.to64, Response.status]
      · simp only [CreateBody.to64, Store.to64, he, if_false]
        simp [Store.to64, Transaction.to64, Response.status]
  · simp only [hv, Bool.not_false, if_true]
    rfl

/-- On whole numbers in the exact range, `deleteTransaction` on binary64 is
`deleteTransaction` on the integers. -/
theorem deleteTransaction64_to64 (f : Faults) (now : JsDate) (s : Store) (userId : UserId)
    (id : ObjectId)
    (hrange : ∀ t, Transaction.findOne s.transactions id userId = some t →
      0 ≤ t.amount ∧ inExactRange s.budgets t.amount)
    (hs : ∀ b ∈ s.budgets, 0 ≤ b.spent) :
    deleteTransaction64 f now s.to64 userId id
      = ((deleteTransaction f now s userId id).1.to64,
         (deleteTransaction f now s userId id).2.status) := by
  unfold deleteTransaction64 deleteTransaction
  by_cases hf : f.txFind = true
  · simp only [hf, if_true]
    rfl
  · simp only [hf, Bool.false_eq_true, if_false]
    have hfind : (s.to64.transactions.find? (fun t => decide (t._id = id ∧ t.user = userId)))
        = (Transaction.findOne s.transactions id userId).map Transaction.to64 := by
      unfold Transaction.findOne Store.to64
      simp only
      rw [List.find?_map]
      rfl
    rw [hfind]
    cases ht : Transaction.findOne s.transactions id userId with
    | none => rfl
    | some t =>
      obtain ⟨ha, hr⟩ := hrange t ht
      have hfilter : (s.to64.transactions.filter (fun t => decide (t._id ≠ id)))
          = (Transaction.findByIdAndDelete s.transactions id).map Transaction.to64 := by
        unfold Transaction.findByIdAndDelete Store.to64
        simp only
        rw [List.filter_map]
        rfl
      simp only [Option.map_some']
      have hb : (if t.to64.type = "expense" then
            updateBudgetSpent64 f now s.to64.budgets userId t.to64.category
              t.to64.amount "subtract"
          else s.to64.budgets)
          = (if t.type = "expense" then
              updateBudgetSpent f now s.budgets userId t.category t.amount "subtract"
            else s.budgets).map Budget.to64 := by
        show (if t.type = "expense" then
            updateBudgetSpent64 f now (s.budgets.map Budget.to64) userId t.category
              (Double.ofInt t.amount) "subtract"
          else s.budgets.map Budget.to64) = _
        split
        · exact updateBudgetSpent64_to64 f now s.budgets userId t.category t.amount
            "subtract" hr ha hs
        · rfl
      rw [hb, hfilter]
      by_cases hd : f.txDelete = true
      · simp only [hd, if_true]
        rfl
      · simp only [hd, Bool.false_eq_true, if_false]
        rfl
/-! ## Binary64: the numbers behind the pairs -/

theorem pow_bitLength_le (fuel : Nat) :
    ∀ n : Nat, n ≠ 0 → n ≤ fuel → 2 ^ (bitLength fuel n - 1) ≤ n := by
  induction fuel with
  | zero => intro n h0 h; omega
  | succ fuel ih =>
    intro n h0 h
    unfold bitLength
    rw [if_neg h0, Nat.add_sub_cancel]
    by_cases h1 : n / 2 = 0
    · have : bitLength fuel (n / 2) = 0 := by
        rw [h1]
        cases fuel <;> simp [bitLength]
      rw [this]
      simp
      omega
    · have h2 := ih (n / 2) h1 (by omega)
      have hpos : 0 < bitLength fuel (n / 2) := by
        cases fuel with
        | zero => omega
        | succ f =>
          unfold bitLength
          rw [if_neg h1]
          omega
      have : bitLength fuel (n / 2) = (bitLength fuel (n / 2) - 1) + 1 := by omega
      rw [this, pow_succ]
      omega

theorem Double.scaled_toRat (d : Double) (e : Int) (h : e ≤ d.exp) :
    ((d.scaled e : Int) : ℚ) = d.toRat * (2 : ℚ) ^ (-e) := by
  unfold Double.scaled Double.toRat
  push_cast
  rw [mul_assoc, ← zpow_add₀ (by norm_num : (2 : ℚ) ≠ 0), ← zpow_natCast,
    Int.toNat_of_nonneg (by omega)]
  congr 2

theorem Double.lt_iff_toRat (a b : Double) :
    Double.lt a b = true ↔ a.toRat < b.toRat := by
  rw [Double.lt_iff_scaled a b (min a.exp b.exp) (min_le_left _ _) (min_le_right _ _)]
  have hpos : (0 : ℚ) < (2 : ℚ) ^ (-(min a.exp b.exp)) := by positivity
  have hcast : (a.scaled (min a.exp b.exp) < b.scaled (min a.exp b.exp))
      ↔ ((a.scaled (min a.exp b.exp) : Int) : ℚ) < ((b.scaled (min a.exp b.exp) : Int) : ℚ) :=
    Int.cast_lt.symm
  rw [hcast, Double.scaled_toRat a _ (min_le_left _ _),
    Double.scaled_toRat b _ (min_le_right _ _)]
  exact mul_lt_mul_right hpos

/-- What `Double.round` does to a non-negative mantissa `n`: with `q` the kept
and `r` the dropped bits, the result is `q` or `q + 1` at the exponent raised
by `shift`. -/
theorem Double.round_spec (n : Nat) (e : Int) :
    ∃ (q r shift : Nat) (up : Bool),
      shift = bitLength n n - 53 ∧ n = q * 2 ^ shift + r ∧ r < 2 ^ shift ∧ q < 2 ^ 53 ∧
      (0 < shift → 2 ^ 52 ≤ q) ∧
      Double.round (n : Int) e = ⟨((if up then q + 1 else q : Nat) : Int), e + (shift : Int)⟩ ∧
      (up = true → 2 ^ shift ≤ 2 * r) ∧ (up = false → 2 * r ≤ 2 ^ shift) ∧
      (2 ^ shift < 2 * r → up = true) ∧ (2 * r = 2 ^ shift → q % 2 = 1 → up = true) := by
  have hdm := Nat.div_add_mod n (2 ^ (bitLength n n - 53))
  have hmod : n % 2 ^ (bitLength n n - 53) < 2 ^ (bitLength n n - 53) :=
    Nat.mod_lt _ (by positivity)
  have hlt := lt_pow_bitLength n n (le_refl _)
  have hq : n / 2 ^ (bitLength n n - 53) < 2 ^ 53 := by
    rw [Nat.div_lt_iff_lt_mul (by positivity), ← pow_add]
    refine lt_of_lt_of_le hlt (Nat.pow_le_pow_right (by norm_num) ?_)
    omega
  refine ⟨n / 2 ^ (bitLength n n - 53), n % 2 ^ (bitLength n n - 53), bitLength n n - 53,
    decide (2 ^ (bitLength n n - 53) < 2 * (n % 2 ^ (bitLength n n - 53))) ||
      (decide (2 * (n % 2 ^ (bitLength n n - 53)) = 2 ^ (bitLength n n - 53)) &&
        decide (n / 2 ^ (bitLength n n - 53) % 2 = 1)),
    rfl, ?_, hmod, hq, ?_, ?_, ?_, ?_, ?_, ?_⟩
  · rw [Nat.mul_comm]
    exact hdm.symm
  · intro hpos
    by_cases h0 : n = 0
    · subst h0
      have : bitLength 0 0 = 0 := rfl
      rw [this] at hpos
      omega
    · have hge := pow_bitLength_le n n h0 (le_refl _)
      rw [Nat.le_div_iff_mul_le (by positivity), ← pow_add]
      refine le_trans (Nat.pow_le_pow_right (by norm_num) ?_) hge
      omega
  · unfold Double.round
    simp only [Int.natAbs_ofNat]
    by_cases h0 : n = 0
    · subst h0
      simp [bitLength]
    · have hs : ((n : Int)).sign = 1 := Int.sign_eq_one_of_pos (by omega)
      rw [hs, one_mul]
  · intro hup
    simp only [Bool.or_eq_true, Bool.and_eq_true, decide_eq_true_eq] at hup
    omega
  · intro hup
    simp only [Bool.or_eq_false_iff, Bool.and_eq_false_iff, decide_eq_false_iff_not] at hup
    omega
  · intro h
    simp [h]
  · intro h1 h2
    simp [h1, h2]

theorem two_zpow_split (a b : Int) (h : b ≤ a) :
    (2 : ℚ) ^ a = (((2 ^ (a - b).toNat : Nat) : ℚ)) * (2 : ℚ) ^ b := by
  push_cast
  rw [← zpow_natCast, Int.toNat_of_nonneg (by omega), ← zpow_add₀ (by norm_num : (2 : ℚ) ≠ 0)]
  congr 1
  ring

theorem two_zpow_lt (a b : Int) (h : a < b) : (2 : ℚ) ^ a ≤ (2 : ℚ) ^ (b - 1) :=
  zpow_le_zpow_right₀ (by norm_num) (by omega)

/-- The exact value splits into the kept part and a rest below one unit of the
last kept place. -/
theorem round_split (n q r shift : Nat) (e : Int) (hn : n = q * 2 ^ shift + r) :
    (n : ℚ) * (2 : ℚ) ^ e
      = (q : ℚ) * (2 : ℚ) ^ (e + (shift : Int)) + (r : ℚ) * (2 : ℚ) ^ e := by
  rw [hn, zpow_add₀ (by norm_num : (2 : ℚ) ≠ 0), zpow_natCast]
  push_cast
  ring

theorem round_rest_lt (r shift : Nat) (e : Int) (hr : r < 2 ^ shift) :
    (r : ℚ) * (2 : ℚ) ^ e < (2 : ℚ) ^ (e + (shift : Int)) := by
  rw [zpow_add₀ (by norm_num : (2 : ℚ) ≠ 0), zpow_natCast, mul_comm ((2 : ℚ) ^ e)]
  have h2 : (0 : ℚ) < (2 : ℚ) ^ e := by positivity
  have h3 : (r : ℚ) < (2 : ℚ) ^ shift := by exact_mod_cast hr
  exact mul_lt_mul_of_pos_right h3 h2

/-- A binary64 number that is at most the exact value is at most the rounded
value. -/
theorem Double.le_round (f : Double) (n : Nat) (e : Int) (hf0 : 0 ≤ f.mant)
    (hf : f.mant ≤ 2 ^ 53) (h : f.toRat ≤ (n : ℚ) * (2 : ℚ) ^ e) :
    f.toRat ≤ (Double.round (n : Int) e).toRat := by
  obtain ⟨q, r, shift, up, _, hn, hr, _, hq52, hround, _, _, _, _⟩ := Double.round_spec n e
  have hU : (0 : ℚ) < (2 : ℚ) ^ (e + (shift : Int)) := by positivity
  have hsplit := round_split n q r shift e hn
  have hrest := round_rest_lt r shift e hr
  have hrest0 : (0 : ℚ) ≤ (r : ℚ) * (2 : ℚ) ^ e := by positivity
  have hval : (q : ℚ) * (2 : ℚ) ^ (e + (shift : Int)) ≤ (Double.round (n : Int) e).toRat := by
    rw [hround]
    unfold Double.toRat
    simp only
    apply mul_le_mul_of_nonneg_right _ (le_of_lt hU)
    split
    · push_cast
      linarith
    · push_cast
      exact le_refl _
  refine le_trans ?_ hval
  by_cases hs : shift = 0
  · subst hs
    have hr0 : r = 0 := by
      simp at hr
      exact hr
    subst hr0
    rw [hsplit] at h
    simpa using h
  · have hq := hq52 (Nat.pos_of_ne_zero hs)
    obtain ⟨mf, hmf⟩ := Int.eq_ofNat_of_zero_le hf0
    have hmfb : mf ≤ 2 ^ 53 := by
      rw [hmf] at hf
      exact_mod_cast hf
    have htoRat : f.toRat = (mf : ℚ) * (2 : ℚ) ^ f.exp := by
      unfold Double.toRat
      rw [hmf]
      simp
    by_cases hexp : e + (shift : Int) ≤ f.exp
    · rw [htoRat, two_zpow_split f.exp (e + (shift : Int)) hexp, ← mul_assoc] at h ⊢
      have hlt : ((mf : ℚ) * ((2 ^ (f.exp - (e + (shift : Int))).toNat : Nat) : ℚ))
          * (2 : ℚ) ^ (e + (shift : Int))
          < ((q : ℚ) + 1) * (2 : ℚ) ^ (e + (shift : Int)) := by
        calc _ ≤ (n : ℚ) * (2 : ℚ) ^ e := h
          _ < ((q : ℚ) + 1) * (2 : ℚ) ^ (e + (shift : Int)) := by
            rw [hsplit]
            linarith
      have hlt2 := lt_of_mul_lt_mul_right hlt (le_of_lt hU)
      have hlt3 : mf * 2 ^ (f.exp - (e + (shift : Int))).toNat < q + 1 := by
        exact_mod_cast hlt2
      apply mul_le_mul_of_nonneg_right _ (le_of_lt hU)
      have : mf * 2 ^ (f.exp - (e + (shift : Int))).toNat ≤ q := by omega
      exact_mod_cast this
    · have h1 : (2 : ℚ) ^ f.exp ≤ (2 : ℚ) ^ (e + (shift : Int) - 1) :=
        two_zpow_lt _ _ (by omega)
      have h2 : (2 : ℚ) ^ (e + (shift : Int)) = 2 * (2 : ℚ) ^ (e + (shift : Int) - 1) := by
        rw [show e + (shift : Int) = (e + (shift : Int) - 1) + 1 by ring,
          zpow_add₀ (by norm_num : (2 : ℚ) ≠ 0)]
        simp
        ring
      have h3 : (0 : ℚ) < (2 : ℚ) ^ (e + (shift : Int) - 1) := by positivity
      have hmfq : (mf : ℚ) ≤ 2 ^ 53 := by exact_mod_cast hmfb
      have hqq : (2 : ℚ) ^ 52 ≤ (q : ℚ) := by exact_mod_cast hq
      rw [htoRat, h2]
      calc (mf : ℚ) * (2 : ℚ) ^ f.exp ≤ 2 ^ 53 * (2 : ℚ) ^ (e + (shift : Int) - 1) :=
            mul_le_mul hmfq h1 (by positivity) (by positivity)
        _ = 2 ^ 52 * (2 * (2 : ℚ) ^ (e + (shift : Int) - 1)) := by ring
        _ ≤ (q : ℚ) * (2 * (2 : ℚ) ^ (e + (shift : Int) - 1)) :=
            mul_le_mul_of_nonneg_right hqq (by positivity)

theorem Double.round_mant_nonneg (n : Nat) (e : Int) : 0 ≤ (Double.round (n : Int) e).mant := by
  obtain ⟨q, r, shift, up, _, _, _, _, _, hround, _, _, _, _⟩ := Double.round_spec n e
  rw [hround]
  exact Int.ofNat_nonneg _

theorem Double.toRat_nonneg (d : Double) (h : 0 ≤ d.mant) : 0 ≤ d.toRat := by
  unfold Double.toRat
  have : (0 : ℚ) ≤ (d.mant : ℚ) := by exact_mod_cast h
  positivity

theorem Double.mant_pos_of_toRat_pos (d : Double) (h : 0 < d.toRat) : 0 < d.mant := by
  by_contra hneg
  have h1 : (d.mant : ℚ) ≤ 0 := by exact_mod_cast (not_lt.mp hneg)
  have h2 : (0 : ℚ) < (2 : ℚ) ^ d.exp := by positivity
  unfold Double.toRat at h
  have := mul_nonpos_of_nonpos_of_nonneg h1 (le_of_lt h2)
  linarith

/-- A binary64 number above the rounded value is above the exact value. -/
theorem Double.lt_of_round_lt (s : Double) (n : Nat) (e : Int) (hs : s.isBinary64)
    (h : (Double.round (n : Int) e).toRat < s.toRat) : (n : ℚ) * (2 : ℚ) ^ e < s.toRat := by
  by_contra hle
  have hpos : 0 < s.mant :=
    Double.mant_pos_of_toRat_pos s
      (lt_of_le_of_lt (Double.toRat_nonneg _ (Double.round_mant_nonneg n e)) h)
  unfold Double.isBinary64 at hs
  have := Double.le_round s n e (le_of_lt hpos) (by omega) (not_lt.mp hle)
  linarith

theorem Double.point8_toRat : Double.point8.toRat = 7205759403792794 / 9007199254740992 := by
  unfold Double.toRat Double.point8
  norm_num

/-- A `spent` above the rounded product `amount * 0.8` is above four fifths of
a positive `amount`. -/
theorem Double.above_four_fifths (a s : Double) (ha : 0 < a.mant) (hs : s.isBinary64)
    (h : Double.lt (Double.mul a Double.point8) s = true) :
    (4 / 5 : ℚ) * a.toRat < s.toRat := by
  rw [Double.lt_iff_toRat] at h
  obtain ⟨ma, hma⟩ := Int.eq_ofNat_of_zero_le (le_of_lt ha)
  have hmul : Double.mul a Double.point8
      = Double.round ((ma * 7205759403792794 : Nat) : Int) (a.exp + (-53)) := by
    unfold Double.mul
    rw [hma]
    show Double.round ((ma : Int) * 7205759403792794) _ = _
    push_cast
    rfl
  rw [hmul] at h
  have hy := Double.lt_of_round_lt s _ _ hs h
  have hapos : (0 : ℚ) < a.toRat := by
    unfold Double.toRat
    have : (0 : ℚ) < (a.mant : ℚ) := by exact_mod_cast ha
    positivity
  have hval : ((ma * 7205759403792794 : Nat) : ℚ) * (2 : ℚ) ^ (a.exp + (-53))
      = a.toRat * (7205759403792794 / 9007199254740992) := by
    unfold Double.toRat
    rw [hma, zpow_add₀ (by norm_num : (2 : ℚ) ≠ 0)]
    push_cast
    norm_num
    ring
  rw [hval] at hy
  have : (4 / 5 : ℚ) * a.toRat < a.toRat * (7205759403792794 / 9007199254740992) := by
    rw [mul_comm]
    exact mul_lt_mul_of_pos_left (by norm_num) hapos
  linarith

/-- An exact value of more than 53 bits that is at least the midpoint below the
literal `0.8` rounds to at least `0.8`. -/
theorem Double.round_ge_point8 (n : Nat) (e : Int) (hn : 2 ^ 53 ≤ n)
    (hy : (14411518807585587 / 18014398509481984 : ℚ) ≤ (n : ℚ) * (2 : ℚ) ^ e) :
    Double.point8.toRat ≤ (Double.round (n : Int) e).toRat := by
  obtain ⟨q, r, shift, up, hshift, hnq, hr, hq53, hq52, hround, hup1, hup2, hup3, hup4⟩ :=
    Double.round_spec n e
  have hspos : 0 < shift := by
    have hlt := lt_pow_bitLength n n (le_refl _)
    have h1 : 2 ^ 53 < 2 ^ bitLength n n := lt_of_le_of_lt hn hlt
    have h2 : 53 < bitLength n n := (Nat.pow_lt_pow_iff_right (by norm_num)).mp h1
    omega
  have hq := hq52 hspos
  have hU : (0 : ℚ) < (2 : ℚ) ^ (e + (shift : Int)) := by positivity
  have hsplit := round_split n q r shift e hnq
  have hrest := round_rest_lt r shift e hr
  have hqq : (2 : ℚ) ^ 52 ≤ (q : ℚ) := by exact_mod_cast hq
  have hq53q : (q : ℚ) + 1 ≤ (2 : ℚ) ^ 53 := by exact_mod_cast hq53
  have hres : (Double.round (n : Int) e).toRat
      = (((if up then q + 1 else q : Nat) : ℚ)) * (2 : ℚ) ^ (e + (shift : Int)) := by
    rw [hround]
    unfold Double.toRat
    simp
  have hge : (q : ℚ) * (2 : ℚ) ^ (e + (shift : Int)) ≤ (Double.round (n : Int) e).toRat := by
    rw [hres]
    apply mul_le_mul_of_nonneg_right _ (le_of_lt hU)
    split
    · push_cast
      linarith
    · exact le_refl _
  rw [Double.point8_toRat]
  rcases lt_trichotomy (e + (shift : Int)) (-53) with hlt | heq | hgt
  · exfalso
    have h1 : (2 : ℚ) ^ (e + (shift : Int)) ≤ (2 : ℚ) ^ (-54 : Int) :=
      zpow_le_zpow_right₀ (by norm_num) (by omega)
    have h2 : (n : ℚ) * (2 : ℚ) ^ e < ((q : ℚ) + 1) * (2 : ℚ) ^ (e + (shift : Int)) := by
      rw [hsplit]
      linarith
    have h3 : ((q : ℚ) + 1) * (2 : ℚ) ^ (e + (shift : Int))
        ≤ (2 : ℚ) ^ 53 * (2 : ℚ) ^ (-54 : Int) :=
      mul_le_mul hq53q h1 (le_of_lt hU) (by positivity)
    have h4 : (2 : ℚ) ^ 53 * (2 : ℚ) ^ (-54 : Int) = 1 / 2 := by norm_num
    rw [h4] at h3
    have : (14411518807585587 / 18014398509481984 : ℚ) < 1 / 2 := by linarith
    norm_num at this
  · have hUval : (2 : ℚ) ^ (e + (shift : Int)) = 1 / 9007199254740992 := by
      rw [heq]
      norm_num
    have he : (2 : ℚ) ^ e = (1 / 9007199254740992) / (2 : ℚ) ^ shift := by
      have : (2 : ℚ) ^ (e + (shift : Int)) = (2 : ℚ) ^ e * (2 : ℚ) ^ shift := by
        rw [zpow_add₀ (by norm_num : (2 : ℚ) ≠ 0), zpow_natCast]
      rw [hUval] at this
      rw [this]
      field_simp
    have hSpos : (0 : ℚ) < (2 : ℚ) ^ shift := by positivity
    have hnat : (2 * 7205759403792794 - 1) * 2 ^ shift ≤ 2 * n := by
      have h1 : (14411518807585587 / 18014398509481984 : ℚ) * (2 : ℚ) ^ shift
          ≤ (n : ℚ) * (1 / 9007199254740992) := by
        rw [he] at hy
        have := mul_le_mul_of_nonneg_right hy (le_of_lt hSpos)
        rw [mul_assoc, div_mul_cancel₀ _ (ne_of_gt hSpos)] at this
        exact this
      have h2 : ((2 * 7205759403792794 - 1 : Nat) : ℚ) * (2 : ℚ) ^ shift ≤ 2 * (n : ℚ) := by
        norm_num
        linarith
      exact_mod_cast h2
    have hupq : 7205759403792794 ≤ (if up then q + 1 else q : Nat) := by
      by_cases hqM : 7205759403792794 ≤ q
      · split <;> omega
      · have hS : 0 < 2 ^ shift := by positivity
        generalize 2 ^ shift = S at hnat hr hnq hup1 hup2 hup3 hup4 hS
        subst hnq
        have hq1 : q = 7205759403792793 := by
          by_contra hne
          have hq2 : q + 2 ≤ 7205759403792794 := by omega
          have h3 : (q + 2) * S ≤ 7205759403792794 * S := Nat.mul_le_mul_right S hq2
          nlinarith
        subst hq1
        have hr2 : S ≤ 2 * r := by nlinarith
        have hupt : up = true := by
          rcases Nat.lt_or_ge S (2 * r) with h | h
          · exact hup3 h
          · exact hup4 (by omega) (by decide)
        rw [hupt]
        simp
    rw [hres, hUval]
    have : (7205759403792794 : ℚ) ≤ (((if up then q + 1 else q : Nat)) : ℚ) := by
      exact_mod_cast hupq
    linarith
  · have h1 : (2 : ℚ) ^ (-52 : Int) ≤ (2 : ℚ) ^ (e + (shift : Int)) :=
      zpow_le_zpow_right₀ (by norm_num) (by omega)
    have h2 : (2 : ℚ) ^ 52 * (2 : ℚ) ^ (-52 : Int) ≤ (q : ℚ) * (2 : ℚ) ^ (e + (shift : Int)) :=
      mul_le_mul hqq h1 (by positivity) (by positivity)
    have h3 : (2 : ℚ) ^ 52 * (2 : ℚ) ^ (-52 : Int) = 1 := by norm_num
    rw [h3] at h2
    have : (7205759403792794 / 9007199254740992 : ℚ) ≤ 1 := by norm_num
    linarith

/-- A quotient of positive numbers that exceeds four fifths is rounded to at
least the literal `0.8`. -/
theorem Double.div_ge_point8 (s a : Double) (hs0 : 0 < s.mant) (ha0 : 0 < a.mant)
    (h : (4 / 5 : ℚ) * a.toRat < s.toRat) :
    Double.point8.toRat ≤ (Double.div s a).toRat ∧ 0 ≤ (Double.div s a).mant := by
  obtain ⟨ms, hms⟩ := Int.eq_ofNat_of_zero_le (le_of_lt hs0)
  obtain ⟨ma, hma⟩ := Int.eq_ofNat_of_zero_le (le_of_lt ha0)
  have hms0 : 0 < ms := by omega
  have hma0 : 0 < ma := by omega
  have hdiv : Double.div s a
      = Double.round ((2 * (ms * 2 ^ (bitLength ma ma + 55) / ma)
          + (if ms * 2 ^ (bitLength ma ma + 55) % ma = 0 then 0 else 1) : Nat) : Int)
        (s.exp - a.exp - ((bitLength ma ma + 55 : Nat) : Int) - 1) := by
    unfold Double.div
    simp only [hms, hma, Int.natAbs_ofNat]
    rw [Int.sign_eq_one_of_pos (by omega), Int.sign_eq_one_of_pos (by omega)]
    simp
  rw [hdiv]
  refine ⟨?_, Double.round_mant_nonneg _ _⟩
  generalize hk : bitLength ma ma + 55 = k
  have hQ : 2 ^ 55 ≤ ms * 2 ^ k / ma := by
    rw [Nat.le_div_iff_mul_le hma0]
    have h1 : ma < 2 ^ bitLength ma ma := lt_pow_bitLength ma ma (le_refl _)
    calc 2 ^ 55 * ma ≤ 2 ^ 55 * 2 ^ bitLength ma ma := Nat.mul_le_mul_left _ (le_of_lt h1)
      _ = 2 ^ k := by rw [← hk, ← pow_add, Nat.add_comm]
      _ ≤ ms * 2 ^ k := Nat.le_mul_of_pos_left _ hms0
  generalize hQdef : ms * 2 ^ k / ma = Q at hQ
  generalize hst : (if ms * 2 ^ k % ma = 0 then 0 else 1 : Nat) = sticky
  apply Double.round_ge_point8
  · have : 2 ^ 53 ≤ 2 ^ 55 := by norm_num
    omega
  · have hstep : (Q : ℚ) * (2 : ℚ) ^ (s.exp - a.exp - (k : Int))
        ≤ ((2 * Q + sticky : Nat) : ℚ) * (2 : ℚ) ^ (s.exp - a.exp - (k : Int) - 1) := by
      have h2 : (2 : ℚ) ^ (s.exp - a.exp - (k : Int))
          = 2 * (2 : ℚ) ^ (s.exp - a.exp - (k : Int) - 1) := by
        rw [show s.exp - a.exp - (k : Int) = (s.exp - a.exp - (k : Int) - 1) + 1 by ring,
          zpow_add₀ (by norm_num : (2 : ℚ) ≠ 0)]
        simp
        ring
      have h3 : (0 : ℚ) < (2 : ℚ) ^ (s.exp - a.exp - (k : Int) - 1) := by positivity
      rw [h2]
      push_cast
      have h4 : (0 : ℚ) ≤ (sticky : ℚ) := by positivity
      nlinarith
    refine le_trans ?_ hstep
    have hQq : (2 : ℚ) ^ 55 ≤ (Q : ℚ) := by exact_mod_cast hQ
    by_cases hcase : -54 ≤ s.exp - a.exp - (k : Int)
    · have h1 : (2 : ℚ) ^ (-54 : Int) ≤ (2 : ℚ) ^ (s.exp - a.exp - (k : Int)) :=
        zpow_le_zpow_right₀ (by norm_num) hcase
      have h2 : (2 : ℚ) ^ 55 * (2 : ℚ) ^ (-54 : Int)
          ≤ (Q : ℚ) * (2 : ℚ) ^ (s.exp - a.exp - (k : Int)) :=
        mul_le_mul hQq h1 (by positivity) (by positivity)
      have h3 : (2 : ℚ) ^ 55 * (2 : ℚ) ^ (-54 : Int) = 2 := by norm_num
      rw [h3] at h2
      have : (14411518807585587 / 18014398509481984 : ℚ) ≤ 2 := by norm_num
      linarith
    · have hneg : s.exp - a.exp - (k : Int) ≤ -54 := by omega
      have hE : (0 : ℚ) < (2 : ℚ) ^ (s.exp - a.exp - (k : Int)) := by positivity
      have hsplit := two_zpow_split (-54) (s.exp - a.exp - (k : Int)) hneg
      generalize hj : (-54 - (s.exp - a.exp - (k : Int))).toNat = j at hsplit
      have hK : 14411518807585587 * 2 ^ j ≤ Q := by
        rw [← hQdef, Nat.le_div_iff_mul_le hma0]
        have hq : ((14411518807585587 * 2 ^ j * ma : Nat) : ℚ) < ((ms * 2 ^ k : Nat) : ℚ) := by
          push_cast
          have hs : s.toRat = (ms : ℚ) * (2 : ℚ) ^ s.exp := by
            unfold Double.toRat
            rw [hms]
            simp
          have ha : a.toRat = (ma : ℚ) * (2 : ℚ) ^ a.exp := by
            unfold Double.toRat
            rw [hma]
            simp
          rw [hs, ha] at h
          have hsexp : (2 : ℚ) ^ s.exp
              = (2 : ℚ) ^ (s.exp - a.exp - (k : Int)) * (2 : ℚ) ^ a.exp * (2 : ℚ) ^ k := by
            rw [← zpow_natCast, ← zpow_add₀ (by norm_num : (2 : ℚ) ≠ 0),
              ← zpow_add₀ (by norm_num : (2 : ℚ) ≠ 0)]
            congr 1
            ring
          have hA : (0 : ℚ) < (2 : ℚ) ^ a.exp := by positivity
          have hmaq : (0 : ℚ) < (ma : ℚ) := by exact_mod_cast hma0
          have h54 : (2 : ℚ) ^ (-54 : Int) = 1 / 18014398509481984 := by norm_num
          rw [h54] at hsplit
          push_cast at hsplit
          rw [hsexp] at h
          have hj2 : (2 : ℚ) ^ j * (2 : ℚ) ^ (s.exp - a.exp - (k : Int))
              = 1 / 18014398509481984 := hsplit.symm
          have hjpos : (0 : ℚ) < (2 : ℚ) ^ j := by positivity
          have h5 : (4 / 5 : ℚ) * (ma : ℚ) * (2 : ℚ) ^ j
              < (ms : ℚ) * (2 : ℚ) ^ k * (1 / 18014398509481984) := by
            have h6 : (4 / 5 : ℚ) * ((ma : ℚ) * (2 : ℚ) ^ a.exp) * (2 : ℚ) ^ j
                < (ms : ℚ) * ((2 : ℚ) ^ (s.exp - a.exp - (k : Int)) * (2 : ℚ) ^ a.exp
                  * (2 : ℚ) ^ k) * (2 : ℚ) ^ j :=
              mul_lt_mul_of_pos_right h hjpos
            have h7 : (ms : ℚ) * ((2 : ℚ) ^ (s.exp - a.exp - (k : Int)) * (2 : ℚ) ^ a.exp
                  * (2 : ℚ) ^ k) * (2 : ℚ) ^ j
                = (ms : ℚ) * (2 : ℚ) ^ k * (1 / 18014398509481984) * (2 : ℚ) ^ a.exp := by
              rw [← hj2]
              ring
            rw [h7] at h6
            have h8 : (4 / 5 : ℚ) * ((ma : ℚ) * (2 : ℚ) ^ a.exp) * (2 : ℚ) ^ j
                = (4 / 5 : ℚ) * (ma : ℚ) * (2 : ℚ) ^ j * (2 : ℚ) ^ a.exp := by ring
            rw [h8] at h6
            exact lt_of_mul_lt_mul_right h6 (le_of_lt hA)
          have h9 : (0 : ℚ) < (ma : ℚ) * (2 : ℚ) ^ j := by positivity
          nlinarith
        have := Nat.cast_lt.mp hq
        omega
      have hKq : (14411518807585587 : ℚ) * (2 : ℚ) ^ j ≤ (Q : ℚ) := by exact_mod_cast hK
      have h54 : (2 : ℚ) ^ (-54 : Int) = 1 / 18014398509481984 := by norm_num
      rw [h54] at hsplit
      push_cast at hsplit
      calc (14411518807585587 / 18014398509481984 : ℚ)
          = 14411518807585587 * ((2 : ℚ) ^ j * (2 : ℚ) ^ (s.exp - a.exp - (k : Int))) := by
            rw [← hsplit]
            ring
        _ = (14411518807585587 * (2 : ℚ) ^ j) * (2 : ℚ) ^ (s.exp - a.exp - (k : Int)) := by
            ring
        _ ≤ (Q : ℚ) * (2 : ℚ) ^ (s.exp - a.exp - (k : Int)) :=
            mul_le_mul_of_nonneg_right hKq (le_of_lt hE)

/-- A ratio of at least the literal `0.8` gives a percentage of at least 80. -/
theorem Double.mul_100_ge_80 (p : Double) (hp0 : 0 ≤ p.mant)
    (hp : Double.point8.toRat ≤ p.toRat) :
    (80 : ℚ) ≤ (Double.mul p (Double.ofInt 100)).toRat := by
  obtain ⟨pm, hpm⟩ := Int.eq_ofNat_of_zero_le hp0
  have hmul : Double.mul p (Double.ofInt 100)
      = Double.round ((pm * 100 : Nat) : Int) (p.exp + 0) := by
    unfold Double.mul Double.ofInt
    rw [hpm]
    push_cast
    rfl
  have h80 : (⟨80, 0⟩ : Double).toRat = 80 := by
    unfold Double.toRat
    norm_num
  rw [hmul, ← h80]
  apply Double.le_round _ _ _ (by decide) (by decide)
  rw [h80, Double.point8_toRat] at *
  have hval : ((pm * 100 : Nat) : ℚ) * (2 : ℚ) ^ (p.exp + 0) = 100 * p.toRat := by
    unfold Double.toRat
    rw [hpm, add_zero]
    push_cast
    ring
  rw [hval]
  linarith

theorem Double.not_lt_of_toRat_le (a b : Double) (h : b.toRat ≤ a.toRat) :
    Double.lt a b = false := by
  rw [Bool.eq_false_iff]
  intro hlt
  rw [Double.lt_iff_toRat] at hlt
  linarith

/-- The percentage `(spent / amount) * 100` of a budget that passes the test of
line 203 with a positive `amount` is not below 80. -/
theorem Double.percentage_ge_80 (a s : Double) (ha : 0 < a.mant) (hs : s.isBinary64)
    (h : Double.lt (Double.mul a Double.point8) s = true) :
    Double.lt (Double.mul (Double.div s a) (Double.ofInt 100)) (Double.ofInt 80) = false := by
  have h45 := Double.above_four_fifths a s ha hs h
  have hapos : (0 : ℚ) < a.toRat := by
    unfold Double.toRat
    have : (0 : ℚ) < (a.mant : ℚ) := by exact_mod_cast ha
    positivity
  have hspos : 0 < s.mant := Double.mant_pos_of_toRat_pos s (by linarith)
  obtain ⟨hdiv, hdiv0⟩ := Double.div_ge_point8 s a hspos ha h45
  have h80 := Double.mul_100_ge_80 _ hdiv0 hdiv
  apply Double.not_lt_of_toRat_le
  have : (Double.ofInt 80).toRat = 80 := by
    unfold Double.toRat Double.ofInt
    norm_num
  rw [this]
  exact h80


/-! ## Over-budget budgets and alerts -/

theorem foldl_overBudget (bs : List Budget64) :
    ∀ n : Nat,
      bs.foldl (fun count budget =>
        if Double.lt budget.amount budget.spent then count + 1 else count) n
      = n + bs.countP (fun b => Double.lt b.amount b.spent) := by
  induction bs with
  | nil => intro n; simp
  | cons b bs ih =>
    intro n
    rw [List.foldl_cons, ih, List.countP_cons]
    by_cases h : Double.lt b.amount b.spent = true
    · simp only [h, if_true]
      omega
    · simp only [h, if_false]
      simp

/-- A budget with `amount ≥ 0` and `spent > amount` passes the test of line 203. -/
theorem overThreshold_of_overBudget (b : Budget64) (h64 : b.amount.isBinary64)
    (h0 : 0 ≤ b.amount.mant) (hover : Double.lt b.amount b.spent = true) :
    overThreshold b = true := by
  unfold Double.isBinary64 at h64
  exact Double.lt_mul_point8 b.amount b.spent h0 (by omega) hover

/-- C30 (amended): among the user's budgets of the clock's month and year,
every budget whose `amount` is a non-negative binary64 number and whose `spent`
is greater than `amount` is returned as an alert, so when no amount is negative
the `overBudgetCount` of these budgets is at most the number of alerts; and
every alert with `amount > 0` and a binary64 `spent` reports a percentage that
is not below 80. -/
theorem overBudget_is_alert (now : JsDate) (budgets : List Budget64) (userId : UserId) :
    ∃ alerts : List Alert,
      getBudgetAlerts Faults.none now budgets userId = Reply.success alerts ∧
      (∀ b ∈ Budget64.find budgets userId (now.getMonth + 1) now.getFullYear,
        b.amount.isBinary64 → 0 ≤ b.amount.mant →
        Double.lt b.amount b.spent = true → alertOf b ∈ alerts) ∧
      ((∀ b ∈ Budget64.find budgets userId (now.getMonth + 1) now.getFullYear,
          b.amount.isBinary64 ∧ 0 ≤ b.amount.mant) →
        overBudgetCount (Budget64.find budgets userId (now.getMonth + 1) now.getFullYear)
          ≤ alerts.length) ∧
      (∀ a ∈ alerts, a.spent.isBinary64 → 0 < a.amount.mant →
        ∃ p : Double, a.percentage = some p ∧ Double.lt p (Double.ofInt 80) = false) := by
  refine ⟨((Budget64.find budgets userId (now.getMonth + 1) now.getFullYear).filter
    overThreshold).map alertOf, rfl, ?_, ?_, ?_⟩
  · intro b hb h64 h0 hover
    exact List.mem_map_of_mem alertOf
      (List.mem_filter.mpr ⟨hb, overThreshold_of_overBudget b h64 h0 hover⟩)
  · intro hamounts
    unfold overBudgetCount
    rw [foldl_overBudget, List.length_map, Nat.zero_add, ← List.countP_eq_length_filter]
    apply List.countP_mono_left
    intro b hb hover
    exact overThreshold_of_overBudget b (hamounts b hb).1 (hamounts b hb).2 hover
  · intro a ha hs hpos
    obtain ⟨b, hb, rfl⟩ := List.mem_map.mp ha
    have hthr : overThreshold b = true := (List.mem_filter.mp hb).2
    have hpos2 : 0 < b.amount.mant := hpos
    have hne : b.amount.mant ≠ 0 := by omega
    refine ⟨Double.mul (Double.div b.spent b.amount) (Double.ofInt 100), ?_, ?_⟩
    · simp [alertOf, hne]
    · exact Double.percentage_ge_80 b.amount b.spent hpos2 hs hthr

theorem overBudget_is_alert_witness :
    ∃ alerts : List Alert,
      getBudgetAlerts Faults.none nov2026 tightBudgets 7 = Reply.success alerts ∧
      alertOf (budget64 2 "Transport" (Double.ofInt 50) (Double.ofInt 60) 11) ∈ alerts ∧
      overBudgetCount (Budget64.find tightBudgets 7 11 2026) ≤ alerts.length ∧
      ∃ p : Double,
        (alertOf (budget64 1 "Food" (Double.ofDecimal 115 2) (Double.ofDecimal 92 2)
          11)).percentage = some p ∧
        Double.lt p (Double.ofInt 80) = false := by
  obtain ⟨alerts, h1, h2, h3, h4⟩ := overBudget_is_alert nov2026 tightBudgets 7
  have hal : alerts = (tightBudgets.filter overThreshold).map alertOf :=
    Reply.success.inj (h1.symm.trans rfl)
  exact ⟨alerts, h1,
    h2 (budget64 2 "Transport" (Double.ofInt 50) (Double.ofInt 60) 11) (by decide)
      (by decide) (by decide) (by decide),
    h3 (by decide),
    h4 (alertOf (budget64 1 "Food" (Double.ofDecimal 115 2) (Double.ofDecimal 92 2) 11))
      (by
        rw [hal]
        set_option maxRecDepth 100000 in decide)
      (by set_option maxRecDepth 100000 in decide)
      (by set_option maxRecDepth 100000 in decide)⟩

/-- C30 as stated fails: the budget with `amount = 1.15` and `spent = 0.92` is
returned as an alert, `1.15 * 0.8` being rounded to `0.9199999999999999`, and
the percentage reported for it is `80`, which is not greater than 80. -/
theorem alert_percentage_not_above_80 :
    ¬ ∀ (now : JsDate) (budgets : List Budget64) (userId : UserId) (alerts : List Alert),
        getBudgetAlerts Faults.none now budgets userId = Reply.success alerts →
        ∀ a ∈ alerts, Double.lt (Double.ofInt 0) a.amount = true →
          ∃ p : Double, a.percentage = some p ∧ Double.lt (Double.ofInt 80) p = true := by
  intro h
  obtain ⟨p, hp, hlt⟩ := h nov2026 tightBudgets 7 _ rfl
    (alertOf (budget64 1 "Food" (Double.ofDecimal 115 2) (Double.ofDecimal 92 2) 11))
    (by set_option maxRecDepth 100000 in decide)
    (by set_option maxRecDepth 100000 in decide)
  have hp0 : (alertOf (budget64 1 "Food" (Double.ofDecimal 115 2)
      (Double.ofDecimal 92 2) 11)).percentage = some ⟨5629499534213120, -46⟩ := by
    set_option maxRecDepth 100000 in decide
  rw [hp0] at hp
  cases hp
  revert hlt
  decide

end FinanceTracker
